import Mathlib

/-!
# ColorfulPlotter: ingestion protocol and live data model

A shallow embedding of the core of `src/pango.cpp` (the time-series store, the
entity registry, the command dispatcher and the auto-range computation),
followed by theorems about it.

Conventions of the embedding

* `double` and `float` values are modelled by `Dbl`: NaN, the two infinities and
  the finite values, the latter carried as exact rationals.  Comparisons follow
  IEEE 754 (every ordered comparison with NaN is false); arithmetic on finite
  values is exact (no rounding, no overflow to infinity, a single zero).
  Decimal literals of the source (`1e36`, `0.3`, ...) denote their decimal value.
* C `int` values are `Int`; `/` on ints is truncating division (`Int.tdiv`).
* `std::vector<T>` is `List T`; `std::set<int>` is a strictly increasing
  `List Nat`; `std::unordered_map<std::string,int>` is an association list with
  unique keys.
* Raw pointers into the entity arrays (`ChanInfo::win`, `WindowInfo::fr`) are
  `Option Nat` slot indices; `nullptr` is `none`.
* Loops whose trip count is not syntactically bounded carry a fuel argument; the
  fuel supplied by the callers is shown to be sufficient.
-/

namespace ColorfulPlotter

/-! ## Floating point values -/

/-- An IEEE double (or float) with exact arithmetic on its finite values. -/
inductive Dbl where
  | nan
  | ninf
  | fin (q : ℚ)
  | pinf
  deriving DecidableEq

namespace Dbl

/-- IEEE `a < b`. -/
def lt : Dbl → Dbl → Bool
  | nan, _ => false
  | _, nan => false
  | ninf, ninf => false
  | ninf, _ => true
  | fin _, ninf => false
  | fin a, fin b => decide (a < b)
  | fin _, pinf => true
  | pinf, _ => false

/-- IEEE `a <= b`. -/
def le : Dbl → Dbl → Bool
  | nan, _ => false
  | _, nan => false
  | ninf, _ => true
  | fin _, ninf => false
  | fin a, fin b => decide (a ≤ b)
  | fin _, pinf => true
  | pinf, pinf => true
  | pinf, _ => false

/-- IEEE `a > b`. -/
def gt (a b : Dbl) : Bool := lt b a

/-- IEEE `a >= b`. -/
def ge (a b : Dbl) : Bool := le b a

/-- IEEE `a == b` (false when either side is NaN). -/
def eq : Dbl → Dbl → Bool
  | nan, _ => false
  | _, nan => false
  | a, b => decide (a = b)

/-- IEEE `a != b`. -/
def ne (a b : Dbl) : Bool := !(eq a b)

/-- The function `std::isnan`. -/
def isnan : Dbl → Bool
  | nan => true
  | _ => false

/-- Unary minus. -/
def neg : Dbl → Dbl
  | nan => nan
  | ninf => pinf
  | fin q => fin (-q)
  | pinf => ninf

/-- Addition; `inf + -inf` is NaN. -/
def add : Dbl → Dbl → Dbl
  | nan, _ => nan
  | _, nan => nan
  | pinf, ninf => nan
  | ninf, pinf => nan
  | pinf, _ => pinf
  | _, pinf => pinf
  | ninf, _ => ninf
  | _, ninf => ninf
  | fin a, fin b => fin (a + b)

/-- Subtraction. -/
def sub (a b : Dbl) : Dbl := add a (neg b)

/-- The infinity with the sign of `s * t`, where `s` and `t` are non-zero signs. -/
def signedInf (positive : Bool) : Dbl := if positive then pinf else ninf

/-- Multiplication; `0 * inf` is NaN. -/
def mul : Dbl → Dbl → Dbl
  | nan, _ => nan
  | _, nan => nan
  | fin a, fin b => fin (a * b)
  | fin a, pinf => if a = 0 then nan else signedInf (decide (0 < a))
  | fin a, ninf => if a = 0 then nan else signedInf (decide (a < 0))
  | pinf, fin b => if b = 0 then nan else signedInf (decide (0 < b))
  | ninf, fin b => if b = 0 then nan else signedInf (decide (b < 0))
  | pinf, pinf => pinf
  | ninf, ninf => pinf
  | pinf, ninf => ninf
  | ninf, pinf => ninf

/-- Division; `0/0` and `inf/inf` are NaN, a non-zero finite value over zero is
the infinity with the sign of the numerator (the zero is taken as `+0`). -/
def div : Dbl → Dbl → Dbl
  | nan, _ => nan
  | _, nan => nan
  | fin a, fin b =>
      if b = 0 then (if a = 0 then nan else signedInf (decide (0 < a))) else fin (a / b)
  | fin _, pinf => fin 0
  | fin _, ninf => fin 0
  | pinf, fin b => signedInf (decide (0 ≤ b))
  | ninf, fin b => signedInf (decide (b < 0))
  | pinf, _ => nan
  | ninf, _ => nan

instance : Neg Dbl := ⟨neg⟩
instance : Add Dbl := ⟨add⟩
instance : Sub Dbl := ⟨sub⟩
instance : Mul Dbl := ⟨mul⟩
instance : Div Dbl := ⟨div⟩
instance : Inhabited Dbl := ⟨fin 0⟩

/-- The function `std::min(a, b)`, that is `(b < a) ? b : a`. -/
def stdmin (a b : Dbl) : Dbl := if lt b a then b else a

/-- The function `std::max(a, b)`, that is `(a < b) ? b : a`. -/
def stdmax (a b : Dbl) : Dbl := if lt a b then b else a

/-- The function `pow(a, 4)`. -/
def pow4 : Dbl → Dbl
  | nan => nan
  | ninf => pinf
  | pinf => pinf
  | fin q => fin (q ^ 4)

/-- Truncation of a rational toward zero. -/
def truncQ (q : ℚ) : Int := if 0 ≤ q then Int.floor q else -Int.floor (-q)

/-- The function `std::round`: nearest integer, halfway cases away from zero. -/
def round : Dbl → Dbl
  | fin q => if 0 ≤ q then fin (Int.floor (q + 1 / 2)) else fin (-(Int.floor (-q + 1 / 2)))
  | d => d

/-- Conversion `(int)d`.  For NaN, the infinities and values outside the `int`
range the C++ conversion is undefined; the model returns `INT_MIN`, which is
what the x86-64 conversion instruction produces. -/
def toInt : Dbl → Int
  | fin q =>
      let z := truncQ q
      if -2147483648 ≤ z ∧ z ≤ 2147483647 then z else -2147483648
  | _ => -2147483648

/-- Conversion of an `int` to `double`. -/
def ofInt (z : Int) : Dbl := fin z

end Dbl

/-- Modelled from the spec: `sw_qnan()` comes from `util/mathutil.h`, which is not
part of the sources; it yields the quiet NaN used as the "no data" value. -/
def sw_qnan : Dbl := Dbl.nan

/-! ## Samples and segments -/

/-- The struct `Sample`. -/
structure Sample where
  t : Dbl
  x : Dbl
  deriving DecidableEq

/-- The struct `ChanInfo::Segment`.  The back pointer `parent` always designates the
owning channel and is not represented.  The cached query fields are left
uninitialised by the C++ constructor; the model starts them at zero. -/
structure Segment where
  data : List Sample := []
  vastart : Dbl := sw_qnan
  c1 : Int := 0
  c2 : Int := 0
  toprint : Int := 0
  stride : Int := 0
  alpha : Dbl := Dbl.fin 0
  deriving DecidableEq

/-- The element `data[i]` for an `int` index.  An index outside the vector is an
out-of-bounds read in C++; the model then yields a NaN sample. -/
def Segment.at (seg : Segment) (i : Int) : Sample :=
  if 0 ≤ i then seg.data.getD i.toNat ⟨Dbl.nan, Dbl.nan⟩ else ⟨Dbl.nan, Dbl.nan⟩

/-- The number `data.size()` as an `int`. -/
def Segment.size (seg : Segment) : Int := seg.data.length

/-- Outcome of a routine that can stop at an arithmetic fault (integer division
by zero).  In both cases `s` holds the fields as they were last stored. -/
inductive Run (σ : Type) where
  | done (s : σ)
  | fault (s : σ)

/-- The fields stored by the routine, whether or not it ran to its end. -/
def Run.state {σ : Type} : Run σ → σ
  | .done s => s
  | .fault s => s

/-- Whether the routine ran to its end. -/
def Run.completed {σ : Type} : Run σ → Bool
  | .done _ => true
  | .fault _ => false

/-- The loop `while(l<r){m=(l+r+1)/2; if(data[m].t>=t)r=m-1; else l=m;}` shared
verbatim by `lefttime` and `get_data_at_time`; yields the final `l`. -/
def lefttime_loop (seg : Segment) (t : Dbl) : Nat → Int → Int → Int
  | 0, l, _ => l
  | fuel + 1, l, r =>
      if l < r then
        let m := (l + r + 1).tdiv 2
        if Dbl.ge (seg.at m).t t then lefttime_loop seg t fuel l (m - 1)
        else lefttime_loop seg t fuel m r
      else l

/-- The method `ChanInfo::Segment::lefttime`. -/
def lefttime (seg : Segment) (t : Dbl) : Int :=
  lefttime_loop seg t seg.data.length 0 (seg.size - 1)

/-- The loop `while(l<r){m=(l+r)/2; if(data[m].t<=t)l=m+1; else r=m;}` of
`righttime`; yields the final `(l, r)`. -/
def righttime_loop (seg : Segment) (t : Dbl) : Nat → Int → Int → Int × Int
  | 0, l, r => (l, r)
  | fuel + 1, l, r =>
      if l < r then
        let m := (l + r).tdiv 2
        if Dbl.le (seg.at m).t t then righttime_loop seg t fuel (m + 1) r
        else righttime_loop seg t fuel l m
      else (l, r)

/-- The method `ChanInfo::Segment::righttime`. -/
def righttime (seg : Segment) (t : Dbl) : Int :=
  let lr := righttime_loop seg t seg.data.length 0 (seg.size - 1)
  if lr.1 > lr.2 then -1 else lr.1

/-- The method `ChanInfo::Segment::findtime`.  Division by a zero `toprint` is a
fault; the fields stored before it are kept in the result.  The target count is
taken from the exact product `width*samplespp`; `findtime_with_target` is the
same method with the target count as a parameter. -/
def findtime (seg : Segment) (lt rt samplespp width : Dbl) : Run Segment :=
  let s1 := { seg with c1 := lefttime seg lt }
  let s2 := { s1 with c2 := righttime s1 rt }
  let s3 := { s2 with toprint := Dbl.toInt (Dbl.round (width * samplespp + Dbl.fin (1 / 2))) }
  if s3.toprint = 0 then Run.fault s3
  else
    let s4 := { s3 with stride := (s3.c2 - s3.c1 + 1).tdiv s3.toprint }
    let s5 := if s4.stride = 0 then { s4 with stride := 1 } else s4
    let s6 := { s5 with toprint := (s5.c2 - s5.c1 + s5.stride).tdiv s5.stride }
    Run.done { s6 with
      alpha := Dbl.fin (3 / 10) *
        Dbl.pow4 (Dbl.fin 1 - Dbl.stdmin (Dbl.fin 1) (Dbl.ofInt s6.toprint / width * Dbl.fin 10)) }

/-- The method `ChanInfo::Segment::get_data_at_time`. -/
def get_data_at_time (seg : Segment) (t : Dbl) : Dbl :=
  let n := seg.size
  if seg.data.length = 0 then sw_qnan
  else if seg.data.length = 1 then sw_qnan
  else if Dbl.lt t (seg.at 0).t then sw_qnan
  else if Dbl.gt t (seg.at (n - 1)).t then sw_qnan
  else
    let l := lefttime_loop seg t seg.data.length 0 (seg.size - 2)
    (seg.at l).x + ((seg.at (l + 1)).x - (seg.at l).x) * (t - (seg.at l).t)
      / ((seg.at (l + 1)).t - (seg.at l).t)

/-- The constant `maxsample` of `Instance::accept`. -/
def maxsample : Dbl := Dbl.fin (10 ^ 36)

/-- The method `Instance::accept`. -/
def accept (a : Dbl) : Bool :=
  if Dbl.isnan a then false
  else if Dbl.lt a (-maxsample) || Dbl.gt a maxsample then false
  else true


/-! ## Example data -/

/-- The three samples `(0,0), (1,1), (2,4)` of the specification's scenario. -/
def exampleSegment : Segment :=
  { data := [⟨Dbl.fin 0, Dbl.fin 0⟩, ⟨Dbl.fin 1, Dbl.fin 1⟩, ⟨Dbl.fin 2, Dbl.fin 4⟩] }

/-- The points of `exampleSegment` as rationals. -/
def examplePoints : List (ℚ × ℚ) := [(0, 0), (1, 1), (2, 4)]


/-! ## Containers -/

/-- The type `std::unordered_map<std::string,int>`: an association list with
unique keys.  Ids are never negative, so the mapped `int` is a `Nat`. -/
abbrev NameMap := List (String × Nat)

namespace NameMap

/-- The lookup `m.find(k)`: `none` stands for `m.end()`. -/
def find : NameMap → String → Option Nat
  | [], _ => none
  | (k', v) :: rest, k => if k' = k then some v else find rest k

/-- The call `m.erase(k)`. -/
def erase (m : NameMap) (k : String) : NameMap :=
  m.filter (fun e => decide (e.1 ≠ k))

/-- The assignment `m[k] = v`. -/
def assign : NameMap → String → Nat → NameMap
  | [], k, v => [(k, v)]
  | (k', v') :: rest, k, v =>
      if k' = k then (k, v) :: rest else (k', v') :: assign rest k v

/-- The read `m[k]`: the mapped value, and the map itself, in which a missing key
has been inserted with value 0. -/
def index (m : NameMap) (k : String) : Nat × NameMap :=
  match find m k with
  | some v => (v, m)
  | none => (0, assign m k 0)

/-- The mapped values, in iteration order. -/
def values (m : NameMap) : List Nat := m.map Prod.snd

/-- The keys, in iteration order. -/
def keys (m : NameMap) : List String := m.map Prod.fst

end NameMap

/-- The type `std::set<int>` of ids: a strictly increasing list. -/
abbrev IdSet := List Nat

namespace IdSet

/-- The call `s.insert(a)`. -/
def insert : IdSet → Nat → IdSet
  | [], a => [a]
  | b :: rest, a =>
      if a < b then a :: b :: rest
      else if a = b then b :: rest
      else b :: insert rest a

/-- The call `s.erase(a)`. -/
def erase (s : IdSet) (a : Nat) : IdSet := s.filter (fun b => decide (b ≠ a))

end IdSet

/-- Assignment to one slot of an `svector`.  An `svector` is pre-sized, grows on
access and default-constructs its new slots, so it is modelled as a total
function from slot index to record. -/
def setAt {α : Type} (v : Nat → α) (i : Nat) (a : α) : Nat → α :=
  fun j => if j = i then a else v j

/-! ## Entity records -/

/-- The struct `TextImage`, without its rendered texture. -/
structure TextImage where
  framex : Dbl := Dbl.fin 0
  framey : Dbl := Dbl.fin 0
  desired_size : Dbl := Dbl.fin 0
  angle : Dbl := Dbl.fin 0
  r : Dbl := Dbl.fin 0
  g : Dbl := Dbl.fin 0
  b : Dbl := Dbl.fin 0
  text : String := ""
  deriving DecidableEq

/-- The struct `ChanInfo::ImageData`, without its GPU textures (`tex`,
`totalfill`, `maxtexture`). -/
structure ImageData where
  data : List Dbl := []
  t1 : Dbl := Dbl.fin (10 ^ 10)
  t2 : Dbl := Dbl.fin (-(10 ^ 10))
  x1 : Dbl := Dbl.fin (10 ^ 10)
  x2 : Dbl := Dbl.fin (-(10 ^ 10))
  dx : Dbl := Dbl.fin 0
  dt : Dbl := Dbl.fin 0
  h : Int := 0
  w : Int := 0
  fixtex : Bool := false
  deriving DecidableEq

/-- The anonymous struct `ChanInfo::style`. -/
structure Style where
  r : Dbl := Dbl.fin 1
  g : Dbl := Dbl.fin 1
  b : Dbl := Dbl.fin 1
  a : Dbl := Dbl.fin 1
  width : Dbl := Dbl.fin 1
  style : Int := 0
  deriving DecidableEq

/-- The struct `ChanInfo`.  The pointer `win` is the slot index of the window. -/
structure ChanInfo where
  active : Int := 0
  window : Nat := 0
  used : Int := 0
  showshadow : Int := 1
  samplesperpixel : Dbl := Dbl.fin 10
  wintab : Int := 1
  data : List Segment := []
  data2 : ImageData := {}
  style : Style := {}
  name : String := ""
  dname : String := ""
  label : String := ""
  displayname : Int := 1
  win : Option Nat := none
  im_name : TextImage := {}
  im_label : TextImage := {}
  deriving DecidableEq

/-- The struct `FrameInfo`, without its render scratch (`da_*`, `lsize*`, `scale*`,
`pts`, `vbo`, mouse and drag fields).  `lasttime` and `firsttime` are
uninitialised in C++ until `findlasttimes` runs; the model starts them at 0. -/
structure FrameInfo where
  reconfigured : Int := 1
  mode : Int := 0
  right_label : Int := 0
  win_basic_color : Int := 0
  used : Int := 0
  active : Int := 0
  mousedraw : Int := 1
  x1 : Dbl := Dbl.fin 0
  y1 : Dbl := Dbl.fin 0
  x2 : Dbl := Dbl.fin 1
  y2 : Dbl := Dbl.fin 1
  textratio : Dbl := Dbl.fin (1 / 4)
  labelratio : Dbl := Dbl.fin 1
  offsetlabel : Dbl := Dbl.fin 0
  textsize : Dbl := Dbl.fin 8
  timespan : Dbl := Dbl.fin 10
  endtime : Dbl := Dbl.fin 10
  mt : Dbl := Dbl.fin (2 / 100)
  mb : Dbl := Dbl.fin (3 / 100)
  ml : Dbl := Dbl.fin (4 / 100)
  mr : Dbl := Dbl.fin 0
  lasttime : Dbl := Dbl.fin 0
  firsttime : Dbl := Dbl.fin 0
  name : String := ""
  windows : IdSet := []
  linked_frames_time : List String := []
  Images : List (String × TextImage) := []
  deriving DecidableEq

/-- The struct `WindowInfo`, without its render scratch.  The accessors `top()`
and `bottom()` always designate `top_[1]` and `bottom_[1]`, which are the fields
`top` and `bottom` here; slot 0 of the two arrays is never read.  The pointer `fr`
is the slot index of the frame. -/
structure WindowInfo where
  name : String := ""
  autorange : Int := 0
  minskip : Int := 0
  pos_top : Dbl := Dbl.fin 1
  pos_bottom : Dbl := Dbl.fin 1
  r : Dbl := Dbl.fin 1
  g : Dbl := Dbl.fin 1
  b : Dbl := Dbl.fin 1
  frame : Nat := 0
  used : Int := 0
  names : Int := 1
  logsc : Int := 0
  top : Dbl := Dbl.fin 1
  bottom : Dbl := Dbl.fin 0
  channels : IdSet := []
  reconfigured : Int := 1
  curtab : Int := 1
  fr : Option Nat := none
  deriving DecidableEq

/-- The struct `Instance::ScreenshotRequest`. -/
structure ScreenshotRequest where
  take : Int := 0
  sizex : Int := 0
  sizey : Int := 0
  x : Int := 0
  y : Int := 0
  blocking : Bool := false
  precise : Bool := false
  dest : String := ""
  deriving DecidableEq

/-- The counters of `Instance::CommHandler`.  The hold counter `cnt` is only ever
incremented from zero and decremented when non-zero, so it is a `Nat`. -/
structure CommCounters where
  samples : Int := 0
  packets : Int := 0
  cnt : Nat := 0
  deriving DecidableEq

/-- The data model of `struct Instance` (its rendering, input and timing members
are left out) together with the dispatcher's own state: `lockdepth` is the number
of times the dispatching thread currently holds the recursive mutex `configdata`. -/
structure Instance where
  channels : Nat → ChanInfo := fun _ => {}
  windows : Nat → WindowInfo := fun _ => {}
  frames : Nat → FrameInfo := fun _ => {}
  uchannels : NameMap := []
  uframes : NameMap := []
  uwindows : NameMap := []
  size_request : Int := 0
  size_request_x : Int := 0
  size_request_y : Int := 0
  screenshot : ScreenshotRequest := {}
  sizex : Int := 0
  sizey : Int := 0
  bg_col : List Dbl := [Dbl.fin 0, Dbl.fin 0, Dbl.fin 0, Dbl.fin 0]
  fg_col : List Dbl := [Dbl.fin 1, Dbl.fin 1, Dbl.fin 1, Dbl.fin 1]
  displayfonts : Int := 1
  displaylists : Int := 1
  iconify : Int := 0
  draw_curtab : Bool := true
  use_dynamic_range : Bool := true
  comm : CommCounters := {}
  lockdepth : Int := 0

/-- The server state at start-up: no entity registered, no data, lock free. -/
def Instance.empty : Instance := {}

/-- Ways in which the process stops instead of returning from a handler. -/
inductive Fatal where
  | exit (code : Nat)
  | assertion (msg : String)
  | nullDeref
  deriving DecidableEq

/-- Result of a handler: the next state, or the way the process died. -/
abbrev Outcome := Except Fatal Instance

/-- A decoded command packet.  The handlers read the shared buffer through
several overlaid views; each view used by the dispatcher is one field here, and
the raw-memory decoders `extract` and `extractVS` are represented by their
results `opts` and `toks`. -/
structure Packet where
  d0 : Nat := 0
  d1 : Nat := 0
  d2 : Nat := 0
  i1 : Int := 0
  i2 : Int := 0
  c8 : String := ""
  c32 : String := ""
  c64 : String := ""
  c128 : String := ""
  c192 : String := ""
  opts : List (String × Dbl) := []
  toks : List String := []
  samples : List Sample := []
  f : List Dbl := []
  data : List Dbl := []

/-! ## Time-series store operations -/

/-- The method `Instance::clear_data(int)`. -/
def clear_data_id (s : Instance) (q1 : Nat) : Instance :=
  { s with channels := setAt s.channels q1 { s.channels q1 with data := [], data2 := {} } }

/-- The method `Instance::clear_data(const std::string&)`. -/
def clear_data (s : Instance) (a : String) : Instance :=
  match s.uchannels.find a with
  | none => s
  | some c => clear_data_id s c

/-- The method `Instance::clear_all_data`. -/
def clear_all_data (s : Instance) : Instance :=
  s.uchannels.foldl (fun st e => clear_data_id st e.2) s

/-- The loop `for(int q1=1;;q1++)if(all.find(q1)==all.end())return q1;`. -/
def firstfree_loop (all : List Nat) : Nat → Nat → Nat
  | 0, q1 => q1
  | fuel + 1, q1 => if q1 ∈ all then firstfree_loop all fuel (q1 + 1) else q1

/-- The method `Instance::firstfree`. -/
def firstfree (a : NameMap) : Nat :=
  firstfree_loop a.values (a.values.length + 1) 1

/-- Apply `g` to `v.back()`. -/
def modifyBack {α : Type} (g : α → α) : List α → List α
  | [] => []
  | [a] => [g a]
  | a :: b :: rest => a :: modifyBack g (b :: rest)

/-- The method `Instance::newsamples`; `a` holds the `num` samples of the call. -/
def newsamples (s : Instance) (name : String) (a : List Sample) (newsegment : Bool) :
    Instance :=
  let ix := s.uchannels.index name
  if ix.1 = 0 then { s with uchannels := ix.2.erase name }
  else
    let ch := s.channels ix.1
    let d1 := if ch.data.length = 0 || newsegment then ch.data ++ [({} : Segment)] else ch.data
    let d2 := modifyBack (fun seg => { seg with vastart := Dbl.nan }) d1
    let d3 := a.foldl
      (fun d smp =>
        if accept smp.x then modifyBack (fun seg => { seg with data := seg.data ++ [smp] }) d
        else d)
      d2
    { s with uchannels := ix.2, channels := setAt s.channels ix.1 { ch with data := d3 } }

/-- The method `Instance::newimage`; `data` is the float block of the packet.  The
`int` product `w*h*3` is taken without wrap-around. -/
def newimage (s : Instance) (name : String) (data : List Dbl) : Instance :=
  let ix := s.uchannels.index name
  if ix.1 = 0 then { s with uchannels := ix.2.erase name }
  else
    let ch := s.channels ix.1
    let w := Dbl.toInt (data.getD 4 (Dbl.fin 0))
    let h := Dbl.toInt (data.getD 5 (Dbl.fin 0))
    let e0 := if h ≠ ch.data2.h then ({} : ImageData) else ch.data2
    let e1 := { e0 with h := h, w := e0.w + w }
    let e2 := { e1 with
      t1 := Dbl.stdmin e1.t1 (data.getD 0 (Dbl.fin 0)),
      t2 := Dbl.stdmax e1.t2 (data.getD 1 (Dbl.fin 0)),
      x1 := Dbl.stdmin e1.x1 (data.getD 2 (Dbl.fin 0)),
      x2 := Dbl.stdmax e1.x2 (data.getD 3 (Dbl.fin 0)) }
    let e3 := { e2 with dt := data.getD 6 (Dbl.fin 0), dx := data.getD 7 (Dbl.fin 0) }
    let segs : List Segment := [{ data := [⟨e3.t1, e3.x1⟩, ⟨e3.t2, e3.x2⟩] }]
    let e4 := { e3 with
      data := e3.data ++ (List.range (w * h * 3).toNat).map
        (fun q1 => data.getD (16 + q1) (Dbl.fin 0)) }
    let e5 := { e4 with fixtex := true }
    { s with uchannels := ix.2,
             channels := setAt s.channels ix.1 { ch with data := segs, data2 := e5 } }

/-! ## Entity registry operations -/

/-- Update of the record in one channel slot. -/
def updChan (s : Instance) (c : Nat) (g : ChanInfo → ChanInfo) : Instance :=
  { s with channels := setAt s.channels c (g (s.channels c)) }

/-- Update of the record in one window slot. -/
def updWin (s : Instance) (w : Nat) (g : WindowInfo → WindowInfo) : Instance :=
  { s with windows := setAt s.windows w (g (s.windows w)) }

/-- Update of the record in one frame slot. -/
def updFrame (s : Instance) (f : Nat) (g : FrameInfo → FrameInfo) : Instance :=
  { s with frames := setAt s.frames f (g (s.frames f)) }

/-- The method `Instance::remove_channel`.  Dereferencing a null `win` pointer
kills the process. -/
def remove_channel (s : Instance) (name : String) : Outcome :=
  let ix := s.uchannels.index name
  if ix.1 = 0 then .ok { s with uchannels := ix.2.erase name }
  else
    let c := ix.1
    let s1 := updChan { s with uchannels := ix.2 } c (fun ch => { ch with used := 0 })
    match (s1.channels c).win with
    | none => .error Fatal.nullDeref
    | some w =>
        let s2 := updWin s1 w (fun win => { win with channels := IdSet.erase win.channels c })
        .ok { s2 with uchannels := s2.uchannels.erase name }

/-- The method `Instance::deactivate_channel`. -/
def deactivate_channel (s : Instance) (name : String) : Instance :=
  let ix := s.uchannels.index name
  if ix.1 = 0 then { s with uchannels := ix.2.erase name }
  else updChan { s with uchannels := ix.2 } ix.1 (fun ch => { ch with active := 0 })

/-- The method `Instance::sort_channel`.  The library routine `std::sort`, called
with the comparator `a.t<b.t`, is the parameter `stdsort`. -/
def sort_channel (stdsort : List Sample → List Sample) (s : Instance) (name : String) :
    Instance :=
  let ix := s.uchannels.index name
  if ix.1 = 0 then { s with uchannels := ix.2.erase name }
  else
    updChan { s with uchannels := ix.2 } ix.1
      (fun ch => { ch with data := ch.data.map (fun seg => { seg with data := stdsort seg.data }) })

/-- The method `Instance::remove_window2` with its by-reference parameter: `name`
reads the referenced string in the current state.  When the reference designates
the name stored in a window slot, the final `uwindows.erase(name)` sees the value
left there by the preceding `win=WindowInfo{}`. -/
def remove_window2_ref (s : Instance) (name : Instance → String) : Outcome :=
  let ix := s.uwindows.index (name s)
  if ix.1 = 0 then .ok { s with uwindows := ix.2.erase (name s) }
  else do
    let w := ix.1
    let s1 : Instance := { s with uwindows := ix.2 }
    let cc := (s1.windows w).channels
    let s2 ← cc.foldlM (fun st c => remove_channel st (st.channels c).name) s1
    let s3 : Instance := { s2 with windows := setAt s2.windows w {} }
    pure { s3 with uwindows := s3.uwindows.erase (name s3) }

/-- The method `Instance::remove_window2` called on a string of its own. -/
def remove_window2 (s : Instance) (name : String) : Outcome :=
  remove_window2_ref s (fun _ => name)

/-- The method `Instance::remove_frame`.  Each window is removed through a
reference to the name held in its slot. -/
def remove_frame (s : Instance) (name : String) : Outcome :=
  let ix := s.uframes.index name
  if ix.1 = 0 then .ok { s with uframes := ix.2.erase name }
  else do
    let f := ix.1
    let s1 := updFrame { s with uframes := ix.2 } f (fun fr => { fr with used := 0 })
    let s2 ← (s1.frames f).windows.foldlM
      (fun st w => remove_window2_ref st (fun st' => (st'.windows w).name)) s1
    pure { s2 with uframes := s2.uframes.erase name }

/-- The method `Instance::delete_text_frame`. -/
def delete_text_frame (s : Instance) (name : String) : Instance :=
  let ix := s.uframes.index name
  if ix.1 = 0 then { s with uframes := ix.2.erase name }
  else updFrame { s with uframes := ix.2 } ix.1 (fun fr => { fr with Images := [] })

/-- The method `Instance::show_frame`. -/
def show_frame (s : Instance) (name : String) (value : Int) : Instance :=
  let ix := s.uframes.index name
  if ix.1 = 0 then { s with uframes := ix.2.erase name }
  else updFrame { s with uframes := ix.2 } ix.1 (fun fr => { fr with active := value })

/-- The method `Instance::remove_all_channels`. -/
def remove_all_channels (s : Instance) : Outcome :=
  s.uchannels.keys.foldlM (fun st k => remove_channel st k) s

/-- The method `Instance::deactivate_all_channels`. -/
def deactivate_all_channels (s : Instance) : Instance :=
  s.uchannels.keys.foldl (fun st k => deactivate_channel st k) s

/-- The method `Instance::remove_all_frames`. -/
def remove_all_frames (s : Instance) : Outcome :=
  s.uframes.keys.foldlM (fun st k => remove_frame st k) s

/-- The method `Instance::hide_all_frames`. -/
def hide_all_frames (s : Instance) : Instance :=
  s.uframes.keys.foldl (fun st k => show_frame st k 0) s

/-- The test `key.find(pre)==0`: `pre` is an initial part of `key`. -/
def startsWith : List Char → List Char → Bool
  | _, [] => true
  | [], _ :: _ => false
  | a :: key, b :: pre => a = b && startsWith key pre

/-- The method `Instance::show_all_frames_prefix`. -/
def show_all_frames_prefix (s : Instance) (pre : String) : Instance :=
  (s.uframes.keys.filter (fun k => startsWith k.data pre.data)).foldl
    (fun st k => show_frame st k 1) s

/-- The body of the segment loop of `findlasttimes` for one segment of channel
record `c`.  Dereferencing a null `win` or `fr` pointer kills the process. -/
def findlasttimes_segment (c : ChanInfo) (st1 : Instance) (seg : Segment) : Outcome :=
  if seg.data.length = 0 then .ok st1
  else
    match c.win with
    | none => .error Fatal.nullDeref
    | some w =>
      match (st1.windows w).fr with
      | none => .error Fatal.nullDeref
      | some f =>
        let st2 :=
          if Dbl.gt (seg.at (seg.size - 1)).t (st1.frames f).lasttime then
            updFrame st1 f (fun fr => { fr with lasttime := (seg.at (seg.size - 1)).t })
          else st1
        let st3 :=
          if Dbl.lt (seg.at 0).t (st2.frames f).firsttime then
            updFrame st2 f (fun fr => { fr with firsttime := (seg.at 0).t })
          else st2
        .ok st3

/-- The body of the channel loop of `findlasttimes` for one entry of `uchannels`. -/
def findlasttimes_channel (st : Instance) (e : String × Nat) : Outcome :=
  if (st.channels e.2).active = 0 then .ok st
  else (st.channels e.2).data.foldlM (findlasttimes_segment (st.channels e.2)) st

/-- The three closing loops of `findlasttimes` over `uframes`, for one entry each. -/
def findlasttimes_fix1 (st : Instance) (e : String × Nat) : Instance :=
  if Dbl.eq (st.frames e.2).lasttime (Dbl.fin (-(10 ^ 100))) then
    updFrame st e.2 (fun fr => { fr with lasttime := Dbl.fin 1 })
  else st

/-- Second closing loop: `if(firsttime==inf)firsttime=-1`. -/
def findlasttimes_fix2 (st : Instance) (e : String × Nat) : Instance :=
  if Dbl.eq (st.frames e.2).firsttime (Dbl.fin (10 ^ 100)) then
    updFrame st e.2 (fun fr => { fr with firsttime := Dbl.fin (-1) })
  else st

/-- Third closing loop: `if(lasttime==firsttime)firsttime+=0.1`. -/
def findlasttimes_fix3 (st : Instance) (e : String × Nat) : Instance :=
  if Dbl.eq (st.frames e.2).lasttime (st.frames e.2).firsttime then
    updFrame st e.2 (fun fr => { fr with firsttime := fr.firsttime + Dbl.fin (1 / 10) })
  else st

/-- The method `Instance::findlasttimes` (its last loop is disabled by `if(0)`). -/
def findlasttimes (s : Instance) : Outcome := do
  let s1 := s.uframes.foldl
    (fun st e => updFrame st e.2
      (fun fr => { fr with lasttime := Dbl.fin (-(10 ^ 100)), firsttime := Dbl.fin (10 ^ 100) })) s
  let s2 ← s1.uchannels.foldlM findlasttimes_channel s1
  let s3 := s2.uframes.foldl findlasttimes_fix1 s2
  let s4 := s3.uframes.foldl findlasttimes_fix2 s3
  let s5 := s4.uframes.foldl findlasttimes_fix3 s4
  pure s5

/-- The method `Instance::follow_all_frames`. -/
def follow_all_frames (s : Instance) : Outcome := do
  let s1 ← findlasttimes s
  pure (s1.uframes.foldl
    (fun st e => updFrame st e.2 (fun fr => { fr with endtime := fr.lasttime })) s1)

/-! ## Configuration -/

/-- One of the five scans of `configchannel` and `configframe` over the tokens:
`for(q1...)if(e2[q1]==key)if(q1<e2.size()-1)if(e2[q1+1].size()&&e2[q1+1][0]=='@')
v=e2[q1+1].substr(1);` started with `v = acc`. -/
def tokenValue (key : String) : List String → String → String
  | a :: b :: rest, acc =>
      tokenValue key (b :: rest)
        (if a = key then
          (match b.data with
            | '@' :: cs => String.mk cs
            | _ => acc)
         else acc)
  | _, acc => acc

/-- The statement `if(i.first==key) body;` of an option loop. -/
def whenKey (i : String × Dbl) (key : String) (body : Instance → Instance) (s : Instance) :
    Instance :=
  if i.1 = key then body s else s

/-- The body of the option loop of `configchannel` for one option `i`, on window
slot `w` and channel slot `c`: the twenty tests in source order. -/
def configchannel_option (w c : Nat) (s : Instance) (i : String × Dbl) : Instance :=
  s
  |> whenKey i "top" (fun s =>
      if (s.windows w).autorange = 0 then updWin s w (fun win => { win with top := i.2 }) else s)
  |> whenKey i "bottom" (fun s =>
      if (s.windows w).autorange = 0 then updWin s w (fun win => { win with bottom := i.2 })
      else s)
  |> whenKey i "posbot" (fun s => updWin s w (fun win => { win with pos_bottom := i.2 }))
  |> whenKey i "postop" (fun s => updWin s w (fun win => { win with pos_top := i.2 }))
  |> whenKey i "minskp" (fun s => updWin s w (fun win => { win with minskip := Dbl.toInt i.2 }))
  |> whenKey i "autor" (fun s => updWin s w (fun win => { win with autorange := Dbl.toInt i.2 }))
  |> whenKey i "names" (fun s => updWin s w (fun win => { win with names := Dbl.toInt i.2 }))
  |> whenKey i "logsc" (fun s => updWin s w (fun win => { win with logsc := Dbl.toInt i.2 }))
  |> whenKey i "red" (fun s =>
      updChan s c (fun ch => { ch with style := { ch.style with r := i.2 } }))
  |> whenKey i "green" (fun s =>
      updChan s c (fun ch => { ch with style := { ch.style with g := i.2 } }))
  |> whenKey i "blue" (fun s =>
      updChan s c (fun ch => { ch with style := { ch.style with b := i.2 } }))
  |> whenKey i "alpha" (fun s =>
      updChan s c (fun ch => { ch with style := { ch.style with a := i.2 } }))
  |> whenKey i "style" (fun s =>
      updChan s c (fun ch => { ch with style := { ch.style with style := Dbl.toInt i.2 } }))
  |> whenKey i "width" (fun s =>
      updChan s c (fun ch => { ch with style := { ch.style with width := i.2 } }))
  |> whenKey i "wintab" (fun s => updChan s c (fun ch => { ch with wintab := Dbl.toInt i.2 }))
  |> whenKey i "shownm" (fun s =>
      updChan s c (fun ch => { ch with displayname := Dbl.toInt i.2 }))
  |> whenKey i "showsh" (fun s =>
      updChan s c (fun ch => { ch with showshadow := Dbl.toInt i.2 }))
  |> whenKey i "active" (fun s => updChan s c (fun ch => { ch with active := Dbl.toInt i.2 }))
  |> whenKey i "perpix" (fun s => updChan s c (fun ch => { ch with samplesperpixel := i.2 }))
  |> whenKey i "clear" (fun s => if Dbl.toInt i.2 = 1 then clear_data_id s c else s)

/-- The tail of `configchannel`, from `chan.used=1;` to its end: the linkage of
channel slot `c`, window slot `w` and frame slot `f`, the option loop, and the
final assignments. -/
def configchannel_apply (s2 : Instance) (c w f : Nat) (name dname label window : String)
    (e1 : List (String × Dbl)) : Instance :=
  let s3 := updChan s2 c (fun ch =>
    { ch with used := 1, name := name, dname := dname, label := label, window := w,
              win := some w })
  let s4 := updWin s3 w (fun win =>
    { win with channels := IdSet.insert win.channels c, used := 1, name := window,
               frame := f, fr := some f })
  let s5 := updFrame s4 f (fun fr => { fr with windows := IdSet.insert fr.windows w })
  let s6 := e1.foldl (configchannel_option w c) s5
  let s7 := if (s6.windows w).autorange = 0 then
      updWin s6 w (fun win => { win with reconfigured := 1 })
    else s6
  updChan s7 c (fun ch =>
    { ch with im_name := { ch.im_name with text := dname },
              im_label := { ch.im_label with text := label } })

/-- The statement `if(uchannels.find(name)==uchannels.end()){c=uchannels[name]=
firstfree(uchannels);channels[c]=ChanInfo();}else c=uchannels[name];`: the state
and the slot `c`. -/
def resolve_channel (s : Instance) (name : String) : Instance × Nat :=
  match s.uchannels.find name with
  | none =>
      ({ s with uchannels := s.uchannels.assign name (firstfree s.uchannels),
                channels := setAt s.channels (firstfree s.uchannels) {} },
       firstfree s.uchannels)
  | some c => (s, c)

/-- The statement `if(uwindows.find(window)==uwindows.end()){w=uwindows[window]=
firstfree(uwindows);windows[w]=WindowInfo();}else w=uwindows[window];`: the state
and the slot `w`. -/
def resolve_window (s : Instance) (window : String) : Instance × Nat :=
  match s.uwindows.find window with
  | none =>
      ({ s with uwindows := s.uwindows.assign window (firstfree s.uwindows),
                windows := setAt s.windows (firstfree s.uwindows) {} },
       firstfree s.uwindows)
  | some w => (s, w)

/-- The test `channels[c].win!=nullptr` and `channels[c].win->name!=window`. -/
def window_name_differs (s : Instance) (c : Nat) (window : String) : Bool :=
  match (s.channels c).win with
  | none => false
  | some wi => decide ((s.windows wi).name ≠ window)

/-- The failure condition of `assert(channels[c].win==&win)`, checked when
`channels[c].win` is not null. -/
def channel_window_mismatch (s : Instance) (c w : Nat) : Bool :=
  match (s.channels c).win with
  | none => false
  | some wi => decide (wi ≠ w)

/-- The failure condition of `assert(win.fr==&frames[f])`, checked when `win.fr` is
not null. -/
def window_frame_mismatch (s : Instance) (w f : Nat) : Bool :=
  match (s.windows w).fr with
  | none => false
  | some fi => decide (fi ≠ f)

/-- The method `Instance::configchannel`, on the decoded options `e1` and tokens
`e2`.  A failed `assert` kills the process. -/
def configchannel (s : Instance) (e1 : List (String × Dbl)) (e2 : List String) : Outcome :=
  let name := tokenValue "#name" e2 ""
  let window := tokenValue "#window" e2 ""
  let frame := tokenValue "#frame" e2 ""
  let dname := tokenValue "#dname" e2 ""
  let label := tokenValue "#label" e2 ""
  if frame = "" ∨ name = "" then .ok s
  else if s.uframes.find frame = none then .ok s
  else
    let dname := if dname = "" then name else dname
    let window := if window = "" then name else window
    let fx := s.uframes.index frame
    let f := fx.1
    let s0 : Instance := { s with uframes := fx.2 }
    let rc := resolve_channel s0 name
    if window_name_differs rc.1 rc.2 window then .ok rc.1
    else
      let rw := resolve_window rc.1 window
      if channel_window_mismatch rw.1 rc.2 rw.2 then
        .error (Fatal.assertion "cannot reassign channel window")
      else if window_frame_mismatch rw.1 rw.2 f then
        .error (Fatal.assertion "cannot reassign window frame  ")
      else .ok (configchannel_apply rw.1 rc.2 rw.2 f name dname label window e1)

/-- The body of the option loop of `configframe` for one option `i`: the
nineteen tests in source order. -/
def configframe_option (f : Nat) (s : Instance) (i : String × Dbl) : Instance :=
  s
  |> whenKey i "texts" (fun s => updFrame s f (fun fr => { fr with textsize := i.2 }))
  |> whenKey i "textr" (fun s => updFrame s f (fun fr => { fr with textratio := i.2 }))
  |> whenKey i "labelr" (fun s => updFrame s f (fun fr => { fr with labelratio := i.2 }))
  |> whenKey i "offlab" (fun s => updFrame s f (fun fr => { fr with offsetlabel := i.2 }))
  |> whenKey i "span" (fun s => updFrame s f (fun fr => { fr with timespan := i.2 }))
  |> whenKey i "end" (fun s => updFrame s f (fun fr => { fr with endtime := i.2 }))
  |> whenKey i "mt" (fun s => updFrame s f (fun fr => { fr with mt := i.2 }))
  |> whenKey i "mb" (fun s => updFrame s f (fun fr => { fr with mb := i.2 }))
  |> whenKey i "mr" (fun s => updFrame s f (fun fr => { fr with mr := i.2 }))
  |> whenKey i "ml" (fun s => updFrame s f (fun fr => { fr with ml := i.2 }))
  |> whenKey i "mouse" (fun s => updFrame s f (fun fr => { fr with mousedraw := Dbl.toInt i.2 }))
  |> whenKey i "mode" (fun s => updFrame s f (fun fr => { fr with mode := Dbl.toInt i.2 }))
  |> whenKey i "rightl" (fun s =>
      updFrame s f (fun fr => { fr with right_label := Dbl.toInt i.2 }))
  |> whenKey i "wincol" (fun s =>
      updFrame s f (fun fr => { fr with win_basic_color := Dbl.toInt i.2 }))
  |> whenKey i "active" (fun s => updFrame s f (fun fr => { fr with active := Dbl.toInt i.2 }))
  |> whenKey i "x1" (fun s => updFrame s f (fun fr => { fr with x1 := i.2 }))
  |> whenKey i "y1" (fun s => updFrame s f (fun fr => { fr with y1 := i.2 }))
  |> whenKey i "x2" (fun s => updFrame s f (fun fr => { fr with x2 := i.2 }))
  |> whenKey i "y2" (fun s => updFrame s f (fun fr => { fr with y2 := i.2 }))

/-- The statement `if(uframes.find(name)==uframes.end()){f=uframes[name]=
firstfree(uframes);frames[f]=FrameInfo();}else f=uframes[name];`: the state and
the slot `f`. -/
def resolve_frame (s : Instance) (name : String) : Instance × Nat :=
  match s.uframes.find name with
  | none =>
      ({ s with uframes := s.uframes.assign name (firstfree s.uframes),
                frames := setAt s.frames (firstfree s.uframes) {} },
       firstfree s.uframes)
  | some f => (s, f)

/-- The method `Instance::configframe`, on the decoded options `e1` and tokens `e2`. -/
def configframe (s : Instance) (e1 : List (String × Dbl)) (e2 : List String) : Instance :=
  let name := tokenValue "#name" e2 ""
  let rf := resolve_frame s name
  let s2 := updFrame rf.1 rf.2 (fun fr => { fr with used := 1, name := name })
  e1.foldl (configframe_option rf.2) s2

/-- The value `e2[key]` of `addtexttoframe`: the last option named `key`, or 0. -/
def optionValue (opts : List (String × Dbl)) (key : String) : Dbl :=
  opts.foldl (fun acc i => if i.1 = key then i.2 else acc) (Dbl.fin 0)

/-- The assignment `m[k] = v` on a `std::map<std::string,TextImage>`. -/
def assignImage : List (String × TextImage) → String → TextImage → List (String × TextImage)
  | [], k, v => [(k, v)]
  | (k', v') :: rest, k, v =>
      if k' = k then (k, v) :: rest else (k', v') :: assignImage rest k v

/-- The method `Instance::addtexttoframe`. -/
def addtexttoframe (s : Instance) (p : Packet) : Outcome :=
  let i1 : TextImage :=
    { framex := optionValue p.opts "framex", framey := optionValue p.opts "framey",
      angle := optionValue p.opts "angle", desired_size := optionValue p.opts "size",
      r := optionValue p.opts "r", g := optionValue p.opts "g", b := optionValue p.opts "b" }
  match s.uframes.find p.c64 with
  | none => .error (Fatal.exit 112)
  | some f =>
      .ok (updFrame s f (fun fr =>
        { fr with Images := assignImage fr.Images p.c192 { i1 with text := p.c128 } }))

/-! ## Command dispatcher -/

/-- The loop `while(cnt){configdata.unlock();cnt--;}` on the lock depth. -/
def release_holds : Nat → Int → Int
  | 0, depth => depth
  | cnt + 1, depth => release_holds cnt (depth - 1)

/-- The statement `if(s.d[0]==code) handler;` of `listen_main`. -/
def onOp (p : Packet) (code : Nat) (handler : Instance → Outcome) (s : Instance) : Outcome :=
  if p.d0 = code then handler s else .ok s

/-- Opcode 61.  The wait `while(screenshot.take==1)` for the render thread to
pick up a pending request is not represented; the request is then stored. -/
def screenshot_request (p : Packet) (s : Instance) : Instance :=
  { s with screenshot :=
      { s.screenshot with precise := true, blocking := decide (p.i1 ≠ 0), dest := p.c32,
                          take := 1, sizex := s.sizex, sizey := s.sizey, x := 0, y := 0 } }

/-- Opcode 65. -/
def set_colors (p : Packet) (s : Instance) : Instance :=
  { s with
    bg_col := [p.data.getD 4 (Dbl.fin 0), p.data.getD 5 (Dbl.fin 0), p.data.getD 6 (Dbl.fin 0),
      p.data.getD 7 (Dbl.fin 0)],
    fg_col := [Dbl.fin 1 - p.data.getD 4 (Dbl.fin 0), Dbl.fin 1 - p.data.getD 5 (Dbl.fin 0),
      Dbl.fin 1 - p.data.getD 6 (Dbl.fin 0), s.fg_col.getD 3 (Dbl.fin 1)] }

/-- Opcode 82. -/
def set_toggles (p : Packet) (s : Instance) : Instance :=
  let s := if p.c8 = "display_lines" then { s with displaylists := p.i1 } else s
  let s := if p.c8 = "display_fonts" then { s with displayfonts := p.i1 } else s
  let s := if p.c8 = "iconify" then { s with iconify := p.i1 } else s
  s

/-- Opcode 91 (begin batch). -/
def batch_begin (s : Instance) : Instance :=
  let s1 : Instance :=
    { s with lockdepth := release_holds s.comm.cnt s.lockdepth, comm := { s.comm with cnt := 0 } }
  let s2 : Instance := { s1 with lockdepth := s1.lockdepth + 1 }
  { s2 with comm := { samples := 0, packets := 0, cnt := s2.comm.cnt + 1 } }

/-- Opcode 92 (end batch). -/
def batch_end (s : Instance) : Instance :=
  if s.comm.cnt ≠ 0 then
    { s with comm := { s.comm with cnt := s.comm.cnt - 1 }, lockdepth := s.lockdepth - 1 }
  else s

/-- Opcode 151 with `d[1]==1`: the read `uframes[name]` registers an unknown name
under id 0. -/
def link_frames (p : Packet) (s : Instance) : Instance :=
  if p.d1 = 1 then
    let ix := s.uframes.index p.c32
    updFrame { s with uframes := ix.2 } ix.1
      (fun fr => { fr with linked_frames_time := fr.linked_frames_time ++ [p.c128] })
  else s

/-- Opcode 4 (multi-sample ingestion). -/
def ingest_samples (p : Packet) (s : Instance) : Instance :=
  let s1 : Instance := { s with comm := { s.comm with packets := s.comm.packets + 1 } }
  let s2 := if p.d1 ≠ 0 then clear_data s1 p.c8 else s1
  let s3 := newsamples s2 p.c8 (p.samples.take p.i1.toNat) (decide (p.d2 ≠ 0))
  { s3 with comm := { s3.comm with samples := s3.comm.samples + p.i1 } }

/-- Opcode 5 (image-tile ingestion). -/
def ingest_image (p : Packet) (s : Instance) : Instance :=
  let s1 := if p.d1 ≠ 0 then clear_data s p.c8 else s
  newimage s1 p.c8 p.f

/-- The opcode tests of one iteration of `listen_main`, in source order. -/
def dispatch (stdsort : List Sample → List Sample) (p : Packet) (s : Instance) : Outcome := do
  let s ← onOp p 11 remove_all_channels s
  let s ← onOp p 12 (fun s => remove_channel s p.c32) s
  let s ← onOp p 15 (fun s => .ok (deactivate_all_channels s)) s
  let s ← onOp p 21 (fun s => .ok (clear_all_data s)) s
  let s ← onOp p 22 (fun s => .ok (clear_data s p.c32)) s
  let s ← onOp p 31 remove_all_frames s
  let s ← onOp p 32 (fun s => remove_frame s p.c32) s
  let s ← onOp p 33 (fun s => .ok (hide_all_frames s)) s
  let s ← onOp p 35 (fun s => .ok ( show_all_frames_prefix s p.c32)) s
  let s ← onOp p 37 follow_all_frames s
  let s ← onOp p 41 (fun s => remove_window2 s p.c32) s
  let s ← onOp p 51 (fun s => .ok (sort_channel stdsort s p.c32)) s
  let s ← onOp p 61 (fun s => .ok (screenshot_request p s)) s
  let s ← onOp p 65 (fun s => .ok (set_colors p s)) s
  let s ← onOp p 71 (fun s => addtexttoframe s p) s
  let s ← onOp p 72 (fun s => .ok (delete_text_frame s p.c32)) s
  let s ← onOp p 81 (fun s => .ok { s with size_request := 1, size_request_x := p.i1,
                                           size_request_y := p.i2 }) s
  let s ← onOp p 82 (fun s => .ok (set_toggles p s)) s
  let s ← onOp p 91 (fun s => .ok (batch_begin s)) s
  let s ← onOp p 92 (fun s => .ok (batch_end s)) s
  let s ← onOp p 111 (fun s => .ok (configframe s p.opts p.toks)) s
  let s ← onOp p 101 (fun s => configchannel s p.opts p.toks) s
  let s ← onOp p 151 (fun s => .ok (link_frames p s)) s
  let s ← onOp p 201 (fun s => .ok { s with draw_curtab := decide (p.i1 ≠ 0) }) s
  let s ← onOp p 202 (fun s => .ok { s with use_dynamic_range := decide (p.i1 ≠ 0) }) s
  let s ← onOp p 3 (fun s => .ok s) s
  let s ← onOp p 4 (fun s => .ok (ingest_samples p s)) s
  onOp p 5 (fun s => .ok (ingest_image p s)) s

/-- One iteration of the loop of `listen_main` on a received packet: the
`lock_guard` takes the recursive mutex, the packet is dispatched, and the guard
releases the mutex at the end of the iteration. -/
def listen_step (stdsort : List Sample → List Sample) (s : Instance) (p : Packet) : Outcome := do
  let s1 ← dispatch stdsort p { s with lockdepth := s.lockdepth + 1 }
  pure { s1 with lockdepth := s1.lockdepth - 1 }

/-- The loop of `listen_main` over the packets it receives. -/
def listen_main (stdsort : List Sample → List Sample) : Instance → List Packet → Outcome
  | s, [] => .ok s
  | s, p :: ps => do
      let s1 ← listen_step stdsort s p
      listen_main stdsort s1 ps

/-- A `std::sort` by time: insertion sort, one admissible behaviour of the library
routine. -/
def sortByTime (l : List Sample) : List Sample :=
  l.insertionSort (fun a b => Dbl.le a.t b.t = true)

/-! ## Example packets -/

/-- A configure-frame packet for the frame `name`. -/
def framePacket (name : String) : Packet :=
  { d0 := 111, toks := ["#name", "@" ++ name] }

/-- A configure-channel packet for channel `name` in window `window` of `frame`. -/
def channelPacket (name window frame : String) : Packet :=
  { d0 := 101, toks := ["#name", "@" ++ name, "#window", "@" ++ window, "#frame", "@" ++ frame] }

/-- A remove-channel packet. -/
def removeChannelPacket (name : String) : Packet := { d0 := 12, c32 := name }

/-- An image-tile packet for channel `name` whose header gives the bounds
`t1 = 0, t2 = 1, x1 = -1e37, x2 = 1` and an empty `0 x 0` tile. -/
def imagePacket (name : String) : Packet :=
  { d0 := 5, c8 := name,
    f := [Dbl.fin 0, Dbl.fin 1, Dbl.fin (-(10 ^ 37)), Dbl.fin 1, Dbl.fin 0, Dbl.fin 0,
      Dbl.fin 0, Dbl.fin 0] }

/-- A multi-sample packet for channel `name`. -/
def samplesPacket (name : String) (a : List Sample) : Packet :=
  { d0 := 4, c8 := name, i1 := a.length, samples := a }

/-- The state of a server value, when the run did not die. -/
def Outcome.get (o : Outcome) : Instance :=
  match o with
  | .ok s => s
  | .error _ => Instance.empty

/-- The samples of the last segment of a channel's segment list (none when the
list is empty). -/
def lastSamples (segs : List Segment) : List Sample :=
  (segs.getLast?.map Segment.data).getD []

/-- The state after configuring frame `F` and, in it, channel `A` in window `W`. -/
def configuredState : Instance :=
  (listen_main sortByTime Instance.empty [framePacket "F", channelPacket "A" "W" "F"]).get

/-! ## Stored-sample predicates -/

/-- The two bounding-box samples `(t1,x1)`, `(t2,x2)` that `newimage` derives from
an image payload. -/
def ImageData.corners (d : ImageData) : List Sample := [⟨d.t1, d.x1⟩, ⟨d.t2, d.x2⟩]

/-- Every sample stored in the segments of the channel satisfies `accept`. -/
def ChanInfo.storedAccepted (ch : ChanInfo) : Prop :=
  ∀ seg ∈ ch.data, ∀ smp ∈ seg.data, accept smp.x = true

/-- Every sample stored in the segments of the channel satisfies `accept` or is a
bounding-box sample of the channel's image payload. -/
def ChanInfo.storedAcceptedOrCorner (ch : ChanInfo) : Prop :=
  ∀ seg ∈ ch.data, ∀ smp ∈ seg.data, accept smp.x = true ∨ smp ∈ ch.data2.corners

/-- How the stored data of one channel slot can change without image ingestion:
the image payload is kept or reset, and every stored sample is accepted or was
already stored beside the same image payload. -/
def ChanInfo.evolves (ch ch' : ChanInfo) : Prop :=
  (ch'.data2 = ch.data2 ∨ ch'.data2 = {}) ∧
  ∀ seg' ∈ ch'.data, ∀ smp ∈ seg'.data,
    accept smp.x = true ∨ (ch'.data2 = ch.data2 ∧ ∃ seg ∈ ch.data, smp ∈ seg.data)

/-- The relation `ChanInfo.evolves` on every channel slot of two states. -/
def Evolves (s s' : Instance) : Prop := ∀ c, (s.channels c).evolves (s'.channels c)

/-- The state after configuring frame `F` and channel `A`, then ingesting three
samples of which the middle one is NaN. -/
def ingestedState : Instance :=
  (listen_main sortByTime Instance.empty
    [framePacket "F", channelPacket "A" "W" "F",
     samplesPacket "A" [⟨Dbl.fin 0, Dbl.fin 0⟩, ⟨Dbl.fin 1, Dbl.nan⟩, ⟨Dbl.fin 2, Dbl.fin 4⟩]]).get

/-! ## Auto-range -/

/-- The loop `for(int q1=c2;q1>=c1;q1-=skip){if(mn>x)mn=x; if(mx<x)mx=x;}` of
`findminmax`, on the running pair `(mn, mx)`, started at `q1`. -/
def findminmax_scan (seg : Segment) (c1 skip : Int) : Nat → Int → Dbl × Dbl → Dbl × Dbl
  | 0, _, acc => acc
  | fuel + 1, q1, acc =>
      if q1 ≥ c1 then
        findminmax_scan seg c1 skip fuel (q1 - skip)
          (if Dbl.gt acc.1 (seg.at q1).x then (seg.at q1).x else acc.1,
           if Dbl.lt acc.2 (seg.at q1).x then (seg.at q1).x else acc.2)
      else acc

/-- The step `skip` chosen by `findminmax` for one segment. -/
def findminmax_skip (minskip : Int) (segment : Segment) : Int :=
  let skip := (segment.c2 - segment.c1 + 1).tdiv 128
  let skip := if skip = 0 then 1 else skip
  if minskip ≠ 0 then min skip minskip else skip

/-- The body of the segment loop of `findminmax`.  With a non-positive step on a
non-empty index range the C++ loop walks away from the range and never ends; that
is `none`. -/
def findminmax_segment (minskip : Int) (acc : Dbl × Dbl) (segment : Segment) :
    Option (Dbl × Dbl) :=
  if findminmax_skip minskip segment ≤ 0 ∧ segment.c1 ≤ segment.c2 then none
  else
    some (findminmax_scan segment segment.c1 (findminmax_skip minskip segment)
      (segment.c2 - segment.c1 + 1).toNat segment.c2 acc)

/-- The body of the channel loop of `findminmax` for the channel in slot `c`. -/
def findminmax_channel (s : Instance) (minskip : Int) (acc : Dbl × Dbl) (c : Nat) :
    Option (Dbl × Dbl) :=
  if (s.channels c).active ≠ 0 then
    (s.channels c).data.foldlM (findminmax_segment minskip) acc
  else some acc

/-- The statements `if(mn==maxsample||mx==-maxsample){mn=0;mx=1;} else
if(mn==mx){mn-=0.5,mx+=0.5;}` of `findminmax`. -/
def findminmax_default (m : Dbl × Dbl) : Dbl × Dbl :=
  if Dbl.eq m.1 maxsample || Dbl.eq m.2 (-maxsample) then (Dbl.fin 0, Dbl.fin 1)
  else if Dbl.eq m.1 m.2 then (m.1 - Dbl.fin (1 / 2), m.2 + Dbl.fin (1 / 2))
  else m

/-- The pair `(mn, mx)` that `findminmax` works with for window slot `w`: the scan
over the window's active channels, then the two replacements. -/
def findminmax_extrema (s : Instance) (w : Nat) : Option (Dbl × Dbl) :=
  ((s.windows w).channels.foldlM (findminmax_channel s (s.windows w).minskip)
    (maxsample, -maxsample)).map findminmax_default

/-- The hysteresis test `mx>newtop||mn<newbottom||(mx-mn)<dif/3` of `findminmax`. -/
def findminmax_exceeds (m : Dbl × Dbl) (top bottom : Dbl) : Bool :=
  Dbl.gt m.2 top || Dbl.lt m.1 bottom || Dbl.lt (m.2 - m.1) ((top - bottom) / Dbl.fin 3)

/-- The pair `(newtop, newbottom)` of `findminmax` before the final comparison. -/
def findminmax_bounds (m : Dbl × Dbl) (top bottom : Dbl) : Dbl × Dbl :=
  if findminmax_exceeds m top bottom then
    (m.2 + (m.2 - m.1) / Dbl.fin 20, m.1 - (m.2 - m.1) / Dbl.fin 20)
  else (top, bottom)

/-- The method `Instance::findminmax`, called on the window in slot `w`. -/
def findminmax (s : Instance) (w : Nat) : Option Instance :=
  match findminmax_extrema s w with
  | none => none
  | some m =>
      let nb := findminmax_bounds m (s.windows w).top (s.windows w).bottom
      if Dbl.ne nb.1 (s.windows w).top || Dbl.ne nb.2 (s.windows w).bottom then
        some (updWin s w (fun win => { win with top := nb.1, bottom := nb.2, reconfigured := 1 }))
      else some s

/-- The statement `s.findtime(starttime,rendertime,channels[c].samplesperpixel,
f.da_sx)` of the render pass, applied to every segment of the channel in slot `c`
(`none` when a call faults). -/
def findtime_channel (s : Instance) (c : Nat) (starttime rendertime da_sx : Dbl) :
    Option Instance :=
  ((s.channels c).data.mapM (fun seg =>
    match findtime seg starttime rendertime (s.channels c).samplesperpixel da_sx with
    | Run.done seg1 => some seg1
    | Run.fault _ => none)).map
  (fun segs => updChan s c (fun ch => { ch with data := segs }))

/-- A multi-sample packet that opens a new segment in channel `name`. -/
def newSegmentPacket (name : String) (a : List Sample) : Packet :=
  { d0 := 4, d2 := 1, c8 := name, i1 := a.length, samples := a }

/-- A sort-channel packet. -/
def sortPacket (name : String) : Packet := { d0 := 51, c32 := name }

/-- A remove-window packet. -/
def removeWindowPacket (name : String) : Packet := { d0 := 41, c32 := name }

/-- The state after configuring frame `F` and the active channel `A` in the
auto-ranged window `W` with bounds `top = 10`, `bottom = 5`, ingesting the single
sample `(0, 1e36)` and caching its visible range for the time window `[0, 1]` at
width 100. -/
def sentinelState : Instance :=
  ((findtime_channel
    (listen_main sortByTime Instance.empty
      [framePacket "F",
       { channelPacket "A" "W" "F" with
         opts := [("top", Dbl.fin 10), ("bottom", Dbl.fin 5), ("autor", Dbl.fin 1),
           ("active", Dbl.fin 1)] },
       samplesPacket "A" [⟨Dbl.fin 0, Dbl.fin (10 ^ 36)⟩]]).get
    1 (Dbl.fin 0) (Dbl.fin 1) (Dbl.fin 100)).getD Instance.empty)


/-- The state after configuring frame `F` and channel `A`, then ingesting two
samples of equal time, `(0,1)` and `(0,2)`. -/
def equalTimeState : Instance :=
  (listen_main sortByTime Instance.empty
    [framePacket "F", channelPacket "A" "W" "F",
     samplesPacket "A" [⟨Dbl.fin 0, Dbl.fin 1⟩, ⟨Dbl.fin 0, Dbl.fin 2⟩]]).get

/-- The state after configuring frame `F` and channel `A`, then ingesting the
samples `(NaN,1)` and `(0,2)`: the time of a sample is not validated. -/
def nanTimeState : Instance :=
  (listen_main sortByTime Instance.empty
    [framePacket "F", channelPacket "A" "W" "F",
     samplesPacket "A" [⟨Dbl.nan, Dbl.fin 1⟩, ⟨Dbl.fin 0, Dbl.fin 2⟩]]).get

/-- What holds of the running pair `(mn, mx)` of `findminmax` during the scan:
neither is NaN, `mn` is not `+inf`, `mx` is not `-inf`, and either both still
hold their initial sentinels or `mn <= mx`. -/
def ScanPair (m : Dbl × Dbl) : Prop :=
  m.1 ≠ Dbl.nan ∧ m.1 ≠ Dbl.pinf ∧ m.2 ≠ Dbl.nan ∧ m.2 ≠ Dbl.ninf ∧
  ((m.1 = maxsample ∧ m.2 = -maxsample) ∨ Dbl.le m.1 m.2 = true)

/-- The state after configuring frame `F` and the active channel `A` in the
auto-ranged window `W`, ingesting the samples `(0,0), (1,1), (2,4)` and caching
their visible range for the time window `[0, 2]` at 100 pixels. -/
def rangedState : Instance :=
  ((findtime_channel (listen_main sortByTime Instance.empty
      [framePacket "F",
       { channelPacket "A" "W" "F" with
           opts := [("autor", Dbl.fin 1), ("active", Dbl.fin 1)] },
       samplesPacket "A" [⟨Dbl.fin 0, Dbl.fin 0⟩, ⟨Dbl.fin 1, Dbl.fin 1⟩,
         ⟨Dbl.fin 2, Dbl.fin 4⟩]]).get
    1 (Dbl.fin 0) (Dbl.fin 2) (Dbl.fin 100)).getD Instance.empty)

/-! ## Linkage of the registry -/

/-- The linkage that the dispatcher maintains between the name maps and the
member sets: no channel or window name is registered under id 0, and every
member `c` of the channel set of a window slot `w` is a channel registered under
its own stored name and bound to `w`. -/
def WellLinked (s : Instance) : Prop :=
  (∀ k, s.uchannels.find k ≠ some 0) ∧ (∀ k, s.uwindows.find k ≠ some 0) ∧
  ∀ w c, c ∈ (s.windows w).channels →
    s.uchannels.find (s.channels c).name = some c ∧ (s.channels c).win = some w

/-- Two states with the same linkage data: the two name maps, the member set of
every window, and the name and window binding of every channel. -/
def SameLinks (s s1 : Instance) : Prop :=
  s1.uchannels = s.uchannels ∧ s1.uwindows = s.uwindows ∧
  (∀ w, (s1.windows w).channels = (s.windows w).channels) ∧
  ∀ c, (s1.channels c).name = (s.channels c).name ∧ (s1.channels c).win = (s.channels c).win

/-- The state after configuring frame `F` and the active channel `A` in the
auto-ranged window `W` with the bounds `top = 100`, `bottom = -100`, ingesting the
samples `(0,0), (1,1), (2,4)` and caching their visible range for the time window
`[0, 2]` at 100 pixels. -/
def wideState : Instance :=
  ((findtime_channel (listen_main sortByTime Instance.empty
      [framePacket "F",
       { channelPacket "A" "W" "F" with
           opts := [("top", Dbl.fin 100), ("bottom", Dbl.fin (-100)), ("autor", Dbl.fin 1),
             ("active", Dbl.fin 1)] },
       samplesPacket "A" [⟨Dbl.fin 0, Dbl.fin 0⟩, ⟨Dbl.fin 1, Dbl.fin 1⟩,
         ⟨Dbl.fin 2, Dbl.fin 4⟩]]).get
    1 (Dbl.fin 0) (Dbl.fin 2) (Dbl.fin 100)).getD Instance.empty)

/-- The same state as `wideState`, configured with `top = NaN` and the default
`bottom = 0`. -/
def nanTopState : Instance :=
  ((findtime_channel (listen_main sortByTime Instance.empty
      [framePacket "F",
       { channelPacket "A" "W" "F" with
           opts := [("top", Dbl.nan), ("autor", Dbl.fin 1), ("active", Dbl.fin 1)] },
       samplesPacket "A" [⟨Dbl.fin 0, Dbl.fin 0⟩, ⟨Dbl.fin 1, Dbl.fin 1⟩,
         ⟨Dbl.fin 2, Dbl.fin 4⟩]]).get
    1 (Dbl.fin 0) (Dbl.fin 2) (Dbl.fin 100)).getD Instance.empty)

/-- The same state as `wideState`, configured with the default bounds and the
option `minskp = -1`. -/
def negSkipState : Instance :=
  ((findtime_channel (listen_main sortByTime Instance.empty
      [framePacket "F",
       { channelPacket "A" "W" "F" with
           opts := [("minskp", Dbl.fin (-1)), ("autor", Dbl.fin 1), ("active", Dbl.fin 1)] },
       samplesPacket "A" [⟨Dbl.fin 0, Dbl.fin 0⟩, ⟨Dbl.fin 1, Dbl.fin 1⟩,
         ⟨Dbl.fin 2, Dbl.fin 4⟩]]).get
    1 (Dbl.fin 0) (Dbl.fin 2) (Dbl.fin 100)).getD Instance.empty)

/-- The state after configuring frame `F` and, in its auto-ranged window `W`, the
active channels `A` (tab 1, the window's current tab) and `B` (tab 2), ingesting
the samples `(0,0), (1,1)` into `A` and the sample `(0,v)` into `B`, and caching
the visible ranges of both channels for the time window `[0, 1]` at 100 pixels. -/
def tabState (v : ℚ) : Instance :=
  (((findtime_channel (listen_main sortByTime Instance.empty
      [framePacket "F",
       { channelPacket "A" "W" "F" with opts := [("autor", Dbl.fin 1), ("active", Dbl.fin 1)] },
       { channelPacket "B" "W" "F" with opts := [("wintab", Dbl.fin 2), ("active", Dbl.fin 1)] },
       samplesPacket "A" [⟨Dbl.fin 0, Dbl.fin 0⟩, ⟨Dbl.fin 1, Dbl.fin 1⟩],
       samplesPacket "B" [⟨Dbl.fin 0, Dbl.fin v⟩]]).get
    1 (Dbl.fin 0) (Dbl.fin 1) (Dbl.fin 100)).bind
    (fun s => findtime_channel s 2 (Dbl.fin 0) (Dbl.fin 1) (Dbl.fin 100))).getD Instance.empty)

/-- The state after configuring frame `F` alone. -/
def frameState : Instance :=
  (listen_main sortByTime Instance.empty [framePacket "F"]).get

/-- A link-frames packet (opcode 151 with `d[1] == 1`) that appends `other` to the
frames linked to frame `name`. -/
def linkPacket (name other : String) : Packet :=
  { d0 := 151, d1 := 1, c32 := name, c128 := other }

/-- Two states with the same hold counter and the same lock depth. -/
def SameHold (s s1 : Instance) : Prop :=
  s1.comm.cnt = s.comm.cnt ∧ s1.lockdepth = s.lockdepth

/-- The state after a begin-batch packet, a configure-frame packet for `F` and a
second begin-batch packet. -/
def batchedState : Instance :=
  (listen_main sortByTime Instance.empty [{ d0 := 91 }, framePacket "F", { d0 := 91 }]).get

/-- The value of the last option named `key` in a decoded option list, if any. -/
def lastOption (opts : List (String × Dbl)) (key : String) : Option Dbl :=
  opts.foldl (fun acc i => if i.1 = key then some i.2 else acc) none

/-- The state after configuring frame `F` and, in it, channel `A` in window `W`
with the options `autor = 1`, `top = 5`, in this order. -/
def autoTopState : Instance :=
  (listen_main sortByTime Instance.empty
    [framePacket "F",
     { channelPacket "A" "W" "F" with opts := [("autor", Dbl.fin 1), ("top", Dbl.fin 5)] }]).get

/-- A configure-channel packet for channel `A` in window `W` of frame `F` with the
options `top = 5`, `red = 0.5`, `style = 1.7`, `top = 7`, `clear = 1`. -/
def optionsPacket : Packet :=
  { channelPacket "A" "W" "F" with
      opts := [("top", Dbl.fin 5), ("red", Dbl.fin (1 / 2)), ("style", Dbl.fin (17 / 10)),
        ("top", Dbl.fin 7), ("clear", Dbl.fin 1)] }

/-! ## The target count of `findtime` -/

/-- The comparator passed by `sort_channel`:
`[](const Sample& a, const Sample& b){return a.t<b.t;}`. -/
def sample_less (a b : Sample) : Bool := Dbl.lt a.t b.t

/-- The element `*(begin + i)`.  Outside the vector the read is out of bounds in
C++; the model then yields a NaN sample. -/
def vec_at (v : List Sample) (i : Int) : Sample :=
  if 0 ≤ i then v.getD i.toNat ⟨Dbl.nan, Dbl.nan⟩ else ⟨Dbl.nan, Dbl.nan⟩

/-- The assignment `*(begin + i) = x`.  Outside the vector the model stores
nothing. -/
def vec_set (v : List Sample) (i : Int) (x : Sample) : List Sample :=
  if 0 ≤ i then v.set i.toNat x else v

/-- The routine `std::iter_swap`. -/
def iter_swap (v : List Sample) (i j : Int) : List Sample :=
  vec_set (vec_set v i (vec_at v j)) j (vec_at v i)

/-- The routine `std::__move_median_to_first`. -/
def move_median_to_first (v : List Sample) (result a b c : Int) : List Sample :=
  if sample_less (vec_at v a) (vec_at v b) then
    if sample_less (vec_at v b) (vec_at v c) then iter_swap v result b
    else if sample_less (vec_at v a) (vec_at v c) then iter_swap v result c
    else iter_swap v result a
  else if sample_less (vec_at v a) (vec_at v c) then iter_swap v result a
  else if sample_less (vec_at v b) (vec_at v c) then iter_swap v result c
  else iter_swap v result b

/-- The loop `while (__comp(__first, __pivot)) ++__first;` of
`__unguarded_partition`; yields the final `__first`. -/
def partition_first (v : List Sample) (pivot : Int) : Nat → Int → Int
  | 0, first => first
  | fuel + 1, first =>
      if sample_less (vec_at v first) (vec_at v pivot) then
        partition_first v pivot fuel (first + 1)
      else first

/-- The loop `while (__comp(__pivot, __last)) --__last;` of
`__unguarded_partition`; yields the final `__last`. -/
def partition_last (v : List Sample) (pivot : Int) : Nat → Int → Int
  | 0, last => last
  | fuel + 1, last =>
      if sample_less (vec_at v pivot) (vec_at v last) then
        partition_last v pivot fuel (last - 1)
      else last

/-- The routine `std::__unguarded_partition`; yields the vector and the returned
`__first`. -/
def unguarded_partition (pivot : Int) : Nat → List Sample → Int → Int → List Sample × Int
  | 0, v, first, _ => (v, first)
  | fuel + 1, v, first, last =>
      let first1 := partition_first v pivot v.length first
      let last1 := partition_last v pivot v.length (last - 1)
      if ¬ first1 < last1 then (v, first1)
      else unguarded_partition pivot fuel (iter_swap v first1 last1) (first1 + 1) last1

/-- The routine `std::__unguarded_partition_pivot`. -/
def unguarded_partition_pivot (v : List Sample) (first last : Int) : List Sample × Int :=
  let mid := first + (last - first).tdiv 2
  let v1 := move_median_to_first v first (first + 1) mid (last - 1)
  unguarded_partition first v1.length v1 (first + 1) last

/-- The routine `std::__push_heap`, started at `holeIndex`. -/
def push_heap (first topIndex : Int) (value : Sample) : Nat → List Sample → Int → List Sample
  | 0, v, holeIndex => vec_set v (first + holeIndex) value
  | fuel + 1, v, holeIndex =>
      let parent := (holeIndex - 1).tdiv 2
      if holeIndex > topIndex ∧ sample_less (vec_at v (first + parent)) value = true then
        push_heap first topIndex value fuel
          (vec_set v (first + holeIndex) (vec_at v (first + parent))) parent
      else vec_set v (first + holeIndex) value

/-- The loop `while (__secondChild < (__len - 1) / 2)` of `std::__adjust_heap`;
yields the vector, `__holeIndex` and `__secondChild`. -/
def adjust_heap_loop (first len : Int) : Nat → List Sample → Int → Int → List Sample × Int × Int
  | 0, v, holeIndex, secondChild => (v, holeIndex, secondChild)
  | fuel + 1, v, holeIndex, secondChild =>
      if secondChild < (len - 1).tdiv 2 then
        let sc := 2 * (secondChild + 1)
        let sc1 := if sample_less (vec_at v (first + sc)) (vec_at v (first + (sc - 1))) then sc - 1
          else sc
        adjust_heap_loop first len fuel (vec_set v (first + holeIndex) (vec_at v (first + sc1)))
          sc1 sc1
      else (v, holeIndex, secondChild)

/-- The routine `std::__adjust_heap`. -/
def adjust_heap (v : List Sample) (first holeIndex len : Int) (value : Sample) : List Sample :=
  let r := adjust_heap_loop first len v.length v holeIndex holeIndex
  if len % 2 = 0 ∧ r.2.2 = (len - 2).tdiv 2 then
    let sc := 2 * (r.2.2 + 1)
    push_heap first holeIndex value v.length
      (vec_set r.1 (first + r.2.1) (vec_at r.1 (first + (sc - 1)))) (sc - 1)
  else push_heap first holeIndex value v.length r.1 r.2.1

/-- The routine `std::__pop_heap`. -/
def pop_heap (v : List Sample) (first last result : Int) : List Sample :=
  adjust_heap (vec_set v result (vec_at v first)) first 0 (last - first) (vec_at v result)

/-- The loop `while (true)` of `std::__make_heap`, started at `__parent`. -/
def make_heap_loop (first len : Int) : Nat → List Sample → Int → List Sample
  | 0, v, _ => v
  | fuel + 1, v, parent =>
      let v1 := adjust_heap v first parent len (vec_at v (first + parent))
      if parent = 0 then v1 else make_heap_loop first len fuel v1 (parent - 1)

/-- The routine `std::__make_heap`. -/
def make_heap (v : List Sample) (first last : Int) : List Sample :=
  if last - first < 2 then v
  else make_heap_loop first (last - first) ((last - first - 2).tdiv 2 + 1).toNat v
    ((last - first - 2).tdiv 2)

/-- The routine `std::__sort_heap`: `while (__last - __first > 1)
{ --__last; std::__pop_heap(__first, __last, __last, __comp); }`. -/
def sort_heap (first : Int) : Nat → List Sample → Int → List Sample
  | 0, v, _ => v
  | fuel + 1, v, last =>
      if last - first > 1 then
        sort_heap first fuel (pop_heap v first (last - 1) (last - 1)) (last - 1)
      else v

/-- The loop `for (__i = __middle; __i < __last; ++__i)` of `std::__heap_select`. -/
def heap_select_loop (first middle last : Int) : Nat → List Sample → Int → List Sample
  | 0, v, _ => v
  | fuel + 1, v, i =>
      if i < last then
        heap_select_loop first middle last fuel
          (if sample_less (vec_at v i) (vec_at v first) then pop_heap v first middle i else v)
          (i + 1)
      else v

/-- The routine `std::__heap_select`. -/
def heap_select (v : List Sample) (first middle last : Int) : List Sample :=
  heap_select_loop first middle last (last - middle).toNat (make_heap v first middle) middle

/-- The routine `std::__partial_sort`. -/
def partial_sort (v : List Sample) (first middle last : Int) : List Sample :=
  sort_heap first (middle - first).toNat (heap_select v first middle last) middle

/-- The routine `std::__introsort_loop`, by recursion on `__depth_limit`; the next
round of its `while` loop is the second call. -/
def introsort_loop : Nat → List Sample → Int → Int → List Sample
  | 0, v, first, last => if last - first > 16 then partial_sort v first last last else v
  | depth_limit + 1, v, first, last =>
      if last - first > 16 then
        let p := unguarded_partition_pivot v first last
        introsort_loop depth_limit (introsort_loop depth_limit p.1 p.2 last) first p.2
      else v

/-- The loop of `std::__unguarded_linear_insert`; yields the vector and the final
`__last`. -/
def unguarded_linear_insert_loop (value : Sample) :
    Nat → List Sample → Int → Int → List Sample × Int
  | 0, v, last, _ => (v, last)
  | fuel + 1, v, last, next =>
      if sample_less value (vec_at v next) then
        unguarded_linear_insert_loop value fuel (vec_set v last (vec_at v next)) next (next - 1)
      else (v, last)

/-- The routine `std::__unguarded_linear_insert`. -/
def unguarded_linear_insert (v : List Sample) (last : Int) : List Sample :=
  let r := unguarded_linear_insert_loop (vec_at v last) v.length v last (last - 1)
  vec_set r.1 r.2 (vec_at v last)

/-- The routine `std::move_backward`: `while (__first != __last)
*--__result = std::move(*--__last);`. -/
def move_backward (first : Int) : Nat → List Sample → Int → Int → List Sample
  | 0, v, _, _ => v
  | fuel + 1, v, last, result =>
      if first ≠ last then
        move_backward first fuel (vec_set v (result - 1) (vec_at v (last - 1))) (last - 1)
          (result - 1)
      else v

/-- The loop `for (__i = __first + 1; __i != __last; ++__i)` of
`std::__insertion_sort`. -/
def insertion_sort_loop (first last : Int) : Nat → List Sample → Int → List Sample
  | 0, v, _ => v
  | fuel + 1, v, i =>
      if i ≠ last then
        insertion_sort_loop first last fuel
          (if sample_less (vec_at v i) (vec_at v first) then
            vec_set (move_backward first (i - first).toNat v i (i + 1)) first (vec_at v i)
          else unguarded_linear_insert v i)
          (i + 1)
      else v

/-- The routine `std::__insertion_sort`. -/
def insertion_sort (v : List Sample) (first last : Int) : List Sample :=
  if first = last then v
  else insertion_sort_loop first last (last - first).toNat v (first + 1)

/-- The routine `std::__unguarded_insertion_sort`. -/
def unguarded_insertion_sort (last : Int) : Nat → List Sample → Int → List Sample
  | 0, v, _ => v
  | fuel + 1, v, i =>
      if i ≠ last then unguarded_insertion_sort last fuel (unguarded_linear_insert v i) (i + 1)
      else v

/-- The routine `std::__final_insertion_sort`; `_S_threshold` is 16. -/
def final_insertion_sort (v : List Sample) (first last : Int) : List Sample :=
  if last - first > 16 then
    unguarded_insertion_sort last (last - (first + 16)).toNat
      (insertion_sort v first (first + 16)) (first + 16)
  else insertion_sort v first last

/-- The routine `std::sort` on a whole vector, with the comparator `a.t<b.t`;
`std::__lg` is the binary logarithm rounded down. -/
def std_sort (v : List Sample) : List Sample :=
  if v.length = 0 then v
  else
    final_insertion_sort (introsort_loop (Nat.log2 v.length * 2) v 0 v.length) 0 v.length

/-- The vector with a hole at slot `p`, which together with `value` holds the
samples of `orig`. -/
def HoleInv (v : List Sample) (p : Int) (value : Sample) (orig : List Sample) : Prop :=
  0 ≤ p ∧ p < v.length ∧ (vec_set v p value).Perm orig

/-- The first `k` slots of the vector are ordered by non-decreasing time. -/
def SortedTo (v : List Sample) (k : Int) : Prop :=
  ∀ i j : Int, 0 ≤ i → i < j → j < k → Dbl.le (vec_at v i).t (vec_at v j).t = true

/-- The vector `v` during an insertion at slot `i` of `v0`, with the hole at slot
`p`: below the hole it is `v0`, from the hole up to `i` it is `v0` moved up by one
slot, beyond `i` it is `v0`. -/
def ShiftInv (v0 v : List Sample) (i p : Int) : Prop :=
  v.length = v0.length ∧
  (∀ j : Int, j < p → vec_at v j = vec_at v0 j) ∧
  (∀ j : Int, p < j → j ≤ i → vec_at v j = vec_at v0 (j - 1)) ∧
  (∀ j : Int, i < j → vec_at v j = vec_at v0 j)

/-- No sample of the vector has a NaN time. -/
def NoNaN (v : List Sample) : Prop := ∀ a ∈ v, a.t ≠ Dbl.nan

/-- The state after configuring frame `F` and channel `A`, then ingesting 17
samples of equal time 0 with the values 1, 2, ..., 17. -/
def seventeenState : Instance :=
  (listen_main sortByTime Instance.empty
    [framePacket "F", channelPacket "A" "W" "F",
     samplesPacket "A"
       ((List.range 17).map (fun i => ⟨Dbl.fin 0, Dbl.fin ((i : ℚ) + 1)⟩))]).get

/-- The state after configuring frame `F` and channel `A`, then ingesting the
samples `(2,1), (0,2), (1,3)`, whose times are out of order. -/
def unsortedState : Instance :=
  (listen_main sortByTime Instance.empty
    [framePacket "F", channelPacket "A" "W" "F",
     samplesPacket "A" [⟨Dbl.fin 2, Dbl.fin 1⟩, ⟨Dbl.fin 0, Dbl.fin 2⟩,
       ⟨Dbl.fin 1, Dbl.fin 3⟩]]).get
/-! ## Lemmas on the floating point order -/

theorem Dbl.le_transitive {a b c : Dbl} (hab : Dbl.le a b = true) (hbc : Dbl.le b c = true) :
    Dbl.le a c = true := by
  cases a <;> cases b <;> cases c <;> simp_all [Dbl.le]
  exact le_trans hab hbc

theorem Dbl.le_of_lt_false {a b : ℚ} (h : Dbl.ge (Dbl.fin a) (Dbl.fin b) = false) : a < b := by
  simpa [Dbl.ge, Dbl.le] using h

/-! ## Indexing -/

theorem Segment.at_eq (seg : Segment) (i : Nat) (h : i < seg.data.length) :
    seg.at (i : Int) = seg.data.get ⟨i, h⟩ := by
  unfold Segment.at
  rw [if_pos (by omega), Int.toNat_ofNat, List.getD_eq_getElem _ _ h]
  rfl

/-- What the left search loop returns: an index between the initial bounds whose
own time is below `t` (unless it is the initial left bound) and whose successor
is at or above `t` (unless it is the initial right bound). -/
theorem lefttime_loop_spec (seg : Segment) (t : Dbl) :
    ∀ (fuel : Nat) (l r : Int), 0 ≤ l → l ≤ r → r - l ≤ fuel →
      l ≤ lefttime_loop seg t fuel l r ∧ lefttime_loop seg t fuel l r ≤ r ∧
      (lefttime_loop seg t fuel l r = l ∨
        Dbl.ge (seg.at (lefttime_loop seg t fuel l r)).t t = false) ∧
      (lefttime_loop seg t fuel l r = r ∨
        Dbl.ge (seg.at (lefttime_loop seg t fuel l r + 1)).t t = true) := by
  intro fuel
  induction fuel with
  | zero =>
    intro l r _ hlr hf
    have : l = r := by omega
    subst this
    simp [lefttime_loop]
  | succ fuel ih =>
    intro l r h0 hlr hf
    unfold lefttime_loop
    by_cases hlt : l < r
    · have hm : (l + r + 1).tdiv 2 = (l + r + 1) / 2 :=
        Int.tdiv_eq_ediv (by omega) (by norm_num)
      simp only [hlt, if_true, hm]
      by_cases hge : Dbl.ge (seg.at ((l + r + 1) / 2)).t t = true
      · rw [if_pos hge]
        obtain ⟨h1, h2, h3, h4⟩ := ih l ((l + r + 1) / 2 - 1) h0 (by omega) (by omega)
        refine ⟨h1, by omega, h3, ?_⟩
        rcases h4 with h4 | h4
        · right
          rw [h4]
          simpa using hge
        · right
          exact h4
      · rw [if_neg hge]
        obtain ⟨h1, h2, h3, h4⟩ := ih ((l + r + 1) / 2) r (by omega) (by omega) (by omega)
        refine ⟨by omega, h2, ?_, h4⟩
        right
        rcases h3 with h3 | h3
        · rw [h3]
          simpa using hge
        · exact h3
    · have : l = r := by omega
      subst this
      simp

/-- Extra fuel does not change the result of the left search loop. -/
theorem lefttime_loop_fuel (seg : Segment) (t : Dbl) :
    ∀ (fuel k : Nat) (l r : Int), 0 ≤ l → r - l ≤ fuel →
      lefttime_loop seg t (fuel + k) l r = lefttime_loop seg t fuel l r := by
  intro fuel
  induction fuel with
  | zero =>
    intro k l r _ hf
    cases k with
    | zero => rfl
    | succ k =>
      have : ¬ l < r := by omega
      simp [lefttime_loop, this]
  | succ fuel ih =>
    intro k l r h0 hf
    have hk : fuel + 1 + k = (fuel + k) + 1 := by omega
    rw [hk]
    unfold lefttime_loop
    by_cases hlt : l < r
    · have hm : (l + r + 1).tdiv 2 = (l + r + 1) / 2 :=
        Int.tdiv_eq_ediv (by omega) (by norm_num)
      simp only [hlt, if_true, hm]
      rw [ih k l ((l + r + 1) / 2 - 1) h0 (by omega),
        ih k ((l + r + 1) / 2) r (by omega) (by omega)]
    · simp [hlt]

/-- Extra fuel does not change the result of the right search loop. -/
theorem righttime_loop_fuel (seg : Segment) (t : Dbl) :
    ∀ (fuel k : Nat) (l r : Int), 0 ≤ l → r - l ≤ fuel →
      righttime_loop seg t (fuel + k) l r = righttime_loop seg t fuel l r := by
  intro fuel
  induction fuel with
  | zero =>
    intro k l r _ hf
    cases k with
    | zero => rfl
    | succ k =>
      have : ¬ l < r := by omega
      simp [righttime_loop, this]
  | succ fuel ih =>
    intro k l r h0 hf
    have hk : fuel + 1 + k = (fuel + k) + 1 := by omega
    rw [hk]
    unfold righttime_loop
    by_cases hlt : l < r
    · have hm : (l + r).tdiv 2 = (l + r) / 2 :=
        Int.tdiv_eq_ediv (by omega) (by norm_num)
      simp only [hlt, if_true, hm]
      rw [ih k ((l + r) / 2 + 1) r (by omega) (by omega),
        ih k l ((l + r) / 2) h0 (by omega)]
    · simp [hlt]

/-- The searches read only the sample vector. -/
theorem Segment.at_congr (s1 s2 : Segment) (h : s1.data = s2.data) (i : Int) :
    s1.at i = s2.at i := by
  unfold Segment.at; rw [h]

theorem lefttime_loop_congr (s1 s2 : Segment) (h : s1.data = s2.data) (t : Dbl) :
    ∀ (fuel : Nat) (l r : Int), lefttime_loop s1 t fuel l r = lefttime_loop s2 t fuel l r := by
  intro fuel
  induction fuel with
  | zero => intro l r; rfl
  | succ fuel ih =>
    intro l r
    unfold lefttime_loop
    simp only [Segment.at_congr s1 s2 h, ih]

theorem lefttime_congr (s1 s2 : Segment) (h : s1.data = s2.data) (t : Dbl) :
    lefttime s1 t = lefttime s2 t := by
  unfold lefttime Segment.size
  rw [lefttime_loop_congr s1 s2 h, h]

theorem Dbl.interp_fin (a b c d t : ℚ) (h : d - c ≠ 0) :
    Dbl.fin a + (Dbl.fin b - Dbl.fin a) * (Dbl.fin t - Dbl.fin c) / (Dbl.fin d - Dbl.fin c)
      = Dbl.fin (a + (b - a) * (t - c) / (d - c)) := by
  show Dbl.add (Dbl.fin a) (Dbl.div (Dbl.mul (Dbl.sub (Dbl.fin b) (Dbl.fin a))
    (Dbl.sub (Dbl.fin t) (Dbl.fin c))) (Dbl.sub (Dbl.fin d) (Dbl.fin c))) = _
  have h' : d + -c ≠ 0 := by rwa [← sub_eq_add_neg]
  simp only [Dbl.sub, Dbl.neg, Dbl.add, Dbl.mul, Dbl.div, h', if_false, sub_eq_add_neg]

/-- A segment whose samples are the finite points `pts`, read at an index in range. -/
theorem Segment.at_of_points (seg : Segment) (pts : List (ℚ × ℚ))
    (hdata : seg.data = pts.map (fun p => (⟨Dbl.fin p.1, Dbl.fin p.2⟩ : Sample)))
    (i : Nat) (hi : i < pts.length) :
    seg.at (i : Int) = ⟨Dbl.fin (pts.getD i (0, 0)).1, Dbl.fin (pts.getD i (0, 0)).2⟩ := by
  have hlen : i < seg.data.length := by rw [hdata, List.length_map]; exact hi
  rw [Segment.at_eq seg i hlen, List.getD_eq_getElem _ _ hi]
  simp [List.get_eq_getElem, hdata]

theorem points_strictMono (pts : List (ℚ × ℚ))
    (hinc : (pts.map Prod.fst).Chain' (fun a b => a < b))
    (i j : Nat) (hij : i < j) (hj : j < pts.length) :
    (pts.getD i (0, 0)).1 < (pts.getD j (0, 0)).1 := by
  have hp := List.chain'_iff_pairwise.mp hinc
  rw [List.pairwise_iff_getElem] at hp
  have := hp i j (by rw [List.length_map]; omega) (by rw [List.length_map]; omega) hij
  rw [List.getD_eq_getElem _ _ (by omega : i < pts.length), List.getD_eq_getElem _ _ hj]
  simpa using this

theorem points_mono (pts : List (ℚ × ℚ))
    (hinc : (pts.map Prod.fst).Chain' (fun a b => a < b))
    (i j : Nat) (hij : i ≤ j) (hj : j < pts.length) :
    (pts.getD i (0, 0)).1 ≤ (pts.getD j (0, 0)).1 := by
  rcases Nat.eq_or_lt_of_le hij with h | h
  · rw [h]
  · exact le_of_lt (points_strictMono pts hinc i j h hj)

/-- The bracket chosen by `get_data_at_time` and the value it returns, for finite
samples and a query time inside the segment. -/
theorem get_data_at_time_bracket (seg : Segment) (pts : List (ℚ × ℚ)) (t : ℚ)
    (hdata : seg.data = pts.map (fun p => (⟨Dbl.fin p.1, Dbl.fin p.2⟩ : Sample)))
    (hinc : (pts.map Prod.fst).Chain' (fun a b => a < b))
    (hn : 2 ≤ pts.length)
    (hlo : (pts.getD 0 (0, 0)).1 ≤ t)
    (hhi : t ≤ (pts.getD (pts.length - 1) (0, 0)).1) :
    ∃ l : Nat, l + 1 < pts.length ∧
      (((pts.getD l (0, 0)).1 < t ∧ t ≤ (pts.getD (l + 1) (0, 0)).1) ∨
        (l = 0 ∧ t = (pts.getD 0 (0, 0)).1)) ∧
      get_data_at_time seg (Dbl.fin t) =
        Dbl.fin ((pts.getD l (0, 0)).2 +
          ((pts.getD (l + 1) (0, 0)).2 - (pts.getD l (0, 0)).2) * (t - (pts.getD l (0, 0)).1)
            / ((pts.getD (l + 1) (0, 0)).1 - (pts.getD l (0, 0)).1)) := by
  have hlen : seg.data.length = pts.length := by rw [hdata, List.length_map]
  have hsz : seg.size = (pts.length : Int) := by unfold Segment.size; rw [hlen]
  obtain ⟨h1, h2, h3, h4⟩ := lefttime_loop_spec seg (Dbl.fin t) seg.data.length 0
    (seg.size - 2) le_rfl (by omega) (by omega)
  obtain ⟨l, hl⟩ := Int.eq_ofNat_of_zero_le h1
  have hl1 : l + 1 < pts.length := by omega
  have hat : ∀ i : Nat, i < pts.length → seg.at (i : Int) =
      ⟨Dbl.fin (pts.getD i (0, 0)).1, Dbl.fin (pts.getD i (0, 0)).2⟩ :=
    Segment.at_of_points seg pts hdata
  -- the lower side of the bracket
  have hlow : (pts.getD l (0, 0)).1 < t ∨ l = 0 := by
    rcases h3 with h3 | h3
    · right; omega
    · left
      rw [hl, hat l (by omega)] at h3
      exact Dbl.le_of_lt_false h3
  -- the upper side of the bracket
  have hup : t ≤ (pts.getD (l + 1) (0, 0)).1 := by
    rcases h4 with h4 | h4
    · have : l + 1 = pts.length - 1 := by omega
      rw [this]; exact hhi
    · rw [hl] at h4
      have h5 := hat (l + 1) hl1
      rw [Nat.cast_add, Nat.cast_one] at h5
      rw [h5] at h4
      simpa [Dbl.ge, Dbl.le] using h4
  refine ⟨l, hl1, ?_, ?_⟩
  · rcases hlow with h | h
    · exact Or.inl ⟨h, hup⟩
    · subst h
      rcases lt_or_eq_of_le hlo with h' | h'
      · exact Or.inl ⟨h', hup⟩
      · exact Or.inr ⟨rfl, h'.symm⟩
  · have hsl := points_strictMono pts hinc l (l + 1) (by omega) hl1
    have h0 := hat 0 (by omega)
    have hlast := hat (pts.length - 1) (by omega)
    have hlast' : seg.at (seg.size - 1) = ⟨Dbl.fin (pts.getD (pts.length - 1) (0, 0)).1,
        Dbl.fin (pts.getD (pts.length - 1) (0, 0)).2⟩ := by
      rw [← hlast, hsz]; congr 1; omega
    have hl' := hat l (by omega)
    have hl1' := hat (l + 1) hl1
    rw [Nat.cast_add, Nat.cast_one] at hl1'
    unfold get_data_at_time
    have e0 : ¬ seg.data.length = 0 := by omega
    have e1 : ¬ seg.data.length = 1 := by omega
    have e2 : ¬ Dbl.lt (Dbl.fin t) (seg.at 0).t = true := by
      have h0' : seg.at 0 = ⟨Dbl.fin (pts.getD 0 (0, 0)).1, Dbl.fin (pts.getD 0 (0, 0)).2⟩ := h0
      rw [h0']
      simpa [Dbl.lt] using hlo
    have e3 : ¬ Dbl.gt (Dbl.fin t) (seg.at (seg.size - 1)).t = true := by
      rw [hlast']
      simpa [Dbl.gt, Dbl.lt] using hhi
    simp only [e0, e1, e2, e3, if_false]
    rw [hl, hl', hl1']
    exact Dbl.interp_fin _ _ _ _ _ (by linarith [hsl])

/-- At most one index satisfies the bracket condition when times strictly increase. -/
theorem bracket_unique (pts : List (ℚ × ℚ)) (t : ℚ)
    (hinc : (pts.map Prod.fst).Chain' (fun a b => a < b))
    (l k : Nat) (hl : l + 1 < pts.length) (hk : k + 1 < pts.length)
    (bl : ((pts.getD l (0, 0)).1 < t ∧ t ≤ (pts.getD (l + 1) (0, 0)).1) ∨
        (l = 0 ∧ t = (pts.getD 0 (0, 0)).1))
    (bk : ((pts.getD k (0, 0)).1 < t ∧ t ≤ (pts.getD (k + 1) (0, 0)).1) ∨
        (k = 0 ∧ t = (pts.getD 0 (0, 0)).1)) : l = k := by
  have key : ∀ a b : Nat, a < b → b + 1 < pts.length →
      (((pts.getD a (0, 0)).1 < t ∧ t ≤ (pts.getD (a + 1) (0, 0)).1) ∨
        (a = 0 ∧ t = (pts.getD 0 (0, 0)).1)) →
      (((pts.getD b (0, 0)).1 < t ∧ t ≤ (pts.getD (b + 1) (0, 0)).1) ∨
        (b = 0 ∧ t = (pts.getD 0 (0, 0)).1)) → False := by
    intro a b hab hb ba bb
    have hb' : (pts.getD b (0, 0)).1 < t := by
      rcases bb with h | h
      · exact h.1
      · omega
    have hm := points_mono pts hinc (a + 1) b (by omega) (by omega)
    have h0 := points_mono pts hinc 0 b (by omega) (by omega)
    rcases ba with h | h
    · linarith [h.2]
    · linarith [h.2]
  rcases Nat.lt_trichotomy l k with h | h | h
  · exact (key l k h hk bl bk).elim
  · exact h
  · exact (key k l h hl bk bl).elim

theorem interp_right (a b c d : ℚ) (h : d - c ≠ 0) :
    a + (b - a) * (d - c) / (d - c) = b := by
  field_simp

theorem interp_mid (a b c d : ℚ) (h : d - c ≠ 0) :
    a + (b - a) * ((c + d) / 2 - c) / (d - c) = (a + b) / 2 := by
  field_simp
  ring

/-! ## Containers -/

theorem NameMap.index_of_find {m : NameMap} {k : String} {v : Nat}
    (h : NameMap.find m k = some v) : NameMap.index m k = (v, m) := by
  simp [NameMap.index, h]

theorem NameMap.index_of_find_none {m : NameMap} {k : String}
    (h : NameMap.find m k = none) : NameMap.index m k = (0, NameMap.assign m k 0) := by
  simp [NameMap.index, h]

theorem NameMap.find_assign_self (m : NameMap) (k : String) (v : Nat) :
    NameMap.find (NameMap.assign m k v) k = some v := by
  induction m with
  | nil => simp [NameMap.assign, NameMap.find]
  | cons e rest ih =>
    obtain ⟨k', v'⟩ := e
    by_cases h : k' = k
    · simp [NameMap.assign, NameMap.find, h]
    · simp [NameMap.assign, NameMap.find, h, ih]

theorem modifyBack_eq {α : Type} (g : α → α) :
    ∀ (d : List α) (h : d ≠ []), modifyBack g d = d.dropLast ++ [g (d.getLast h)]
  | [], h => absurd rfl h
  | [a], _ => rfl
  | a :: b :: rest, _ => by
    have ih := modifyBack_eq g (b :: rest) (by simp)
    simp only [modifyBack, ih, List.dropLast_cons₂, List.cons_append, List.getLast_cons_cons]

theorem modifyBack_ne_nil {α : Type} (g : α → α) (d : List α) (h : d ≠ []) :
    modifyBack g d ≠ [] := by
  rw [modifyBack_eq g d h]; simp

theorem modifyBack_comp {α : Type} (g k : α → α) (d : List α) (h : d ≠ []) :
    modifyBack k (modifyBack g d) = modifyBack (fun a => k (g a)) d := by
  rw [modifyBack_eq k _ (modifyBack_ne_nil g d h)]
  simp only [modifyBack_eq g d h, modifyBack_eq (fun a => k (g a)) d h]
  simp

/-- The push loop of `newsamples` appends, to the last segment, the accepted
samples in input order. -/
theorem newsamples_fold (a : List Sample) :
    ∀ (d : List Segment) (_ : d ≠ []),
      a.foldl (fun d smp =>
          if accept smp.x then modifyBack (fun seg => { seg with data := seg.data ++ [smp] }) d
          else d) d
        = modifyBack
            (fun seg => { seg with data := seg.data ++ a.filter (fun smp => accept smp.x) }) d := by
  induction a with
  | nil =>
    intro d hd
    rw [modifyBack_eq _ d hd]
    simp only [List.foldl_nil, List.filter_nil, List.append_nil]
    exact (List.dropLast_append_getLast hd).symm
  | cons smp rest ih =>
    intro d hd
    rw [List.foldl_cons]
    by_cases hacc : accept smp.x = true
    · rw [if_pos hacc, ih _ (modifyBack_ne_nil _ d hd), modifyBack_comp _ _ d hd]
      simp [List.filter_cons, hacc]
    · rw [if_neg hacc, ih d hd]
      simp [List.filter_cons, hacc]

/-! ## Id assignment -/

theorem firstfree_loop_spec (all : List Nat) :
    ∀ (fuel q : Nat), (all.toFinset.filter (fun v => q ≤ v)).card ≤ fuel →
      q ≤ firstfree_loop all fuel q ∧ firstfree_loop all fuel q ∉ all ∧
      ∀ k, q ≤ k → k < firstfree_loop all fuel q → k ∈ all := by
  intro fuel
  induction fuel with
  | zero =>
    intro q hcard
    have hq : q ∉ all := by
      intro hmem
      have : q ∈ all.toFinset.filter (fun v => q ≤ v) := by simp [hmem]
      have hpos := Finset.card_pos.mpr ⟨q, this⟩
      omega
    refine ⟨le_rfl, hq, ?_⟩
    intro k h1 h2
    simp only [firstfree_loop] at h2
    omega
  | succ fuel ih =>
    intro q hcard
    unfold firstfree_loop
    by_cases hmem : q ∈ all
    · rw [if_pos hmem]
      have hsub : (all.toFinset.filter (fun v => q + 1 ≤ v)) ⊂
          (all.toFinset.filter (fun v => q ≤ v)) := by
        refine Finset.ssubset_iff_of_subset ?_ |>.mpr ⟨q, by simp [hmem], by simp⟩
        intro v hv
        simp only [Finset.mem_filter, List.mem_toFinset] at hv ⊢
        exact ⟨hv.1, by omega⟩
      have hlt := Finset.card_lt_card hsub
      obtain ⟨h1, h2, h3⟩ := ih (q + 1) (by omega)
      refine ⟨by omega, h2, ?_⟩
      intro k hk1 hk2
      rcases Nat.eq_or_lt_of_le hk1 with h | h
      · rw [← h]; exact hmem
      · exact h3 k (by omega) hk2
    · rw [if_neg hmem]
      exact ⟨le_rfl, hmem, fun k h1 h2 => by omega⟩

/-- The id chosen by `firstfree` is the least `q >= 1` that is not a value of the map. -/
theorem firstfree_spec (m : NameMap) :
    1 ≤ firstfree m ∧ firstfree m ∉ m.values ∧
    ∀ q, 1 ≤ q → q ∉ m.values → firstfree m ≤ q := by
  have hcard : (m.values.toFinset.filter (fun v => 1 ≤ v)).card ≤ m.values.length + 1 := by
    calc (m.values.toFinset.filter (fun v => 1 ≤ v)).card
        ≤ m.values.toFinset.card := Finset.card_filter_le _ _
      _ ≤ m.values.length := List.toFinset_card_le _
      _ ≤ m.values.length + 1 := Nat.le_succ _
  obtain ⟨h1, h2, h3⟩ := firstfree_loop_spec m.values (m.values.length + 1) 1 hcard
  refine ⟨h1, h2, ?_⟩
  intro q hq hnot
  by_contra hlt
  exact hnot (h3 q hq (by unfold firstfree at hlt; omega))

/-! ## Dispatcher -/

theorem onOp_ne {p : Packet} {code : Nat} (handler : Instance → Outcome) (s : Instance)
    (h : p.d0 ≠ code) : onOp p code handler s = .ok s := by
  simp [onOp, h]

theorem onOp_eq {p : Packet} {code : Nat} (handler : Instance → Outcome) (s : Instance)
    (h : p.d0 = code) : onOp p code handler s = handler s := by
  simp [onOp, h]

theorem Except.ok_bind {ε α β : Type} (a : α) (k : α → Except ε β) :
    ((Except.ok a : Except ε α) >>= k) = k a := rfl

/-- A configure-channel packet reaches `configchannel` and nothing else. -/
theorem dispatch_configchannel (stdsort : List Sample → List Sample) (p : Packet) (s : Instance)
    (h : p.d0 = 101) : dispatch stdsort p s = configchannel s p.opts p.toks := by
  unfold dispatch
  simp only [onOp, h, Except.ok_bind, Nat.reduceEqDiff, if_false, if_true]
  cases configchannel s p.opts p.toks <;> rfl

/-- A begin-batch packet reaches `batch_begin` and nothing else. -/
theorem dispatch_batch_begin (stdsort : List Sample → List Sample) (p : Packet) (s : Instance)
    (h : p.d0 = 91) : dispatch stdsort p s = .ok (batch_begin s) := by
  unfold dispatch
  simp only [onOp, h, Except.ok_bind, Nat.reduceEqDiff, if_false, if_true]

/-- An end-batch packet reaches `batch_end` and nothing else. -/
theorem dispatch_batch_end (stdsort : List Sample → List Sample) (p : Packet) (s : Instance)
    (h : p.d0 = 92) : dispatch stdsort p s = .ok (batch_end s) := by
  unfold dispatch
  simp only [onOp, h, Except.ok_bind, Nat.reduceEqDiff, if_false, if_true]

/-- An image-tile packet reaches `ingest_image` and nothing else. -/
theorem dispatch_ingest_image (stdsort : List Sample → List Sample) (p : Packet) (s : Instance)
    (h : p.d0 = 5) : dispatch stdsort p s = .ok (ingest_image p s) := by
  unfold dispatch
  simp only [onOp, h, Except.ok_bind, Nat.reduceEqDiff, if_false, if_true]

theorem release_holds_eq : ∀ (cnt : Nat) (depth : Int), release_holds cnt depth = depth - cnt
  | 0, depth => by simp [release_holds]
  | cnt + 1, depth => by
    rw [release_holds, release_holds_eq cnt]
    push_cast
    ring

/-- Taking the mutex and releasing it again restores the state. -/
theorem Instance.lock_unlock (s : Instance) :
    ({ ({ s with lockdepth := s.lockdepth + 1 } : Instance) with
        lockdepth := ({ s with lockdepth := s.lockdepth + 1 } : Instance).lockdepth - 1 }
      : Instance) = s := by
  cases s
  simp

/-! ## Rejected reparenting -/

/-- A configure-channel command for a registered channel whose window carries
another name than the one requested returns with the state as it was: at one of
the two early returns, or at the window-name guard. -/
theorem configchannel_reparent (s : Instance) (e1 : List (String × Dbl)) (e2 : List String)
    (c w : Nat)
    (hreg : s.uchannels.find (tokenValue "#name" e2 "") = some c)
    (hwin : (s.channels c).win = some w)
    (hdiff : (s.windows w).name ≠
      (if tokenValue "#window" e2 "" = "" then tokenValue "#name" e2 ""
        else tokenValue "#window" e2 "")) :
    configchannel s e1 e2 = .ok s := by
  have hs0 : ({ s with uframes := s.uframes } : Instance) = s := by cases s; rfl
  unfold configchannel
  simp only
  split
  · rfl
  · split
    · rfl
    · rename_i hfind
      obtain ⟨f, hf⟩ := Option.ne_none_iff_exists'.mp hfind
      have hrc : resolve_channel s (tokenValue "#name" e2 "") = (s, c) := by
        simp [resolve_channel, hreg]
      have hguard : window_name_differs s c
          (if tokenValue "#window" e2 "" = "" then tokenValue "#name" e2 ""
            else tokenValue "#window" e2 "") = true := by
        simp [window_name_differs, hwin, hdiff]
      simp only [NameMap.index_of_find hf, hs0, hrc, hguard, if_true]
/-- The dispatch step on a configure-channel packet that is rejected at the
window-name guard. -/
theorem listen_step_reparent (stdsort : List Sample → List Sample) (s : Instance)
    (p : Packet) (c w : Nat)
    (hop : p.d0 = 101)
    (hreg : s.uchannels.find (tokenValue "#name" p.toks "") = some c)
    (hwin : (s.channels c).win = some w)
    (hdiff : (s.windows w).name ≠
      (if tokenValue "#window" p.toks "" = "" then tokenValue "#name" p.toks ""
        else tokenValue "#window" p.toks "")) :
    listen_step stdsort s p = .ok s := by
  unfold listen_step
  rw [dispatch_configchannel stdsort p _ hop,
    configchannel_reparent { s with lockdepth := s.lockdepth + 1 } p.opts p.toks c w
      hreg hwin hdiff]
  exact congrArg Except.ok (Instance.lock_unlock s)

/-! ## Properties kept by the option loops -/

theorem whenKey_pres (P : Instance → Prop) (i : String × Dbl) (key : String)
    (body : Instance → Instance) (s : Instance)
    (hbody : ∀ st, P st → P (body st)) (hs : P s) : P (whenKey i key body s) := by
  unfold whenKey
  split
  · exact hbody s hs
  · exact hs

/-- A property kept by every window update, by every channel update that leaves
the stored data alone, and by clearing a channel, is kept by the option loop body
of `configchannel`. -/
theorem configchannel_option_pres (P : Instance → Prop)
    (hwin : ∀ st w g, P st → P (updWin st w g))
    (hchan : ∀ st c g, (∀ ch, (g ch).data = ch.data ∧ (g ch).data2 = ch.data2) →
      P st → P (updChan st c g))
    (hclear : ∀ st c, P st → P (clear_data_id st c))
    (w c : Nat) (s : Instance) (i : String × Dbl) (hs : P s) :
    P (configchannel_option w c s i) := by
  unfold configchannel_option
  refine whenKey_pres P _ _ _ _ (fun st hst => ?_) ?_
  · split
    · exact hclear _ _ hst
    · exact hst
  iterate 11 refine whenKey_pres P _ _ _ _ (fun st hst => hchan _ _ _ (fun _ => ⟨rfl, rfl⟩) hst) ?_
  iterate 6 refine whenKey_pres P _ _ _ _ (fun st hst => hwin _ _ _ hst) ?_
  refine whenKey_pres P _ _ _ _ (fun st hst => ?_) ?_
  · split
    · exact hwin _ _ _ hst
    · exact hst
  refine whenKey_pres P _ _ _ _ (fun st hst => ?_) hs
  split
  · exact hwin _ _ _ hst
  · exact hst

theorem configchannel_options_pres (P : Instance → Prop)
    (hwin : ∀ st w g, P st → P (updWin st w g))
    (hchan : ∀ st c g, (∀ ch, (g ch).data = ch.data ∧ (g ch).data2 = ch.data2) →
      P st → P (updChan st c g))
    (hclear : ∀ st c, P st → P (clear_data_id st c))
    (w c : Nat) (e1 : List (String × Dbl)) :
    ∀ s : Instance, P s → P (e1.foldl (configchannel_option w c) s) := by
  induction e1 with
  | nil => intro s hs; exact hs
  | cons i rest ih =>
    intro s hs
    exact ih _ (configchannel_option_pres P hwin hchan hclear w c s i hs)

/-- A property kept by every frame update is kept by the option loop body of
`configframe`. -/
theorem configframe_option_pres (P : Instance → Prop)
    (hfr : ∀ st f g, P st → P (updFrame st f g))
    (f : Nat) (s : Instance) (i : String × Dbl) (hs : P s) :
    P (configframe_option f s i) := by
  unfold configframe_option
  iterate 18 refine whenKey_pres P _ _ _ _ (fun st hst => hfr _ _ _ hst) ?_
  exact whenKey_pres P _ _ _ _ (fun st hst => hfr _ _ _ hst) hs

theorem configframe_options_pres (P : Instance → Prop)
    (hfr : ∀ st f g, P st → P (updFrame st f g))
    (f : Nat) (e1 : List (String × Dbl)) :
    ∀ s : Instance, P s → P (e1.foldl (configframe_option f) s) := by
  induction e1 with
  | nil => intro s hs; exact hs
  | cons i rest ih =>
    intro s hs
    exact ih _ (configframe_option_pres P hfr f s i hs)

/-- The option loop of `configchannel` does not touch the channel name map. -/
theorem configchannel_options_uchannels (w c : Nat) (e1 : List (String × Dbl)) (s : Instance) :
    (e1.foldl (configchannel_option w c) s).uchannels = s.uchannels :=
  configchannel_options_pres (fun st => st.uchannels = s.uchannels)
    (fun _ _ _ h => h) (fun _ _ _ _ h => h) (fun _ _ h => h) w c e1 s rfl

theorem configchannel_apply_uchannels (s2 : Instance) (c w f : Nat)
    (name dname label window : String) (e1 : List (String × Dbl)) :
    (configchannel_apply s2 c w f name dname label window e1).uchannels = s2.uchannels := by
  unfold configchannel_apply
  simp only
  split
  · simp only [updChan, updWin, configchannel_options_uchannels]
    rfl
  · simp only [updChan, configchannel_options_uchannels]
    rfl

/-! ## Registration of a new channel -/

/-- A configure-channel command for a name that is not registered yet, in a
registered frame, with a target window that is not bound to another frame,
succeeds and registers the name under the id given by `firstfree`. -/
theorem configchannel_registers (s : Instance) (e1 : List (String × Dbl)) (e2 : List String)
    (f : Nat)
    (hname : tokenValue "#name" e2 "" ≠ "")
    (hframe : tokenValue "#frame" e2 "" ≠ "")
    (hf : s.uframes.find (tokenValue "#frame" e2 "") = some f)
    (hnew : s.uchannels.find (tokenValue "#name" e2 "") = none)
    (hwf : ∀ w, s.uwindows.find
        (if tokenValue "#window" e2 "" = "" then tokenValue "#name" e2 ""
          else tokenValue "#window" e2 "") = some w →
        (s.windows w).fr = none ∨ (s.windows w).fr = some f) :
    ∃ s', configchannel s e1 e2 = .ok s' ∧
      s'.uchannels.find (tokenValue "#name" e2 "") = some (firstfree s.uchannels) := by
  have hs0 : ({ s with uframes := s.uframes } : Instance) = s := by cases s; rfl
  have hrc : resolve_channel s (tokenValue "#name" e2 "") =
      ({ s with uchannels := s.uchannels.assign (tokenValue "#name" e2 "") (firstfree s.uchannels),
                channels := setAt s.channels (firstfree s.uchannels) {} },
       firstfree s.uchannels) := by
    simp [resolve_channel, hnew]
  unfold configchannel
  simp only [hname, hframe, or_self, if_false, hf, NameMap.index_of_find hf, hs0, hrc,
    reduceCtorEq]
  have hguard : ∀ window, window_name_differs
      { s with uchannels := s.uchannels.assign (tokenValue "#name" e2 "") (firstfree s.uchannels),
               channels := setAt s.channels (firstfree s.uchannels) {} }
      (firstfree s.uchannels) window = false := by
    intro window
    simp [window_name_differs, setAt]
  simp only [hguard, Bool.false_eq_true, if_false]
  cases hw : s.uwindows.find
      (if tokenValue "#window" e2 "" = "" then tokenValue "#name" e2 ""
        else tokenValue "#window" e2 "") with
  | none =>
    simp only [resolve_window, hw]
    have h1 : channel_window_mismatch
        { s with uchannels := s.uchannels.assign (tokenValue "#name" e2 "")
                   (firstfree s.uchannels),
                 channels := setAt s.channels (firstfree s.uchannels) {},
                 uwindows := s.uwindows.assign
                   (if tokenValue "#window" e2 "" = "" then tokenValue "#name" e2 ""
                     else tokenValue "#window" e2 "") (firstfree s.uwindows),
                 windows := setAt s.windows (firstfree s.uwindows) {} }
        (firstfree s.uchannels) (firstfree s.uwindows) = false := by
      simp [channel_window_mismatch, setAt]
    have h2 : window_frame_mismatch
        { s with uchannels := s.uchannels.assign (tokenValue "#name" e2 "")
                   (firstfree s.uchannels),
                 channels := setAt s.channels (firstfree s.uchannels) {},
                 uwindows := s.uwindows.assign
                   (if tokenValue "#window" e2 "" = "" then tokenValue "#name" e2 ""
                     else tokenValue "#window" e2 "") (firstfree s.uwindows),
                 windows := setAt s.windows (firstfree s.uwindows) {} }
        (firstfree s.uwindows) f = false := by
      simp [window_frame_mismatch, setAt]
    simp only [h1, h2, Bool.false_eq_true, if_false]
    refine ⟨_, rfl, ?_⟩
    rw [configchannel_apply_uchannels]
    exact NameMap.find_assign_self _ _ _
  | some w =>
    simp only [resolve_window, hw]
    have h1 : channel_window_mismatch
        { s with uchannels := s.uchannels.assign (tokenValue "#name" e2 "")
                   (firstfree s.uchannels),
                 channels := setAt s.channels (firstfree s.uchannels) {} }
        (firstfree s.uchannels) w = false := by
      simp [channel_window_mismatch, setAt]
    have h2 : window_frame_mismatch
        { s with uchannels := s.uchannels.assign (tokenValue "#name" e2 "")
                   (firstfree s.uchannels),
                 channels := setAt s.channels (firstfree s.uchannels) {} }
        w f = false := by
      rcases hwf w hw with h | h <;> simp [window_frame_mismatch, h]
    simp only [h1, h2, Bool.false_eq_true, if_false]
    refine ⟨_, rfl, ?_⟩
    rw [configchannel_apply_uchannels]
    exact NameMap.find_assign_self _ _ _

/-! ## Evolution of the stored data -/

theorem ChanInfo.evolves_refl (ch : ChanInfo) : ch.evolves ch :=
  ⟨Or.inl rfl, fun seg hseg _ hsmp => Or.inr ⟨rfl, seg, hseg, hsmp⟩⟩

theorem ChanInfo.evolves_trans {a b c : ChanInfo} (hab : a.evolves b) (hbc : b.evolves c) :
    a.evolves c := by
  obtain ⟨hab1, hab2⟩ := hab
  obtain ⟨hbc1, hbc2⟩ := hbc
  refine ⟨?_, ?_⟩
  · rcases hbc1 with h | h
    · rw [h]; exact hab1
    · exact Or.inr h
  · intro seg hseg smp hsmp
    rcases hbc2 seg hseg smp hsmp with h | ⟨h2, seg1, hseg1, hsmp1⟩
    · exact Or.inl h
    · rcases hab2 seg1 hseg1 smp hsmp1 with h | ⟨h3, seg0, hseg0, hsmp0⟩
      · exact Or.inl h
      · exact Or.inr ⟨h2.trans h3, seg0, hseg0, hsmp0⟩

/-- A channel record with the same stored data evolves from the old one. -/
theorem ChanInfo.evolves_of_data {a b : ChanInfo} (hd : b.data = a.data)
    (hd2 : b.data2 = a.data2) : a.evolves b :=
  ⟨Or.inl hd2, fun seg hseg _ hsmp => Or.inr ⟨hd2, seg, hd ▸ hseg, hsmp⟩⟩

/-- A cleared or freshly constructed channel record evolves from any record. -/
theorem ChanInfo.evolves_cleared {a b : ChanInfo} (hd : b.data = [])
    (hd2 : b.data2 = {}) : a.evolves b :=
  ⟨Or.inr hd2, fun seg hseg => by rw [hd] at hseg; exact absurd hseg (List.not_mem_nil _)⟩

theorem Evolves.refl (s : Instance) : Evolves s s := fun _ => ChanInfo.evolves_refl _

theorem Evolves.trans {a b c : Instance} (hab : Evolves a b) (hbc : Evolves b c) :
    Evolves a c := fun i => ChanInfo.evolves_trans (hab i) (hbc i)

theorem Evolves.of_channels {s s' : Instance} (h : s'.channels = s.channels) : Evolves s s' := by
  intro c
  rw [h]
  exact ChanInfo.evolves_refl _

/-- Replacing one channel slot by a record that evolves from it. -/
theorem Evolves.of_setAt {s s' : Instance} (c : Nat) (ch : ChanInfo)
    (h : s'.channels = setAt s.channels c ch) (hev : (s.channels c).evolves ch) :
    Evolves s s' := by
  intro i
  rw [h]
  unfold setAt
  split
  · rename_i hi
    rw [hi]; exact hev
  · exact ChanInfo.evolves_refl _

theorem evolves_updChan (s : Instance) (c : Nat) (g : ChanInfo → ChanInfo)
    (hg : ∀ ch, (g ch).data = ch.data ∧ (g ch).data2 = ch.data2) : Evolves s (updChan s c g) :=
  Evolves.of_setAt c _ rfl (ChanInfo.evolves_of_data (hg _).1 (hg _).2)

theorem evolves_updWin (s : Instance) (w : Nat) (g : WindowInfo → WindowInfo) :
    Evolves s (updWin s w g) := Evolves.of_channels rfl

theorem evolves_updFrame (s : Instance) (f : Nat) (g : FrameInfo → FrameInfo) :
    Evolves s (updFrame s f g) := Evolves.of_channels rfl

theorem evolves_clear_data_id (s : Instance) (c : Nat) : Evolves s (clear_data_id s c) :=
  Evolves.of_setAt c _ rfl (ChanInfo.evolves_cleared rfl rfl)

theorem evolves_clear_data (s : Instance) (a : String) : Evolves s (clear_data s a) := by
  unfold clear_data
  split
  · exact Evolves.refl s
  · exact evolves_clear_data_id s _

theorem Evolves.foldl {α : Type} (f : Instance → α → Instance)
    (hf : ∀ st x, Evolves st (f st x)) :
    ∀ (l : List α) (s : Instance), Evolves s (l.foldl f s) := by
  intro l
  induction l with
  | nil => intro s; exact Evolves.refl s
  | cons x rest ih => intro s; exact Evolves.trans (hf s x) (ih (f s x))

theorem Outcome.bind_ok {o : Outcome} {k : Instance → Outcome} {s' : Instance}
    (h : (o >>= k) = .ok s') : ∃ s1, o = .ok s1 ∧ k s1 = .ok s' := by
  cases o with
  | error e => exact Except.noConfusion h
  | ok s1 => exact ⟨s1, rfl, h⟩

theorem Evolves.foldlM {α : Type} (f : Instance → α → Outcome)
    (hf : ∀ st x st', f st x = .ok st' → Evolves st st') :
    ∀ (l : List α) (s s' : Instance), l.foldlM f s = .ok s' → Evolves s s' := by
  intro l
  induction l with
  | nil =>
    intro s s' h
    have : s = s' := by
      have h' : (Except.ok s : Outcome) = .ok s' := h
      exact Except.ok.inj h'
    rw [this]; exact Evolves.refl s'
  | cons x rest ih =>
    intro s s' h
    rw [List.foldlM_cons] at h
    obtain ⟨s1, h1, h2⟩ := Outcome.bind_ok h
    exact Evolves.trans (hf s x s1 h1) (ih s1 s' h2)

theorem evolves_clear_all_data (s : Instance) : Evolves s (clear_all_data s) := by
  unfold clear_all_data
  exact Evolves.foldl (fun (st : Instance) (e : String × Nat) => clear_data_id st e.2)
    (fun st e => evolves_clear_data_id st e.2) _ s

theorem evolves_remove_channel (s s' : Instance) (name : String)
    (h : remove_channel s name = .ok s') : Evolves s s' := by
  simp only [remove_channel] at h
  split at h
  · have := Except.ok.inj h
    rw [← this]; exact Evolves.of_channels rfl
  · split at h
    · exact Except.noConfusion h
    · have := Except.ok.inj h
      rw [← this]
      exact Evolves.of_setAt _ _ rfl (ChanInfo.evolves_of_data rfl rfl)

theorem evolves_deactivate_channel (s : Instance) (name : String) :
    Evolves s (deactivate_channel s name) := by
  simp only [deactivate_channel]
  split
  · exact Evolves.of_channels rfl
  · exact Evolves.of_setAt _ _ rfl (ChanInfo.evolves_of_data rfl rfl)

theorem evolves_sort_channel (stdsort : List Sample → List Sample)
    (hperm : ∀ l, (stdsort l).Perm l) (s : Instance) (name : String) :
    Evolves s (sort_channel stdsort s name) := by
  simp only [sort_channel]
  split
  · exact Evolves.of_channels rfl
  · refine Evolves.of_setAt _ _ rfl ⟨Or.inl rfl, ?_⟩
    intro seg' hseg' smp hsmp
    simp only [List.mem_map] at hseg'
    obtain ⟨seg, hseg, rfl⟩ := hseg'
    exact Or.inr ⟨rfl, seg, hseg, (hperm seg.data).mem_iff.mp hsmp⟩

theorem evolves_remove_window2_ref (s s' : Instance) (name : Instance → String)
    (h : remove_window2_ref s name = .ok s') : Evolves s s' := by
  simp only [remove_window2_ref] at h
  split at h
  · have := Except.ok.inj h
    rw [← this]; exact Evolves.of_channels rfl
  · obtain ⟨s2, h2, h3⟩ := Outcome.bind_ok h
    have e2 := Evolves.foldlM _ (fun st _ st' hst => evolves_remove_channel st st' _ hst) _ _ _ h2
    have := Except.ok.inj h3
    rw [← this]
    exact Evolves.trans (Evolves.trans (Evolves.of_channels rfl) e2) (Evolves.of_channels rfl)

theorem evolves_remove_frame (s s' : Instance) (name : String)
    (h : remove_frame s name = .ok s') : Evolves s s' := by
  simp only [remove_frame] at h
  split at h
  · have := Except.ok.inj h
    rw [← this]; exact Evolves.of_channels rfl
  · obtain ⟨s2, h2, h3⟩ := Outcome.bind_ok h
    have e2 := Evolves.foldlM _
      (fun st _ st' hst => evolves_remove_window2_ref st st' _ hst) _ _ _ h2
    have := Except.ok.inj h3
    rw [← this]
    exact Evolves.trans (Evolves.trans (Evolves.of_channels rfl) e2) (Evolves.of_channels rfl)

theorem evolves_delete_text_frame (s : Instance) (name : String) :
    Evolves s (delete_text_frame s name) := by
  simp only [delete_text_frame]
  split <;> exact Evolves.of_channels rfl

theorem evolves_show_frame (s : Instance) (name : String) (value : Int) :
    Evolves s (show_frame s name value) := by
  simp only [show_frame]
  split <;> exact Evolves.of_channels rfl

/-- The segment list of the target channel after `newsamples`. -/
theorem newsamples_data (s : Instance) (name : String) (a : List Sample) (newsegment : Bool)
    (c : Nat) (hreg : s.uchannels.find name = some c) (hc : c ≠ 0) :
    (newsamples s name a newsegment).uchannels = s.uchannels ∧
    (newsamples s name a newsegment).channels = setAt s.channels c
      { s.channels c with
        data := modifyBack
          (fun seg => { seg with vastart := Dbl.nan,
                                 data := seg.data ++ a.filter (fun smp => accept smp.x) })
          (if (s.channels c).data.length = 0 || newsegment
            then (s.channels c).data ++ [({} : Segment)] else (s.channels c).data) } ∧
    (newsamples s name a newsegment).uwindows = s.uwindows ∧
    (newsamples s name a newsegment).uframes = s.uframes ∧
    (newsamples s name a newsegment).windows = s.windows ∧
    (newsamples s name a newsegment).frames = s.frames := by
  have hd1 : (if (s.channels c).data.length = 0 || newsegment
      then (s.channels c).data ++ [({} : Segment)] else (s.channels c).data) ≠ [] := by
    split
    · simp
    · rename_i h
      intro h0
      apply h
      simp [h0]
  refine ⟨?_, ?_, ?_, ?_, ?_, ?_⟩
  · unfold newsamples
    simp only [NameMap.index_of_find hreg, hc, if_false]
  · unfold newsamples
    simp only [NameMap.index_of_find hreg, hc, if_false]
    rw [newsamples_fold a _ (modifyBack_ne_nil _ _ hd1), modifyBack_comp _ _ _ hd1]
  all_goals
    unfold newsamples
    simp only [NameMap.index_of_find hreg, hc, if_false]


theorem evolves_remove_all_channels (s s' : Instance)
    (h : remove_all_channels s = .ok s') : Evolves s s' :=
  Evolves.foldlM _ (fun st k st' hst => evolves_remove_channel st st' k hst) _ _ _ h

theorem evolves_deactivate_all_channels (s : Instance) :
    Evolves s (deactivate_all_channels s) :=
  Evolves.foldl _ (fun st k => evolves_deactivate_channel st k) _ s

theorem evolves_remove_all_frames (s s' : Instance)
    (h : remove_all_frames s = .ok s') : Evolves s s' :=
  Evolves.foldlM _ (fun st k st' hst => evolves_remove_frame st st' k hst) _ _ _ h

theorem evolves_hide_all_frames (s : Instance) : Evolves s (hide_all_frames s) :=
  Evolves.foldl _ (fun st k => evolves_show_frame st k 0) _ s

theorem evolves_show_all_frames (s : Instance) (pre : String) :
    Evolves s ( show_all_frames_prefix s pre) :=
  Evolves.foldl _ (fun st k => evolves_show_frame st k 1) _ s

theorem evolves_findlasttimes_segment (c : ChanInfo) (st st' : Instance) (seg : Segment)
    (h : findlasttimes_segment c st seg = .ok st') : Evolves st st' := by
  simp only [findlasttimes_segment] at h
  split at h
  · have := Except.ok.inj h
    rw [← this]; exact Evolves.refl st
  · split at h
    · exact Except.noConfusion h
    · split at h
      · exact Except.noConfusion h
      · have := Except.ok.inj h
        rw [← this]
        refine Evolves.of_channels ?_
        split <;> split <;> rfl

theorem evolves_findlasttimes_channel (st st' : Instance) (e : String × Nat)
    (h : findlasttimes_channel st e = .ok st') : Evolves st st' := by
  simp only [findlasttimes_channel] at h
  split at h
  · have := Except.ok.inj h
    rw [← this]; exact Evolves.refl st
  · exact Evolves.foldlM _ (fun a seg b hab => evolves_findlasttimes_segment _ a b seg hab)
      _ _ _ h

theorem evolves_findlasttimes_fix1 (st : Instance) (e : String × Nat) :
    Evolves st (findlasttimes_fix1 st e) := by
  simp only [findlasttimes_fix1]
  split
  · exact evolves_updFrame st e.2 _
  · exact Evolves.refl st

theorem evolves_findlasttimes_fix2 (st : Instance) (e : String × Nat) :
    Evolves st (findlasttimes_fix2 st e) := by
  simp only [findlasttimes_fix2]
  split
  · exact evolves_updFrame st e.2 _
  · exact Evolves.refl st

theorem evolves_findlasttimes_fix3 (st : Instance) (e : String × Nat) :
    Evolves st (findlasttimes_fix3 st e) := by
  simp only [findlasttimes_fix3]
  split
  · exact evolves_updFrame st e.2 _
  · exact Evolves.refl st

theorem evolves_findlasttimes (s s' : Instance) (h : findlasttimes s = .ok s') :
    Evolves s s' := by
  simp only [findlasttimes] at h
  obtain ⟨s2, h2, h3⟩ := Outcome.bind_ok h
  have e1 : Evolves s (s.uframes.foldl
      (fun (st : Instance) (e : String × Nat) => updFrame st e.2
        (fun fr => { fr with lasttime := Dbl.fin (-(10 ^ 100)),
                             firsttime := Dbl.fin (10 ^ 100) })) s) :=
    Evolves.foldl _ (fun (st : Instance) (e : String × Nat) => evolves_updFrame st e.2 _) _ s
  have e2 := Evolves.foldlM _ (fun a e b hab => evolves_findlasttimes_channel a b e hab) _ _ _ h2
  have := Except.ok.inj h3
  rw [← this]
  exact Evolves.trans (Evolves.trans e1 e2)
    (Evolves.trans (Evolves.trans (Evolves.foldl _ evolves_findlasttimes_fix1 _ s2)
      (Evolves.foldl _ evolves_findlasttimes_fix2 _ _))
      (Evolves.foldl _ evolves_findlasttimes_fix3 _ _))

theorem evolves_follow_all_frames (s s' : Instance) (h : follow_all_frames s = .ok s') :
    Evolves s s' := by
  simp only [follow_all_frames] at h
  obtain ⟨s1, h1, h2⟩ := Outcome.bind_ok h
  have := Except.ok.inj h2
  rw [← this]
  exact Evolves.trans (evolves_findlasttimes s s1 h1)
    (Evolves.foldl (fun (st : Instance) (e : String × Nat) =>
        updFrame st e.2 (fun fr => { fr with endtime := fr.lasttime }))
      (fun st e => evolves_updFrame st e.2 _) _ s1)

theorem evolves_resolve_channel (s : Instance) (name : String) :
    Evolves s (resolve_channel s name).1 := by
  simp only [resolve_channel]
  split
  · exact Evolves.of_setAt _ _ rfl (ChanInfo.evolves_cleared rfl rfl)
  · exact Evolves.refl s

theorem evolves_resolve_window (s : Instance) (window : String) :
    Evolves s (resolve_window s window).1 := by
  simp only [resolve_window]
  split <;> exact Evolves.of_channels rfl

theorem evolves_resolve_frame (s : Instance) (name : String) :
    Evolves s (resolve_frame s name).1 := by
  simp only [resolve_frame]
  split <;> exact Evolves.of_channels rfl

theorem evolves_configframe (s : Instance) (e1 : List (String × Dbl)) (e2 : List String) :
    Evolves s (configframe s e1 e2) := by
  simp only [configframe]
  refine configframe_options_pres (fun st => Evolves s st)
    (fun st f g hst => Evolves.trans hst (evolves_updFrame st f g)) _ e1 _ ?_
  exact Evolves.trans (evolves_resolve_frame s _) (evolves_updFrame _ _ _)

theorem evolves_configchannel_apply (s2 : Instance) (c w f : Nat)
    (name dname label window : String) (e1 : List (String × Dbl)) :
    Evolves s2 (configchannel_apply s2 c w f name dname label window e1) := by
  simp only [configchannel_apply]
  refine Evolves.trans ?_ (evolves_updChan _ _ _ (fun _ => ⟨rfl, rfl⟩))
  have hfold : Evolves s2 (e1.foldl (configchannel_option w c)
      (updFrame (updWin (updChan s2 c (fun ch =>
        { ch with used := 1, name := name, dname := dname, label := label, window := w,
                  win := some w })) w (fun win =>
        { win with channels := IdSet.insert win.channels c, used := 1, name := window,
                   frame := f, fr := some f })) f
        (fun fr => { fr with windows := IdSet.insert fr.windows w }))) := by
    refine configchannel_options_pres (fun st => Evolves s2 st)
      (fun st w g hst => Evolves.trans hst (evolves_updWin st w g))
      (fun st c g hg hst => Evolves.trans hst (evolves_updChan st c g hg))
      (fun st c hst => Evolves.trans hst (evolves_clear_data_id st c)) w c e1 _ ?_
    have a1 := evolves_updChan s2 c (fun ch =>
        { ch with used := 1, name := name, dname := dname, label := label, window := w,
                  win := some w }) (fun _ => ⟨rfl, rfl⟩)
    exact Evolves.trans (Evolves.trans a1 (evolves_updWin _ _ _)) (evolves_updFrame _ _ _)
  split
  · exact Evolves.trans hfold (evolves_updWin _ _ _)
  · exact hfold

theorem evolves_configchannel (s s' : Instance) (e1 : List (String × Dbl)) (e2 : List String)
    (h : configchannel s e1 e2 = .ok s') : Evolves s s' := by
  simp only [configchannel] at h
  have hs0 : Evolves s { s with uframes := (s.uframes.index (tokenValue "#frame" e2 "")).2 } :=
    Evolves.of_channels rfl
  generalize (if tokenValue "#window" e2 "" = "" then tokenValue "#name" e2 ""
    else tokenValue "#window" e2 "") = window at h
  generalize (if tokenValue "#dname" e2 "" = "" then tokenValue "#name" e2 ""
    else tokenValue "#dname" e2 "") = dname at h
  split at h
  · have := Except.ok.inj h
    rw [← this]; exact Evolves.refl s
  · split at h
    · have := Except.ok.inj h
      rw [← this]; exact Evolves.refl s
    · split at h
      · have := Except.ok.inj h
        rw [← this]
        exact Evolves.trans hs0 (evolves_resolve_channel _ _)
      · split at h
        · exact Except.noConfusion h
        · split at h
          · exact Except.noConfusion h
          · have := Except.ok.inj h
            rw [← this]
            exact Evolves.trans (Evolves.trans (Evolves.trans hs0 (evolves_resolve_channel _ _))
              (evolves_resolve_window _ _)) (evolves_configchannel_apply _ _ _ _ _ _ _ _ _)

theorem evolves_addtexttoframe (s s' : Instance) (p : Packet)
    (h : addtexttoframe s p = .ok s') : Evolves s s' := by
  simp only [addtexttoframe] at h
  split at h
  · exact Except.noConfusion h
  · have := Except.ok.inj h
    rw [← this]; exact evolves_updFrame _ _ _

theorem evolves_set_toggles (p : Packet) (s : Instance) : Evolves s (set_toggles p s) := by
  refine Evolves.of_channels ?_
  simp only [set_toggles]
  split <;> split <;> split <;> rfl

theorem evolves_batch_end (s : Instance) : Evolves s (batch_end s) := by
  refine Evolves.of_channels ?_
  simp only [batch_end]
  split <;> rfl

theorem evolves_link_frames (p : Packet) (s : Instance) : Evolves s (link_frames p s) := by
  refine Evolves.of_channels ?_
  simp only [link_frames]
  split <;> rfl

/-- The stored data of the target channel after `newsamples` evolves from what was
there: samples are only appended, and only accepted ones. -/
theorem evolves_newsamples (s : Instance) (name : String) (a : List Sample)
    (newsegment : Bool) : Evolves s (newsamples s name a newsegment) := by
  cases hfind : s.uchannels.find name with
  | none =>
    refine Evolves.of_channels ?_
    simp only [newsamples, NameMap.index_of_find_none hfind, if_true]
  | some c =>
    by_cases hc : c = 0
    · refine Evolves.of_channels ?_
      simp only [newsamples, NameMap.index_of_find hfind, hc, if_true]
    · obtain ⟨-, hch, -⟩ := newsamples_data s name a newsegment c hfind hc
      refine Evolves.of_setAt c _ hch ⟨Or.inl rfl, ?_⟩
      intro seg' hseg' smp hsmp
      have hd1 : (if (s.channels c).data.length = 0 || newsegment
          then (s.channels c).data ++ [({} : Segment)] else (s.channels c).data) ≠ [] := by
        split
        · simp
        · rename_i h
          intro h0
          apply h
          simp [h0]
      have hsrc : ∀ seg ∈ (if (s.channels c).data.length = 0 || newsegment
          then (s.channels c).data ++ [({} : Segment)] else (s.channels c).data),
          ∀ x ∈ seg.data, ∃ seg0 ∈ (s.channels c).data, x ∈ seg0.data := by
        intro seg hseg x hx
        split at hseg
        · rcases List.mem_append.mp hseg with h | h
          · exact ⟨seg, h, hx⟩
          · rw [List.mem_singleton.mp h] at hx
            exact absurd hx (List.not_mem_nil _)
        · exact ⟨seg, hseg, hx⟩
      simp only at hseg'
      rw [modifyBack_eq _ _ hd1] at hseg'
      rcases List.mem_append.mp hseg' with h | h
      · exact Or.inr ⟨rfl, hsrc seg' (List.mem_of_mem_dropLast h) smp hsmp⟩
      · rw [List.mem_singleton.mp h] at hsmp
        simp only at hsmp
        rcases List.mem_append.mp hsmp with h1 | h1
        · exact Or.inr ⟨rfl, hsrc _ (List.getLast_mem hd1) smp h1⟩
        · exact Or.inl (by simpa using (List.mem_filter.mp h1).2)

theorem evolves_ingest_samples (p : Packet) (s : Instance) :
    Evolves s (ingest_samples p s) := by
  simp only [ingest_samples]
  refine Evolves.trans ?_ (Evolves.of_channels rfl)
  refine Evolves.trans ?_ (evolves_newsamples _ _ _ _)
  split
  · exact Evolves.trans (Evolves.of_channels rfl) (evolves_clear_data _ _)
  · exact Evolves.of_channels rfl

/-! ## The dispatcher and the stored data -/

theorem evolves_onOp_bind {p : Packet} {code : Nat} {handler k : Instance → Outcome}
    {s s' : Instance}
    (h : (onOp p code handler s >>= k) = .ok s')
    (hh : ∀ st st', handler st = .ok st' → Evolves st st')
    (hk : ∀ s1, k s1 = .ok s' → Evolves s1 s') : Evolves s s' := by
  obtain ⟨s1, h1, h2⟩ := Outcome.bind_ok h
  refine Evolves.trans ?_ (hk s1 h2)
  unfold onOp at h1
  split at h1
  · exact hh s s1 h1
  · have := Except.ok.inj h1
    rw [← this]; exact Evolves.refl s

theorem evolves_onOp_bind_pure {p : Packet} {code : Nat} {g : Instance → Instance}
    {k : Instance → Outcome} {s s' : Instance}
    (h : (onOp p code (fun st => .ok (g st)) s >>= k) = .ok s')
    (hg : ∀ st, Evolves st (g st))
    (hk : ∀ s1, k s1 = .ok s' → Evolves s1 s') : Evolves s s' :=
  evolves_onOp_bind h
    (fun st st' hst => by
      have := Except.ok.inj hst
      rw [← this]; exact hg st)
    hk

/-- Every packet other than an image tile lets the stored data of every channel
evolve: samples are only removed, permuted, or appended after acceptance. -/
theorem evolves_dispatch (stdsort : List Sample → List Sample)
    (hperm : ∀ l, (stdsort l).Perm l) (p : Packet) (s s' : Instance)
    (hop : p.d0 ≠ 5) (h : dispatch stdsort p s = .ok s') : Evolves s s' := by
  unfold dispatch at h
  refine evolves_onOp_bind h evolves_remove_all_channels (fun s1 h => ?_)
  refine evolves_onOp_bind h (fun a b hab => evolves_remove_channel a b _ hab) (fun s1 h => ?_)
  refine evolves_onOp_bind_pure h evolves_deactivate_all_channels (fun s1 h => ?_)
  refine evolves_onOp_bind_pure h evolves_clear_all_data (fun s1 h => ?_)
  refine evolves_onOp_bind_pure h (fun st => evolves_clear_data st _) (fun s1 h => ?_)
  refine evolves_onOp_bind h evolves_remove_all_frames (fun s1 h => ?_)
  refine evolves_onOp_bind h (fun a b hab => evolves_remove_frame a b _ hab) (fun s1 h => ?_)
  refine evolves_onOp_bind_pure h evolves_hide_all_frames (fun s1 h => ?_)
  refine evolves_onOp_bind_pure h (fun st => evolves_show_all_frames st _) (fun s1 h => ?_)
  refine evolves_onOp_bind h evolves_follow_all_frames (fun s1 h => ?_)
  refine evolves_onOp_bind h (fun a b hab => evolves_remove_window2_ref a b _ hab)
    (fun s1 h => ?_)
  refine evolves_onOp_bind_pure h (fun st => evolves_sort_channel stdsort hperm st _)
    (fun s1 h => ?_)
  refine evolves_onOp_bind_pure h (fun st => Evolves.of_channels rfl) (fun s1 h => ?_)
  refine evolves_onOp_bind_pure h (fun st => Evolves.of_channels rfl) (fun s1 h => ?_)
  refine evolves_onOp_bind h (fun a b hab => evolves_addtexttoframe a b _ hab) (fun s1 h => ?_)
  refine evolves_onOp_bind_pure h (fun st => evolves_delete_text_frame st _) (fun s1 h => ?_)
  refine evolves_onOp_bind_pure h (fun st => Evolves.of_channels rfl) (fun s1 h => ?_)
  refine evolves_onOp_bind_pure h (evolves_set_toggles p) (fun s1 h => ?_)
  refine evolves_onOp_bind_pure h (fun st => Evolves.of_channels rfl) (fun s1 h => ?_)
  refine evolves_onOp_bind_pure h evolves_batch_end (fun s1 h => ?_)
  refine evolves_onOp_bind_pure h (fun st => evolves_configframe st _ _) (fun s1 h => ?_)
  refine evolves_onOp_bind h (fun a b hab => evolves_configchannel a b _ _ hab) (fun s1 h => ?_)
  refine evolves_onOp_bind_pure h (evolves_link_frames p) (fun s1 h => ?_)
  refine evolves_onOp_bind_pure h (fun st => Evolves.of_channels rfl) (fun s1 h => ?_)
  refine evolves_onOp_bind_pure h (fun st => Evolves.of_channels rfl) (fun s1 h => ?_)
  refine evolves_onOp_bind_pure h (fun st => Evolves.refl st) (fun s1 h => ?_)
  refine evolves_onOp_bind_pure h (evolves_ingest_samples p) (fun s1 h => ?_)
  rw [onOp_ne _ _ hop] at h
  have := Except.ok.inj h
  rw [← this]; exact Evolves.refl _

/-! ## Invariants of the stored samples -/

theorem ChanInfo.storedAcceptedOrCorner_of_evolves {a b : ChanInfo}
    (h : a.storedAcceptedOrCorner) (hev : a.evolves b) : b.storedAcceptedOrCorner := by
  intro seg hseg smp hsmp
  rcases hev.2 seg hseg smp hsmp with hacc | ⟨hd2, seg0, hseg0, hsmp0⟩
  · exact Or.inl hacc
  · rcases h seg0 hseg0 smp hsmp0 with hacc | hcor
    · exact Or.inl hacc
    · right; rw [hd2]; exact hcor

theorem ImageData.default_corners_accepted :
    ∀ smp ∈ ({} : ImageData).corners, accept smp.x = true := by
  intro smp hsmp
  simp only [ImageData.corners, List.mem_cons, List.mem_singleton, List.not_mem_nil,
    or_false] at hsmp
  rcases hsmp with h | h <;> rw [h] <;> decide

theorem ChanInfo.storedAccepted_of_evolves {a b : ChanInfo}
    (h : a.storedAccepted) (hc : ∀ smp ∈ a.data2.corners, accept smp.x = true)
    (hev : a.evolves b) :
    b.storedAccepted ∧ ∀ smp ∈ b.data2.corners, accept smp.x = true := by
  refine ⟨?_, ?_⟩
  · intro seg hseg smp hsmp
    rcases hev.2 seg hseg smp hsmp with hacc | ⟨-, seg0, hseg0, hsmp0⟩
    · exact hacc
    · exact h seg0 hseg0 smp hsmp0
  · rcases hev.1 with h1 | h1
    · rw [h1]; exact hc
    · rw [h1]; exact ImageData.default_corners_accepted

/-- After `newimage` the target channel holds exactly the two bounding-box samples
of its image payload. -/
theorem newimage_storedAcceptedOrCorner (s : Instance) (name : String) (data : List Dbl)
    (h : ∀ c, (s.channels c).storedAcceptedOrCorner) :
    ∀ c, ((newimage s name data).channels c).storedAcceptedOrCorner := by
  intro c
  simp only [newimage]
  split
  · exact h c
  · simp only [setAt]
    split
    · intro seg hseg smp hsmp
      right
      simp only [List.mem_singleton] at hseg
      rw [hseg] at hsmp
      exact hsmp
    · exact h c

theorem listen_step_storedAcceptedOrCorner (stdsort : List Sample → List Sample)
    (hperm : ∀ l, (stdsort l).Perm l) (p : Packet) (s s' : Instance)
    (hinv : ∀ c, (s.channels c).storedAcceptedOrCorner)
    (h : listen_step stdsort s p = .ok s') :
    ∀ c, (s'.channels c).storedAcceptedOrCorner := by
  unfold listen_step at h
  obtain ⟨s1, h1, h2⟩ := Outcome.bind_ok h
  have e2 := Except.ok.inj h2
  rw [← e2]
  show ∀ c, (s1.channels c).storedAcceptedOrCorner
  by_cases hop : p.d0 = 5
  · rw [dispatch_ingest_image stdsort p _ hop] at h1
    have e1 := Except.ok.inj h1
    rw [← e1]
    simp only [ingest_image]
    refine newimage_storedAcceptedOrCorner _ _ _ ?_
    split
    · intro c
      exact ChanInfo.storedAcceptedOrCorner_of_evolves (hinv c)
        (Evolves.trans (Evolves.of_channels rfl) (evolves_clear_data _ _) c)
    · exact hinv
  · intro c
    exact ChanInfo.storedAcceptedOrCorner_of_evolves (hinv c)
      (Evolves.trans (Evolves.of_channels rfl) (evolves_dispatch stdsort hperm p _ s1 hop h1) c)

theorem listen_step_storedAccepted (stdsort : List Sample → List Sample)
    (hperm : ∀ l, (stdsort l).Perm l) (p : Packet) (s s' : Instance) (hop : p.d0 ≠ 5)
    (hinv : ∀ c, (s.channels c).storedAccepted ∧
      ∀ smp ∈ (s.channels c).data2.corners, accept smp.x = true)
    (h : listen_step stdsort s p = .ok s') :
    ∀ c, (s'.channels c).storedAccepted ∧
      ∀ smp ∈ (s'.channels c).data2.corners, accept smp.x = true := by
  unfold listen_step at h
  obtain ⟨s1, h1, h2⟩ := Outcome.bind_ok h
  have e2 := Except.ok.inj h2
  rw [← e2]
  intro c
  exact ChanInfo.storedAccepted_of_evolves (hinv c).1 (hinv c).2
    (Evolves.trans (Evolves.of_channels rfl) (evolves_dispatch stdsort hperm p _ s1 hop h1) c)

theorem listen_main_storedAcceptedOrCorner (stdsort : List Sample → List Sample)
    (hperm : ∀ l, (stdsort l).Perm l) :
    ∀ (pkts : List Packet) (s s' : Instance),
      (∀ c, (s.channels c).storedAcceptedOrCorner) →
      listen_main stdsort s pkts = .ok s' → ∀ c, (s'.channels c).storedAcceptedOrCorner := by
  intro pkts
  induction pkts with
  | nil =>
    intro s s' hinv h
    have := Except.ok.inj h
    rw [← this]; exact hinv
  | cons p rest ih =>
    intro s s' hinv h
    simp only [listen_main] at h
    obtain ⟨s1, h1, h2⟩ := Outcome.bind_ok h
    exact ih s1 s' (listen_step_storedAcceptedOrCorner stdsort hperm p s s1 hinv h1) h2

theorem listen_main_storedAccepted (stdsort : List Sample → List Sample)
    (hperm : ∀ l, (stdsort l).Perm l) :
    ∀ (pkts : List Packet) (s s' : Instance), (∀ p ∈ pkts, p.d0 ≠ 5) →
      (∀ c, (s.channels c).storedAccepted ∧
        ∀ smp ∈ (s.channels c).data2.corners, accept smp.x = true) →
      listen_main stdsort s pkts = .ok s' →
      ∀ c, (s'.channels c).storedAccepted ∧
        ∀ smp ∈ (s'.channels c).data2.corners, accept smp.x = true := by
  intro pkts
  induction pkts with
  | nil =>
    intro s s' _ hinv h
    have := Except.ok.inj h
    rw [← this]; exact hinv
  | cons p rest ih =>
    intro s s' hops hinv h
    simp only [listen_main] at h
    obtain ⟨s1, h1, h2⟩ := Outcome.bind_ok h
    exact ih s1 s' (fun q hq => hops q (List.mem_cons_of_mem _ hq))
      (listen_step_storedAccepted stdsort hperm p s s1 (hops p (List.mem_cons_self _ _)) hinv h1)
      h2

theorem sortByTime_perm (l : List Sample) : (sortByTime l).Perm l :=
  List.perm_insertionSort _ l

/-! ## Range queries and sample validation: main results -/

/-- C2: for finite samples with strictly increasing times, at least two of them,
and a query time `t` between the first and the last time, `get_data_at_time`
returns `x_l + (x_(l+1) - x_l) * (t - t_l) / (t_(l+1) - t_l)` for the one index `l`
with `t_l < t <= t_(l+1)` (`l = 0` when `t = t_0`); hence it returns `x_k` at
`t = t_k` and `(x_k + x_(k+1)) / 2` at the midpoint of two adjacent samples. -/
theorem get_data_at_time_interpolates (seg : Segment) (pts : List (ℚ × ℚ)) (t : ℚ)
    (hdata : seg.data = pts.map (fun p => (⟨Dbl.fin p.1, Dbl.fin p.2⟩ : Sample)))
    (hinc : (pts.map Prod.fst).Chain' (fun a b => a < b))
    (hn : 2 ≤ pts.length)
    (hlo : (pts.getD 0 (0, 0)).1 ≤ t)
    (hhi : t ≤ (pts.getD (pts.length - 1) (0, 0)).1) :
    (∃ l : Nat, l + 1 < pts.length ∧
      (((pts.getD l (0, 0)).1 < t ∧ t ≤ (pts.getD (l + 1) (0, 0)).1) ∨
        (l = 0 ∧ t = (pts.getD 0 (0, 0)).1))) ∧
    (∀ l : Nat, l + 1 < pts.length →
      (((pts.getD l (0, 0)).1 < t ∧ t ≤ (pts.getD (l + 1) (0, 0)).1) ∨
        (l = 0 ∧ t = (pts.getD 0 (0, 0)).1)) →
      get_data_at_time seg (Dbl.fin t) =
        Dbl.fin ((pts.getD l (0, 0)).2 +
          ((pts.getD (l + 1) (0, 0)).2 - (pts.getD l (0, 0)).2) * (t - (pts.getD l (0, 0)).1)
            / ((pts.getD (l + 1) (0, 0)).1 - (pts.getD l (0, 0)).1))) ∧
    (∀ k : Nat, k < pts.length → t = (pts.getD k (0, 0)).1 →
      get_data_at_time seg (Dbl.fin t) = Dbl.fin (pts.getD k (0, 0)).2) ∧
    (∀ k : Nat, k + 1 < pts.length →
      t = ((pts.getD k (0, 0)).1 + (pts.getD (k + 1) (0, 0)).1) / 2 →
      get_data_at_time seg (Dbl.fin t) =
        Dbl.fin (((pts.getD k (0, 0)).2 + (pts.getD (k + 1) (0, 0)).2) / 2)) := by
  obtain ⟨l0, hl0, hb0, hv0⟩ := get_data_at_time_bracket seg pts t hdata hinc hn hlo hhi
  have hform : ∀ l : Nat, l + 1 < pts.length →
      (((pts.getD l (0, 0)).1 < t ∧ t ≤ (pts.getD (l + 1) (0, 0)).1) ∨
        (l = 0 ∧ t = (pts.getD 0 (0, 0)).1)) →
      get_data_at_time seg (Dbl.fin t) =
        Dbl.fin ((pts.getD l (0, 0)).2 +
          ((pts.getD (l + 1) (0, 0)).2 - (pts.getD l (0, 0)).2) * (t - (pts.getD l (0, 0)).1)
            / ((pts.getD (l + 1) (0, 0)).1 - (pts.getD l (0, 0)).1)) := by
    intro l hl hb
    have := bracket_unique pts t hinc l l0 hl hl0 hb hb0
    rw [this]; exact hv0
  refine ⟨⟨l0, hl0, hb0⟩, hform, ?_, ?_⟩
  · intro k hk htk
    rcases Nat.eq_zero_or_pos k with h0 | hpos
    · subst h0
      rw [hform 0 (by omega) (Or.inr ⟨rfl, htk⟩), htk]
      simp
    · obtain ⟨j, rfl⟩ : ∃ j, k = j + 1 := ⟨k - 1, by omega⟩
      have hlt := points_strictMono pts hinc j (j + 1) (by omega) hk
      rw [hform j hk (Or.inl ⟨by rw [htk]; exact hlt, le_of_eq htk⟩), htk]
      congr 1
      exact interp_right _ _ _ _ (by linarith)
  · intro k hk htk
    have hlt := points_strictMono pts hinc k (k + 1) (by omega) hk
    rw [hform k hk (Or.inl ⟨by rw [htk]; linarith, by rw [htk]; linarith⟩), htk]
    congr 1
    exact interp_mid _ _ _ _ (by linarith)

/-- Witness of C2: the samples `(0,0), (1,1), (2,4)` queried at `t = 3/2` give the
midpoint value `5/2`. -/
theorem get_data_at_time_interpolates_witness :
    get_data_at_time exampleSegment (Dbl.fin (3 / 2)) = Dbl.fin (5 / 2) := by
  have h := (get_data_at_time_interpolates exampleSegment examplePoints (3 / 2) (by rfl)
    (by norm_num [examplePoints]) (by decide) (by norm_num [examplePoints])
    (by norm_num [examplePoints])).2.2.2 1 (by decide) (by norm_num [examplePoints])
  rw [h]
  norm_num [examplePoints]

/-- C3: `get_data_at_time` returns the NaN "no data" value for every segment with
fewer than two samples, and for every segment and every `t` that compares below
the first sample's time or above the last sample's time. -/
theorem get_data_at_time_no_data (seg : Segment) (t : Dbl)
    (h : seg.data.length < 2 ∨ Dbl.lt t (seg.at 0).t = true ∨
      Dbl.gt t (seg.at (seg.size - 1)).t = true) :
    get_data_at_time seg t = Dbl.nan := by
  unfold get_data_at_time
  simp only [sw_qnan]
  split
  · rfl
  · split
    · rfl
    · split
      · rfl
      · split
        · rfl
        · rename_i h0 h1 h2 h3
          rcases h with h | h | h
          · omega
          · exact absurd h h2
          · exact absurd h h3

/-- Witness of C3: a query before the first sample of `(0,0), (1,1), (2,4)`. -/
theorem get_data_at_time_no_data_witness :
    Dbl.lt (Dbl.fin (-1)) (exampleSegment.at 0).t = true ∧
    get_data_at_time exampleSegment (Dbl.fin (-1)) = Dbl.nan :=
  ⟨by decide, get_data_at_time_no_data exampleSegment (Dbl.fin (-1)) (Or.inr (Or.inl (by decide)))⟩

/-- C4: `accept x` holds exactly when `x` is not NaN and `-1e36 <= x <= 1e36`; it
rejects NaN, `1e37`, `-1e37` and both infinities and accepts `0`, `1e35`, `1e36`
and `-1e36`. -/
theorem accept_iff_in_range :
    (∀ x : Dbl, accept x = true ↔
      (x ≠ Dbl.nan ∧ Dbl.le (Dbl.fin (-(10 ^ 36))) x = true ∧
        Dbl.le x (Dbl.fin (10 ^ 36)) = true)) ∧
    accept Dbl.nan = false ∧ accept (Dbl.fin (10 ^ 37)) = false ∧
    accept (Dbl.fin (-(10 ^ 37))) = false ∧ accept Dbl.pinf = false ∧
    accept Dbl.ninf = false ∧ accept (Dbl.fin 0) = true ∧ accept (Dbl.fin (10 ^ 35)) = true ∧
    accept (Dbl.fin (10 ^ 36)) = true ∧ accept (Dbl.fin (-(10 ^ 36))) = true := by
  have hneg : -maxsample = Dbl.fin (-(10 ^ 36)) := rfl
  refine ⟨?_, ?_, ?_, ?_, ?_, ?_, ?_, ?_, ?_, ?_⟩
  · intro x
    cases x with
    | nan => simp [accept, Dbl.isnan]
    | ninf => simp [accept, Dbl.isnan, hneg, Dbl.lt, Dbl.le]
    | pinf => simp [accept, Dbl.isnan, hneg, Dbl.lt, Dbl.gt, maxsample, Dbl.le]
    | fin q =>
      rw [accept, hneg]
      simp only [Dbl.isnan, Dbl.lt, Dbl.gt, maxsample, Dbl.le, ne_eq,
        not_false_eq_true, true_and, decide_eq_true_eq]
      by_cases h1 : q < -(10 ^ 36)
      · have : ¬ (-(10 ^ 36) ≤ q) := not_le.mpr h1
        simp [h1, this]
      · by_cases h2 : (10 : ℚ) ^ 36 < q
        · have : ¬ (q ≤ 10 ^ 36) := not_le.mpr h2
          simp [h1, h2, this]
        · simp [h1, h2, not_lt.mp h1, not_lt.mp h2]
  all_goals (rw [accept]; try rw [hneg]); norm_num [Dbl.isnan, Dbl.lt, Dbl.gt, maxsample]

/-! ## Ingestion: main results -/

/-- C5: on a registered channel, `newsamples` leaves in the channel's last segment
its previous samples (none if the segment was just created) followed by the
accepted input samples in input order; earlier segments, the channel's other
fields, every other channel and the registry are unchanged; a segment is created
exactly when `newsegment` is set or the channel had none; with no accepted sample
nothing is added. -/
theorem newsamples_appends (s : Instance) (name : String) (a : List Sample)
    (newsegment : Bool) (c : Nat)
    (hreg : s.uchannels.find name = some c) (hc : c ≠ 0) :
    ((newsamples s name a newsegment).channels c).data.length =
      (if (s.channels c).data.length = 0 || newsegment
        then (s.channels c).data.length + 1 else (s.channels c).data.length) ∧
    lastSamples ((newsamples s name a newsegment).channels c).data =
      (if (s.channels c).data.length = 0 || newsegment
        then [] else lastSamples (s.channels c).data) ++ a.filter (fun smp => accept smp.x) ∧
    ((newsamples s name a newsegment).channels c).data.dropLast =
      (if (s.channels c).data.length = 0 || newsegment
        then (s.channels c).data else (s.channels c).data.dropLast) ∧
    ((∀ smp ∈ a, accept smp.x = false) →
      lastSamples ((newsamples s name a newsegment).channels c).data =
        (if (s.channels c).data.length = 0 || newsegment
          then [] else lastSamples (s.channels c).data)) ∧
    (∀ c', c' ≠ c → (newsamples s name a newsegment).channels c' = s.channels c') ∧
    { (newsamples s name a newsegment).channels c with data := (s.channels c).data }
      = s.channels c ∧
    (newsamples s name a newsegment).uchannels = s.uchannels ∧
    (newsamples s name a newsegment).uwindows = s.uwindows ∧
    (newsamples s name a newsegment).uframes = s.uframes ∧
    (newsamples s name a newsegment).windows = s.windows ∧
    (newsamples s name a newsegment).frames = s.frames := by
  obtain ⟨hu, hch, huw, huf, hw, hf⟩ := newsamples_data s name a newsegment c hreg hc
  have hlast : lastSamples ((newsamples s name a newsegment).channels c).data =
      (if (s.channels c).data.length = 0 || newsegment
        then [] else lastSamples (s.channels c).data) ++ a.filter (fun smp => accept smp.x) := by
    rw [hch]
    simp only [setAt, if_true]
    by_cases hfresh : ((s.channels c).data.length = 0 || newsegment) = true
    · rw [if_pos hfresh, if_pos hfresh]
      rw [modifyBack_eq _ _ (by simp)]
      simp [lastSamples]
    · rw [if_neg hfresh, if_neg hfresh]
      have hne : (s.channels c).data ≠ [] := by
        intro h0; apply hfresh; simp [h0]
      rw [modifyBack_eq _ _ hne]
      simp [lastSamples, List.getLast?_eq_getLast _ hne]
  refine ⟨?_, hlast, ?_, ?_, ?_, ?_, hu, huw, huf, hw, hf⟩
  · rw [hch]
    simp only [setAt, if_true]
    by_cases hfresh : ((s.channels c).data.length = 0 || newsegment) = true
    · rw [if_pos hfresh, if_pos hfresh]
      rw [modifyBack_eq _ _ (by simp)]
      simp
    · rw [if_neg hfresh, if_neg hfresh]
      have hne : (s.channels c).data ≠ [] := by
        intro h0; apply hfresh; simp [h0]
      rw [modifyBack_eq _ _ hne]
      have := List.length_pos.mpr hne
      simp
      omega
  · rw [hch]
    simp only [setAt, if_true]
    by_cases hfresh : ((s.channels c).data.length = 0 || newsegment) = true
    · rw [if_pos hfresh, if_pos hfresh]
      rw [modifyBack_eq _ _ (by simp)]
      simp
    · rw [if_neg hfresh, if_neg hfresh]
      have hne : (s.channels c).data ≠ [] := by
        intro h0; apply hfresh; simp [h0]
      rw [modifyBack_eq _ _ hne]
      simp
  · intro hnone
    rw [hlast]
    have : a.filter (fun smp => accept smp.x) = [] := by
      rw [List.filter_eq_nil_iff]
      intro smp hs
      simp [hnone smp hs]
    rw [this, List.append_nil]
  · intro c' hc'
    rw [hch]
    simp [setAt, hc']
  · rw [hch]
    simp [setAt]

/-- Witness of C5: two of three samples are accepted on a freshly configured channel. -/
theorem newsamples_appends_witness :
    configuredState.uchannels.find "A" = some 1 ∧
    lastSamples ((newsamples configuredState "A"
        [⟨Dbl.fin 0, Dbl.fin 0⟩, ⟨Dbl.fin 1, Dbl.nan⟩, ⟨Dbl.fin 2, Dbl.fin 4⟩] false).channels 1).data
      = [⟨Dbl.fin 0, Dbl.fin 0⟩, ⟨Dbl.fin 2, Dbl.fin 4⟩] := by
  refine ⟨by decide, ?_⟩
  rw [(newsamples_appends configuredState "A"
    [⟨Dbl.fin 0, Dbl.fin 0⟩, ⟨Dbl.fin 1, Dbl.nan⟩, ⟨Dbl.fin 2, Dbl.fin 4⟩] false 1
    (by decide) (by decide)).2.1]
  decide

/-! ## Stored-sample invariant: main results -/

/-- Counterexample to C6: after configuring frame `F` and channel `A`, an
image-tile packet whose header carries the lower bound `x1 = -1e37` leaves in the
channel's segment a sample whose `x` is `-1e37`, which `accept` rejects. -/
theorem stored_sample_not_accepted_counterexample :
    ∃ s, listen_main sortByTime Instance.empty
        [framePacket "F", channelPacket "A" "W" "F", imagePacket "A"] = .ok s ∧
      (s.channels 1).data =
        [{ data := [⟨Dbl.fin 0, Dbl.fin (-(10 ^ 37))⟩, ⟨Dbl.fin 1, Dbl.fin 1⟩] }] ∧
      accept (Dbl.fin (-(10 ^ 37))) = false :=
  ⟨_, rfl, by decide, by decide⟩

/-- C6 as amended: in every state reached from the empty server state by
dispatching any sequence of packets, every stored sample has an `x` that satisfies
`accept` or is one of the two bounding-box samples `(t1,x1)`, `(t2,x2)` of its
channel's image payload, which `newimage` stores unvalidated; and when no
image-tile packet (opcode 5) is among them, every stored sample satisfies
`accept`. -/
theorem stored_samples_accepted (stdsort : List Sample → List Sample)
    (hperm : ∀ l, (stdsort l).Perm l) (pkts : List Packet) (s : Instance)
    (hrun : listen_main stdsort Instance.empty pkts = .ok s) :
    (∀ c, ∀ seg ∈ (s.channels c).data, ∀ smp ∈ seg.data,
      accept smp.x = true ∨ smp ∈ (s.channels c).data2.corners) ∧
    ((∀ p ∈ pkts, p.d0 ≠ 5) →
      ∀ c, ∀ seg ∈ (s.channels c).data, ∀ smp ∈ seg.data, accept smp.x = true) := by
  refine ⟨?_, ?_⟩
  · exact listen_main_storedAcceptedOrCorner stdsort hperm pkts Instance.empty s
      (fun c seg hseg => absurd hseg (List.not_mem_nil _)) hrun
  · intro hops c
    exact (listen_main_storedAccepted stdsort hperm pkts Instance.empty s hops
      (fun c => ⟨fun seg hseg => absurd hseg (List.not_mem_nil _),
        ImageData.default_corners_accepted⟩) hrun c).1

/-- Witness of C6 as amended: after ingesting `(0,0)`, `(1,NaN)`, `(2,4)` into
channel `A`, every stored sample satisfies `accept`. -/
theorem stored_samples_accepted_witness :
    listen_main sortByTime Instance.empty
      [framePacket "F", channelPacket "A" "W" "F",
       samplesPacket "A" [⟨Dbl.fin 0, Dbl.fin 0⟩, ⟨Dbl.fin 1, Dbl.nan⟩, ⟨Dbl.fin 2, Dbl.fin 4⟩]]
      = .ok ingestedState ∧
    (ingestedState.channels 1).data =
      [{ data := [⟨Dbl.fin 0, Dbl.fin 0⟩, ⟨Dbl.fin 2, Dbl.fin 4⟩], vastart := Dbl.nan }] ∧
    ∀ c, ∀ seg ∈ (ingestedState.channels c).data, ∀ smp ∈ seg.data, accept smp.x = true :=
  ⟨rfl, by decide,
   (stored_samples_accepted sortByTime sortByTime_perm
     [framePacket "F", channelPacket "A" "W" "F",
      samplesPacket "A" [⟨Dbl.fin 0, Dbl.fin 0⟩, ⟨Dbl.fin 1, Dbl.nan⟩, ⟨Dbl.fin 2, Dbl.fin 4⟩]]
     ingestedState rfl).2 (by decide)⟩

/-! ## Registry and dispatcher: main results -/

/-- C7: `firstfree m` is the least integer `q >= 1` that is not a value of `m`;
`configchannel`, given a channel name that is not registered yet (with a
registered frame and a window that is not bound to another frame, so that the
command is carried out), registers it under exactly `firstfree` of the channel
name map; and after configuring a frame in a fresh registry, creating channels
A, B, C gives ids 1, 2, 3, and creating D after `remove_channel(B)` gives D the
id 2. -/
theorem firstfree_lowest_free_id :
    (∀ m : NameMap, 1 ≤ firstfree m ∧ firstfree m ∉ m.values ∧
      ∀ q, 1 ≤ q → q ∉ m.values → firstfree m ≤ q) ∧
    (∀ (s : Instance) (e1 : List (String × Dbl)) (e2 : List String) (f : Nat),
      tokenValue "#name" e2 "" ≠ "" →
      tokenValue "#frame" e2 "" ≠ "" →
      s.uframes.find (tokenValue "#frame" e2 "") = some f →
      s.uchannels.find (tokenValue "#name" e2 "") = none →
      (∀ w, s.uwindows.find
          (if tokenValue "#window" e2 "" = "" then tokenValue "#name" e2 ""
            else tokenValue "#window" e2 "") = some w →
          (s.windows w).fr = none ∨ (s.windows w).fr = some f) →
      ∃ s', configchannel s e1 e2 = .ok s' ∧
        s'.uchannels.find (tokenValue "#name" e2 "") = some (firstfree s.uchannels)) ∧
    (∃ s, listen_main sortByTime Instance.empty
        [framePacket "F", channelPacket "A" "W" "F", channelPacket "B" "W" "F",
          channelPacket "C" "W" "F"] = .ok s ∧
      s.uchannels.find "A" = some 1 ∧ s.uchannels.find "B" = some 2 ∧
      s.uchannels.find "C" = some 3) ∧
    (∃ s, listen_main sortByTime Instance.empty
        [framePacket "F", channelPacket "A" "W" "F", channelPacket "B" "W" "F",
          channelPacket "C" "W" "F", removeChannelPacket "B", channelPacket "D" "W" "F"] = .ok s ∧
      s.uchannels.find "D" = some 2 ∧ s.uchannels.find "B" = none ∧
      s.uchannels.find "A" = some 1 ∧ s.uchannels.find "C" = some 3) :=
  ⟨firstfree_spec,
   fun s e1 e2 f h1 h2 h3 h4 h5 => configchannel_registers s e1 e2 f h1 h2 h3 h4 h5,
   ⟨_, rfl, by decide⟩, ⟨_, rfl, by decide⟩⟩

/-- Witness of C7: in the state holding frame `F` and channel `A` (id 1),
configuring the new channel `B` registers it under `firstfree`, which is 2. -/
theorem firstfree_lowest_free_id_witness :
    firstfree configuredState.uchannels = 2 ∧
    ∃ s', configchannel configuredState [] (channelPacket "B" "W" "F").toks = .ok s' ∧
      s'.uchannels.find (tokenValue "#name" (channelPacket "B" "W" "F").toks "")
        = some (firstfree configuredState.uchannels) :=
  ⟨by decide,
   firstfree_lowest_free_id.2.1 configuredState [] (channelPacket "B" "W" "F").toks 1
     (by decide) (by decide) (by decide) (by decide) (by decide)⟩

/-- C8: when channel `N` is registered and bound to a window whose name differs
from the window name carried by a configure-channel packet for `N` (the `#window`
value, or `N` itself when that is absent), dispatching the packet leaves the whole
server state unchanged, whatever frame it names and whatever options it carries. -/
theorem reparent_leaves_state (stdsort : List Sample → List Sample) (s : Instance)
    (p : Packet) (c w : Nat)
    (hop : p.d0 = 101)
    (hreg : s.uchannels.find (tokenValue "#name" p.toks "") = some c)
    (hwin : (s.channels c).win = some w)
    (hdiff : (s.windows w).name ≠
      (if tokenValue "#window" p.toks "" = "" then tokenValue "#name" p.toks ""
        else tokenValue "#window" p.toks "")) :
    listen_step stdsort s p = .ok s :=
  listen_step_reparent stdsort s p c w hop hreg hwin hdiff

/-- Witness of C8: channel `A` is bound to window `W`; a packet asking for window
`V` with `clear=1` changes nothing. -/
theorem reparent_leaves_state_witness :
    configuredState.uchannels.find "A" = some 1 ∧
    (configuredState.windows 1).name = "W" ∧
    listen_step sortByTime configuredState
      { channelPacket "A" "V" "F" with opts := [("clear", Dbl.fin 1)] } = .ok configuredState :=
  ⟨by decide, by decide,
   reparent_leaves_state sortByTime configuredState
     { channelPacket "A" "V" "F" with opts := [("clear", Dbl.fin 1)] } 1 1
     (by decide) (by decide) (by decide) (by decide)⟩

/-- Counterexample to C9: channel `A` is registered and bound to window `W`; the
configure-channel packet naming `A` with window `V` is dispatched without any
fatal outcome. -/
theorem reparent_fatal_counterexample :
    listen_main sortByTime Instance.empty [framePacket "F", channelPacket "A" "W" "F"]
      = .ok configuredState ∧
    configuredState.uchannels.find "A" = some 1 ∧
    (configuredState.channels 1).win = some 1 ∧
    (configuredState.windows 1).name = "W" ∧
    ¬ ∃ e, listen_step sortByTime configuredState (channelPacket "A" "V" "F") = .error e := by
  refine ⟨rfl, by decide, by decide, by decide, ?_⟩
  rintro ⟨e, he⟩
  have hok : ∃ s', listen_step sortByTime configuredState (channelPacket "A" "V" "F") = .ok s' :=
    ⟨_, rfl⟩
  obtain ⟨s', hs'⟩ := hok
  rw [hs'] at he
  exact Except.noConfusion he

/-- C9 as amended: a configure-channel packet that names a registered channel
together with a window name different from the name of the window the channel is
bound to does not terminate the process; the dispatch step returns normally. -/
theorem reparent_returns_normally (stdsort : List Sample → List Sample) (s : Instance)
    (p : Packet) (c w : Nat)
    (hop : p.d0 = 101)
    (hreg : s.uchannels.find (tokenValue "#name" p.toks "") = some c)
    (hwin : (s.channels c).win = some w)
    (hdiff : (s.windows w).name ≠
      (if tokenValue "#window" p.toks "" = "" then tokenValue "#name" p.toks ""
        else tokenValue "#window" p.toks "")) :
    (∃ s', listen_step stdsort s p = .ok s') ∧
    ∀ e : Fatal, listen_step stdsort s p ≠ .error e := by
  have hstep : listen_step stdsort s p = .ok s :=
    listen_step_reparent stdsort s p c w hop hreg hwin hdiff
  refine ⟨⟨s, hstep⟩, ?_⟩
  intro e he
  rw [hstep] at he
  exact Except.noConfusion he

/-- Witness of C9 as amended, on channel `A` of window `W` asked into window `V`. -/
theorem reparent_returns_normally_witness :
    (configuredState.windows 1).name ≠ "V" ∧
    ((∃ s', listen_step sortByTime configuredState (channelPacket "A" "V" "F") = .ok s') ∧
      ∀ e : Fatal,
        listen_step sortByTime configuredState (channelPacket "A" "V" "F") ≠ .error e) :=
  ⟨by decide,
   reparent_returns_normally sortByTime configuredState (channelPacket "A" "V" "F") 1 1
     (by decide) (by decide) (by decide) (by decide)⟩

/-- Counterexample to C10: from the idle state, after opcodes 91, 91, 92 the hold
counter is 0 and the dispatcher no longer holds the lock. -/
theorem nested_batch_counterexample :
    ∃ s, listen_main sortByTime Instance.empty [{ d0 := 91 }, { d0 := 91 }, { d0 := 92 }] = .ok s ∧
      s.comm.cnt = 0 ∧ s.lockdepth = 0 ∧ ¬ (0 < s.lockdepth) :=
  ⟨_, rfl, by decide, by decide, by decide⟩

/-- C10 as amended: batch holds do not nest.  From any state with hold counter 0
and the lock not held, after opcodes 91 and 91 the counter is 1 and the lock is
held once, and a single opcode 92 then brings the counter to 0 and releases the
lock. -/
theorem batch_hold_not_nested (stdsort : List Sample → List Sample) (s : Instance)
    (p1 p2 p3 : Packet)
    (hcnt : s.comm.cnt = 0) (hlock : s.lockdepth = 0)
    (h1 : p1.d0 = 91) (h2 : p2.d0 = 91) (h3 : p3.d0 = 92) :
    (∃ s2, listen_main stdsort s [p1, p2] = .ok s2 ∧ s2.comm.cnt = 1 ∧ s2.lockdepth = 1) ∧
    (∃ s3, listen_main stdsort s [p1, p2, p3] = .ok s3 ∧ s3.comm.cnt = 0 ∧ s3.lockdepth = 0) := by
  have hb : ∀ (st : Instance) (p : Packet), p.d0 = 91 →
      ∃ st', listen_step stdsort st p = .ok st' ∧ st'.comm.cnt = 1 ∧
        st'.lockdepth = st.lockdepth + 1 - st.comm.cnt := by
    intro st p hp
    refine ⟨_, by unfold listen_step; rw [dispatch_batch_begin stdsort p _ hp]; rfl, ?_, ?_⟩
    · simp [batch_begin]
    · simp only [batch_begin, release_holds_eq]
      ring
  have he : ∀ (st : Instance) (p : Packet), p.d0 = 92 → st.comm.cnt = 1 →
      ∃ st', listen_step stdsort st p = .ok st' ∧ st'.comm.cnt = 0 ∧
        st'.lockdepth = st.lockdepth - 1 := by
    intro st p hp hc
    refine ⟨_, by unfold listen_step; rw [dispatch_batch_end stdsort p _ hp]; rfl, ?_, ?_⟩
    · simp [batch_end, hc]
    · simp only [batch_end, hc]
      simp
  obtain ⟨sa, hsa, hca, hla⟩ := hb s p1 h1
  obtain ⟨sb, hsb, hcb, hlb⟩ := hb sa p2 h2
  obtain ⟨sc, hsc, hcc, hlc⟩ := he sb p3 h3 hcb
  have hlb' : sb.lockdepth = 1 := by rw [hlb, hla, hca, hcnt, hlock]; norm_num
  refine ⟨⟨sb, ?_, hcb, hlb'⟩, ⟨sc, ?_, hcc, by rw [hlc, hlb']; norm_num⟩⟩
  · simp only [listen_main, hsa, hsb, Except.ok_bind]
  · simp only [listen_main, hsa, hsb, hsc, Except.ok_bind]

/-- Witness of C10 as amended, from the empty start-up state. -/
theorem batch_hold_not_nested_witness :
    (∃ s2, listen_main sortByTime Instance.empty [{ d0 := 91 }, { d0 := 91 }] = .ok s2 ∧
      s2.comm.cnt = 1 ∧ s2.lockdepth = 1) ∧
    (∃ s3, listen_main sortByTime Instance.empty [{ d0 := 91 }, { d0 := 91 }, { d0 := 92 }]
        = .ok s3 ∧ s3.comm.cnt = 0 ∧ s3.lockdepth = 0) :=
  batch_hold_not_nested sortByTime Instance.empty { d0 := 91 } { d0 := 91 } { d0 := 92 }
    (by decide) (by decide) (by decide) (by decide) (by decide)

/-! ## Stride, point count and opacity of `findtime` -/

theorem Dbl.fin_add (a b : ℚ) : Dbl.fin a + Dbl.fin b = Dbl.fin (a + b) := rfl

theorem Dbl.fin_sub (a b : ℚ) : Dbl.fin a - Dbl.fin b = Dbl.fin (a - b) := by
  show Dbl.add (Dbl.fin a) (Dbl.neg (Dbl.fin b)) = _
  simp only [Dbl.neg, Dbl.add, sub_eq_add_neg]

theorem Dbl.fin_mul (a b : ℚ) : Dbl.fin a * Dbl.fin b = Dbl.fin (a * b) := rfl

theorem Dbl.fin_div (a b : ℚ) (hb : b ≠ 0) : Dbl.fin a / Dbl.fin b = Dbl.fin (a / b) := by
  show Dbl.div (Dbl.fin a) (Dbl.fin b) = _
  simp only [Dbl.div, hb, if_false]

theorem Run.eq_done_of_completed {σ : Type} (r : Run σ) (h : r.completed = true) :
    r = Run.done r.state := by
  cases r with
  | done s => rfl
  | fault s => exact absurd h (by simp [Run.completed])

/-- The opacity expression of `findtime` on a finite non-zero width, in exact
arithmetic. -/
theorem alpha_value_eq (tp : Int) (w : ℚ) (hw : w ≠ 0) :
    Dbl.fin (3 / 10) *
        Dbl.pow4 (Dbl.fin 1 - Dbl.stdmin (Dbl.fin 1) (Dbl.ofInt tp / Dbl.fin w * Dbl.fin 10))
      = Dbl.fin (3 / 10 * (1 - min 1 ((tp : ℚ) / w * 10)) ^ 4) := by
  have hdiv : Dbl.ofInt tp / Dbl.fin w * Dbl.fin 10 = Dbl.fin ((tp : ℚ) / w * 10) := by
    show Dbl.mul (Dbl.div (Dbl.fin tp) (Dbl.fin w)) (Dbl.fin 10) = _
    simp only [Dbl.div, hw, if_false, Dbl.mul]
  rw [hdiv]
  by_cases h : (tp : ℚ) / w * 10 < 1
  · have hmin : Dbl.stdmin (Dbl.fin 1) (Dbl.fin ((tp : ℚ) / w * 10))
        = Dbl.fin ((tp : ℚ) / w * 10) := by
      simp [Dbl.stdmin, Dbl.lt, h]
    rw [hmin, min_eq_right (le_of_lt h), Dbl.fin_sub, Dbl.pow4, Dbl.fin_mul]
  · have hmin : Dbl.stdmin (Dbl.fin 1) (Dbl.fin ((tp : ℚ) / w * 10)) = Dbl.fin 1 := by
      simp [Dbl.stdmin, Dbl.lt, h]
    rw [hmin, min_eq_left (not_lt.mp h), Dbl.fin_sub, Dbl.pow4, Dbl.fin_mul]

/-- Counterexample to C11: for the samples `(0,0), (1,1), (2,4)` and
`findtime(0,2,10,100)` the stored point count is 3 and the stored opacity is
`0.3 * (1 - 0.3)^4 = 0.07203`, not `0.3 * (1 - 3/(100*10))^4`. -/
theorem findtime_alpha_counterexample :
    ∃ seg1, findtime exampleSegment (Dbl.fin 0) (Dbl.fin 2) (Dbl.fin 10) (Dbl.fin 100)
        = Run.done seg1 ∧
      seg1.toprint = 3 ∧ seg1.alpha = Dbl.fin (7203 / 100000) ∧
      seg1.alpha ≠ Dbl.fin (3 / 10 * (1 - min 1 (3 / (100 * 10))) ^ 4) := by
  refine ⟨(findtime exampleSegment (Dbl.fin 0) (Dbl.fin 2) (Dbl.fin 10) (Dbl.fin 100)).state,
    Run.eq_done_of_completed _ (by decide!), by decide!, by decide!, ?_⟩
  have h : (findtime exampleSegment (Dbl.fin 0) (Dbl.fin 2) (Dbl.fin 10)
      (Dbl.fin 100)).state.alpha = Dbl.fin (7203 / 100000) := by decide!
  rw [h]
  intro heq
  have := Dbl.fin.inj heq
  norm_num at this

/-- C11 as amended: for every finite width `w > 0` and every target count other
than zero, `findtime` runs to its end and the opacity it stores is, in exact
arithmetic, `0.3 * (1 - min(1, pointCount / w * 10))^4`, where `pointCount` is the
final `toprint` value stored by the same call. -/
theorem findtime_alpha (seg : Segment) (lt rt samplespp : Dbl) (w : ℚ) (hw : 0 < w)
    (hT : Dbl.toInt (Dbl.round (Dbl.fin w * samplespp + Dbl.fin (1 / 2))) ≠ 0) :
    ∃ seg1, findtime seg lt rt samplespp (Dbl.fin w) = Run.done seg1 ∧
      seg1.alpha = Dbl.fin (3 / 10 * (1 - min 1 ((seg1.toprint : ℚ) / w * 10)) ^ 4) := by
  unfold findtime
  simp only [hT, if_false]
  refine ⟨_, rfl, ?_⟩
  exact alpha_value_eq _ w (ne_of_gt hw)

/-- Witness of C11 as amended on the samples `(0,0), (1,1), (2,4)`. -/
theorem findtime_alpha_witness :
    ∃ seg1, findtime exampleSegment (Dbl.fin 0) (Dbl.fin 2) (Dbl.fin 10) (Dbl.fin 100)
        = Run.done seg1 ∧
      seg1.alpha = Dbl.fin (3 / 10 * (1 - min 1 ((seg1.toprint : ℚ) / 100 * 10)) ^ 4) :=
  findtime_alpha exampleSegment (Dbl.fin 0) (Dbl.fin 2) (Dbl.fin 10) 100 (by norm_num)
    (by decide!)

/-- Among values that are not NaN, `a <= b` fails only when `b < a`. -/
theorem Dbl.lt_of_le_false {a b : Dbl} (ha : a ≠ Dbl.nan) (hb : b ≠ Dbl.nan)
    (h : Dbl.le a b = false) : Dbl.lt b a = true := by
  cases a <;> cases b <;> simp_all [Dbl.le, Dbl.lt]

theorem Dbl.le_of_lt {a b : Dbl} (h : Dbl.lt a b = true) : Dbl.le a b = true := by
  cases a <;> cases b <;> simp_all [Dbl.le, Dbl.lt]
  exact h.le

theorem NameMap.erase_of_find_none {m : NameMap} {k : String}
    (h : NameMap.find m k = none) : NameMap.erase m k = m := by
  induction m with
  | nil => rfl
  | cons e rest ih =>
    obtain ⟨k', v'⟩ := e
    by_cases hk : k' = k
    · simp [NameMap.find, hk] at h
    · have hr : NameMap.find rest k = none := by simpa [NameMap.find, hk] using h
      have ih' := ih hr
      unfold NameMap.erase at ih' ⊢
      rw [List.filter_cons_of_pos (by simpa using hk), ih']

/-- Reading `m[k]` for a missing key and erasing `k` again gives the map back. -/
theorem NameMap.erase_assign_of_find_none {m : NameMap} {k : String}
    (h : NameMap.find m k = none) : NameMap.erase (NameMap.assign m k 0) k = m := by
  induction m with
  | nil => simp [NameMap.assign, NameMap.erase]
  | cons e rest ih =>
    obtain ⟨k', v'⟩ := e
    by_cases hk : k' = k
    · simp [NameMap.find, hk] at h
    · have hr : NameMap.find rest k = none := by simpa [NameMap.find, hk] using h
      have ih' := ih hr
      unfold NameMap.erase at ih' ⊢
      simp only [NameMap.assign, hk, if_false]
      rw [List.filter_cons_of_pos (by simpa using hk), ih']

theorem Instance.uchannels_unknown (s : Instance) (name : String)
    (h : s.uchannels.find name = none) :
    (s.uchannels.index name).1 = 0 ∧
    ({ s with uchannels := (s.uchannels.index name).2.erase name } : Instance) = s := by
  rw [NameMap.index_of_find_none h]
  exact ⟨rfl, by simp only [NameMap.erase_assign_of_find_none h]⟩

theorem Instance.uwindows_unknown (s : Instance) (name : String)
    (h : s.uwindows.find name = none) :
    (s.uwindows.index name).1 = 0 ∧
    ({ s with uwindows := (s.uwindows.index name).2.erase name } : Instance) = s := by
  rw [NameMap.index_of_find_none h]
  exact ⟨rfl, by simp only [NameMap.erase_assign_of_find_none h]⟩

theorem Instance.uframes_unknown (s : Instance) (name : String)
    (h : s.uframes.find name = none) :
    (s.uframes.index name).1 = 0 ∧
    ({ s with uframes := (s.uframes.index name).2.erase name } : Instance) = s := by
  rw [NameMap.index_of_find_none h]
  exact ⟨rfl, by simp only [NameMap.erase_assign_of_find_none h]⟩

/-- C19: for every server state and every name that is not a key of the relevant
name map, each of `remove_channel`, `deactivate_channel`, `sort_channel`,
`clear_data`, `newsamples`, `remove_window2`, `remove_frame`, `show_frame` and
`delete_text_frame` returns normally and leaves the whole state unchanged; in
particular the name is still not a key of the map. -/
theorem unknown_name_noop (stdsort : List Sample → List Sample) (s : Instance)
    (name : String) :
    (s.uchannels.find name = none →
      remove_channel s name = .ok s ∧ deactivate_channel s name = s ∧
      sort_channel stdsort s name = s ∧ clear_data s name = s ∧
      ∀ (a : List Sample) (newsegment : Bool), newsamples s name a newsegment = s) ∧
    (s.uwindows.find name = none → remove_window2 s name = .ok s) ∧
    (s.uframes.find name = none →
      remove_frame s name = .ok s ∧ delete_text_frame s name = s ∧
      ∀ value : Int, show_frame s name value = s) := by
  refine ⟨fun h => ?_, fun h => ?_, fun h => ?_⟩
  · obtain ⟨h0, hs⟩ := Instance.uchannels_unknown s name h
    refine ⟨?_, ?_, ?_, ?_, fun a newsegment => ?_⟩
    · unfold remove_channel
      simp only [h0, if_true, hs]
    · unfold deactivate_channel
      simp only [h0, if_true, hs]
    · unfold sort_channel
      simp only [h0, if_true, hs]
    · unfold clear_data
      rw [h]
    · unfold newsamples
      simp only [h0, if_true, hs]
  · obtain ⟨h0, hs⟩ := Instance.uwindows_unknown s name h
    unfold remove_window2 remove_window2_ref
    simp only [h0, if_true, hs]
  · obtain ⟨h0, hs⟩ := Instance.uframes_unknown s name h
    refine ⟨?_, ?_, fun value => ?_⟩
    · unfold remove_frame
      simp only [h0, if_true, hs]
    · unfold delete_text_frame
      simp only [h0, if_true, hs]
    · unfold show_frame
      simp only [h0, if_true, hs]

/-- Witness of C19: in the state with frame `F`, window `W` and channel `A`, the
name `B` is known to none of the three maps. -/
theorem unknown_name_noop_witness :
    (remove_channel configuredState "B" = .ok configuredState ∧
      deactivate_channel configuredState "B" = configuredState ∧
      sort_channel sortByTime configuredState "B" = configuredState ∧
      clear_data configuredState "B" = configuredState ∧
      ∀ (a : List Sample) (newsegment : Bool),
        newsamples configuredState "B" a newsegment = configuredState) ∧
    remove_window2 configuredState "B" = .ok configuredState ∧
    (remove_frame configuredState "B" = .ok configuredState ∧
      delete_text_frame configuredState "B" = configuredState ∧
      ∀ value : Int, show_frame configuredState "B" value = configuredState) :=
  ⟨(unknown_name_noop sortByTime configuredState "B").1 (by decide),
   (unknown_name_noop sortByTime configuredState "B").2.1 (by decide),
   (unknown_name_noop sortByTime configuredState "B").2.2 (by decide)⟩

/-! ## Clearing a channel -/

/-- C15: `clear_data` on a registered channel empties that channel's list of
segments and its image payload and changes nothing else: the channel record
keeps every other field (name, used and active flags, window binding, style),
the name maps, the windows (with their member sets) and the frames are
unchanged, and so is every other channel; on an unregistered name it changes
nothing at all. -/
theorem clear_data_frame (s : Instance) (name : String) :
    (∀ c : Nat, s.uchannels.find name = some c →
      ((clear_data s name).channels c).data = [] ∧
      ((clear_data s name).channels c).data2 = {} ∧
      (clear_data s name).channels c = { s.channels c with data := [], data2 := {} } ∧
      (∀ c1 : Nat, c1 ≠ c → (clear_data s name).channels c1 = s.channels c1) ∧
      (clear_data s name).uchannels.find name = some c ∧
      ({ clear_data s name with channels := s.channels } : Instance) = s) ∧
    (s.uchannels.find name = none → clear_data s name = s) := by
  refine ⟨fun c h => ?_, fun h => ?_⟩
  · unfold clear_data
    rw [h]
    simp only [clear_data_id, setAt, if_true]
    refine ⟨trivial, trivial, trivial, fun c1 hc1 => ?_, h, trivial⟩
    rw [if_neg hc1]
  · unfold clear_data
    rw [h]

/-- Witness of C15: channel `A` after one sample packet, then cleared; the name
`B` is not registered. -/
theorem clear_data_frame_witness :
    (((clear_data ingestedState "A").channels 1).data = [] ∧
      ((clear_data ingestedState "A").channels 1).data2 = {} ∧
      (clear_data ingestedState "A").channels 1
        = { ingestedState.channels 1 with data := [], data2 := {} } ∧
      (∀ c1 : Nat, c1 ≠ 1 → (clear_data ingestedState "A").channels c1
        = ingestedState.channels c1) ∧
      (clear_data ingestedState "A").uchannels.find "A" = some 1 ∧
      ({ clear_data ingestedState "A" with channels := ingestedState.channels } : Instance)
        = ingestedState) ∧
    (ingestedState.channels 1).data ≠ [] ∧
    clear_data ingestedState "B" = ingestedState :=
  ⟨(clear_data_frame ingestedState "A").1 1 (by decide), by decide,
   (clear_data_frame ingestedState "B").2 (by decide)⟩

/-! ## The library sort: vector reads and writes -/

theorem vec_set_length (v : List Sample) (i : Int) (x : Sample) :
    (vec_set v i x).length = v.length := by
  unfold vec_set
  split <;> simp

theorem vec_at_getElem (v : List Sample) (n : Nat) (h : n < v.length) :
    vec_at v (n : Int) = v[n] := by
  unfold vec_at
  rw [if_pos (Int.ofNat_nonneg n)]
  exact List.getD_eq_getElem _ _ (by simpa using h)

theorem vec_at_mem (v : List Sample) (i : Int) (h0 : 0 ≤ i) (h1 : i < v.length) :
    vec_at v i ∈ v := by
  have hn : i.toNat < v.length := by omega
  have he : i = (i.toNat : Int) := (Int.toNat_of_nonneg h0).symm
  rw [he, vec_at_getElem v i.toNat hn]
  exact List.getElem_mem _

/-- A read outside the vector yields the NaN sample. -/
theorem vec_at_outside (v : List Sample) (i : Int) (h : ¬ (0 ≤ i ∧ i < v.length)) :
    vec_at v i = ⟨Dbl.nan, Dbl.nan⟩ := by
  unfold vec_at
  split
  · rename_i h0
    exact List.getD_eq_default _ _ (by omega)
  · rfl

/-- A comparison that holds has read inside the vector on its left side. -/
theorem sample_less_left_range (v : List Sample) (i : Int) (y : Sample)
    (h : sample_less (vec_at v i) y = true) : 0 ≤ i ∧ i < v.length := by
  by_contra hc
  rw [vec_at_outside v i hc] at h
  simp [sample_less, Dbl.lt] at h

/-- A comparison that holds has read inside the vector on its right side. -/
theorem sample_less_right_range (v : List Sample) (i : Int) (y : Sample)
    (h : sample_less y (vec_at v i) = true) : 0 ≤ i ∧ i < v.length := by
  by_contra hc
  rw [vec_at_outside v i hc] at h
  cases hy : y.t <;> simp [sample_less, Dbl.lt, hy] at h

theorem vec_at_set_self (v : List Sample) (i : Int) (x : Sample) (h0 : 0 ≤ i)
    (h1 : i < v.length) : vec_at (vec_set v i x) i = x := by
  have hn : i.toNat < (v.set i.toNat x).length := by
    rw [List.length_set]
    omega
  unfold vec_at vec_set
  rw [if_pos h0, if_pos h0, List.getD_eq_getElem _ _ hn]
  exact List.getElem_set_self hn

theorem vec_at_set_ne (v : List Sample) (i j : Int) (x : Sample) (h : i ≠ j) :
    vec_at (vec_set v i x) j = vec_at v j := by
  unfold vec_at vec_set
  by_cases hj : 0 ≤ j
  · by_cases hi : 0 ≤ i
    · have hne : i.toNat ≠ j.toNat := by omega
      simp only [hi, hj, if_true, List.getD_eq_getElem?_getD]
      rw [List.getElem?_set_ne hne]
    · simp only [hi, hj, if_true, if_false]
  · simp only [hj, if_false]

theorem vec_set_self (v : List Sample) (i : Int) : vec_set v i (vec_at v i) = v := by
  unfold vec_set vec_at
  by_cases hi : 0 ≤ i
  · simp only [hi, if_true]
    by_cases hl : i.toNat < v.length
    · rw [List.getD_eq_getElem _ _ hl]
      apply List.ext_getElem (by simp)
      intro n h1 h2
      rw [List.getElem_set]
      split
      · rename_i h
        subst h
        rfl
      · rfl
    · exact List.set_eq_of_length_le (by omega)
  · simp only [hi, if_false]

theorem vec_set_set (v : List Sample) (i : Int) (x y : Sample) :
    vec_set (vec_set v i x) i y = vec_set v i y := by
  unfold vec_set
  by_cases hi : 0 ≤ i
  · simp only [hi, if_true, List.set_set]
  · simp only [hi, if_false]

/-- Moving the hole: storing the element of slot `j` in slot `i` and a value in
slot `j` gives a permutation of storing that value in slot `i`. -/
theorem list_set_move (l : List Sample) (i j : Nat) (x : Sample) (hi : i < l.length)
    (hj : j < l.length) (hne : i ≠ j) :
    ((l.set i l[j]).set j x).Perm (l.set i x) := by
  rw [List.perm_iff_count]
  intro b
  have hj2 : j < (l.set i l[j]).length := by simpa using hj
  rw [List.count_set _ _ _ _ hj2, List.count_set _ _ _ _ hi, List.count_set _ _ _ _ hi]
  have hget : (l.set i l[j])[j] = l[j] := List.getElem_set_ne hne _
  rw [hget]
  have hci : (if (l[i] == b) = true then 1 else 0) ≤ l.count b := by
    split
    · rename_i h
      have : l[i] = b := by simpa using h
      rw [← this]
      exact List.count_pos_iff.mpr (List.getElem_mem _)
    · exact Nat.zero_le _
  omega

theorem vec_set_move (v : List Sample) (i j : Int) (x : Sample)
    (hi0 : 0 ≤ i) (hi1 : i < v.length) (hj0 : 0 ≤ j) (hj1 : j < v.length) :
    (vec_set (vec_set v i (vec_at v j)) j x).Perm (vec_set v i x) := by
  by_cases hne : i = j
  · subst hne
    rw [vec_set_set]
  · have hjn : j.toNat < v.length := by omega
    have he : vec_at v j = v[j.toNat] := by
      unfold vec_at
      rw [if_pos hj0]
      exact List.getD_eq_getElem _ _ hjn
    rw [he]
    unfold vec_set
    simp only [hi0, hj0, if_true]
    exact list_set_move v i.toNat j.toNat x (by omega) hjn (by omega)

/-- A swap of two slots of the vector is a permutation. -/
theorem iter_swap_perm (v : List Sample) (i j : Int)
    (hi0 : 0 ≤ i) (hi1 : i < v.length) (hj0 : 0 ≤ j) (hj1 : j < v.length) :
    (iter_swap v i j).Perm v := by
  unfold iter_swap
  have h := vec_set_move v i j (vec_at v i) hi0 hi1 hj0 hj1
  rw [vec_set_self] at h
  exact h


/-! ## The library sort: every routine permutes the vector -/

theorem holeInv_length_eq {v : List Sample} {p : Int} {value : Sample} {orig : List Sample}
    (h : HoleInv v p value orig) : v.length = orig.length := by
  have := h.2.2.length_eq
  rwa [vec_set_length] at this

theorem holeInv_start (v : List Sample) (p : Int) (h0 : 0 ≤ p) (h1 : p < v.length) :
    HoleInv v p (vec_at v p) v :=
  ⟨h0, h1, by rw [vec_set_self]⟩

theorem holeInv_move {v : List Sample} {p : Int} {value : Sample} {orig : List Sample}
    (h : HoleInv v p value orig) (j : Int) (hj0 : 0 ≤ j) (hj1 : j < v.length) :
    HoleInv (vec_set v p (vec_at v j)) j value orig :=
  ⟨hj0, by rw [vec_set_length]; exact hj1,
    (vec_set_move v p j value h.1 h.2.1 hj0 hj1).trans h.2.2⟩

theorem push_heap_perm (first topIndex : Int) (value : Sample) (orig : List Sample)
    (hf : 0 ≤ first) (ht : 0 ≤ topIndex) :
    ∀ (fuel : Nat) (v : List Sample) (holeIndex : Int),
      HoleInv v (first + holeIndex) value orig →
      (push_heap first topIndex value fuel v holeIndex).Perm orig := by
  intro fuel
  induction fuel with
  | zero =>
    intro v holeIndex h
    exact h.2.2
  | succ fuel ih =>
    intro v holeIndex h
    unfold push_heap
    simp only
    split
    · rename_i hc
      have hp : (holeIndex - 1).tdiv 2 = (holeIndex - 1) / 2 :=
        Int.tdiv_eq_ediv (by omega) (by norm_num)
      rw [hp]
      have h1 := h.2.1
      exact ih _ _ (holeInv_move h (first + (holeIndex - 1) / 2) (by omega) (by omega))
    · exact h.2.2

theorem adjust_heap_loop_inv (first len : Int) (value : Sample) (orig : List Sample)
    (hf : 0 ≤ first) (hl : 1 ≤ len) (hr : first + len ≤ orig.length) :
    ∀ (fuel : Nat) (v : List Sample) (holeIndex secondChild : Int),
      0 ≤ secondChild → HoleInv v (first + holeIndex) value orig →
      HoleInv (adjust_heap_loop first len fuel v holeIndex secondChild).1
        (first + (adjust_heap_loop first len fuel v holeIndex secondChild).2.1) value orig ∧
      0 ≤ (adjust_heap_loop first len fuel v holeIndex secondChild).2.2 := by
  intro fuel
  induction fuel with
  | zero =>
    intro v holeIndex secondChild hs h
    exact ⟨h, hs⟩
  | succ fuel ih =>
    intro v holeIndex secondChild hs h
    have hlen := holeInv_length_eq h
    have hd : (len - 1).tdiv 2 = (len - 1) / 2 := Int.tdiv_eq_ediv (by omega) (by norm_num)
    unfold adjust_heap_loop
    simp only [hd]
    split
    · rename_i hc
      split
      · exact ih _ _ _ (by omega) (holeInv_move h _ (by omega) (by omega))
      · exact ih _ _ _ (by omega) (holeInv_move h _ (by omega) (by omega))
    · exact ⟨h, hs⟩

theorem adjust_heap_perm (v : List Sample) (first holeIndex len : Int) (value : Sample)
    (orig : List Sample) (hf : 0 ≤ first) (hh : 0 ≤ holeIndex) (hl : 1 ≤ len)
    (hr : first + len ≤ orig.length) (h : HoleInv v (first + holeIndex) value orig) :
    (adjust_heap v first holeIndex len value).Perm orig := by
  obtain ⟨h1, h2⟩ := adjust_heap_loop_inv first len value orig hf hl hr v.length v holeIndex
    holeIndex hh h
  have hlen := holeInv_length_eq h1
  unfold adjust_heap
  simp only
  split
  · rename_i hc
    have hd : (len - 2).tdiv 2 = (len - 2) / 2 := Int.tdiv_eq_ediv (by omega) (by norm_num)
    rw [hd] at hc
    refine push_heap_perm first holeIndex value orig hf hh _ _ _ ?_
    have := holeInv_move h1 (first + (2 * ((adjust_heap_loop first len v.length v holeIndex holeIndex).2.2
      + 1) - 1)) (by omega) (by omega)
    exact this
  · exact push_heap_perm first holeIndex value orig hf hh _ _ _ h1

theorem pop_heap_perm (v : List Sample) (first last result : Int)
    (hf : 0 ≤ first) (hfl : first < last) (hl : last ≤ v.length)
    (hr0 : 0 ≤ result) (hr1 : result < v.length) :
    (pop_heap v first last result).Perm v := by
  unfold pop_heap
  refine adjust_heap_perm _ first 0 (last - first) _ v hf le_rfl (by omega) (by omega) ?_
  refine ⟨by omega, by rw [vec_set_length]; omega, ?_⟩
  rw [add_zero]
  exact iter_swap_perm v result first hr0 hr1 hf (by omega)

theorem make_heap_loop_perm (first len : Int) (hf : 0 ≤ first) (hl : 1 ≤ len) :
    ∀ (fuel : Nat) (v : List Sample) (parent : Int), 0 ≤ parent → parent < len →
      first + len ≤ v.length → (make_heap_loop first len fuel v parent).Perm v := by
  intro fuel
  induction fuel with
  | zero =>
    intro v parent _ _ _
    exact List.Perm.refl _
  | succ fuel ih =>
    intro v parent hp0 hp1 hr
    have h1 : (adjust_heap v first parent len (vec_at v (first + parent))).Perm v :=
      adjust_heap_perm v first parent len _ v hf hp0 hl hr
        (holeInv_start v (first + parent) (by omega) (by omega))
    unfold make_heap_loop
    simp only
    split
    · exact h1
    · exact (ih _ _ (by omega) (by omega) (by rw [h1.length_eq]; exact hr)).trans h1

theorem make_heap_perm (v : List Sample) (first last : Int) (hf : 0 ≤ first)
    (hl : last ≤ v.length) : (make_heap v first last).Perm v := by
  unfold make_heap
  split
  · exact List.Perm.refl _
  · have hd : (last - first - 2).tdiv 2 = (last - first - 2) / 2 :=
      Int.tdiv_eq_ediv (by omega) (by norm_num)
    rw [hd]
    exact make_heap_loop_perm first (last - first) hf (by omega) _ v _ (by omega) (by omega)
      (by omega)

theorem sort_heap_perm (first : Int) (hf : 0 ≤ first) :
    ∀ (fuel : Nat) (v : List Sample) (last : Int), last ≤ v.length →
      (sort_heap first fuel v last).Perm v := by
  intro fuel
  induction fuel with
  | zero =>
    intro v last _
    exact List.Perm.refl _
  | succ fuel ih =>
    intro v last hl
    unfold sort_heap
    split
    · have h1 : (pop_heap v first (last - 1) (last - 1)).Perm v :=
        pop_heap_perm v first (last - 1) (last - 1) hf (by omega) (by omega) (by omega)
          (by omega)
      exact (ih _ _ (by rw [h1.length_eq]; omega)).trans h1
    · exact List.Perm.refl _

/-- With `__middle == __last`, as in the call of `std::__introsort_loop`, the loop
of `std::__heap_select` has no round. -/
theorem heap_select_full (v : List Sample) (first last : Int) :
    heap_select v first last last = make_heap v first last := by
  unfold heap_select
  cases (last - last).toNat <;> simp [heap_select_loop]

theorem partial_sort_perm (v : List Sample) (first last : Int) (hf : 0 ≤ first)
    (hl : last ≤ v.length) : (partial_sort v first last last).Perm v := by
  unfold partial_sort
  rw [heap_select_full]
  have h1 := make_heap_perm v first last hf hl
  exact (sort_heap_perm first hf _ _ last (by rw [h1.length_eq]; exact hl)).trans h1

theorem partition_first_bounds (v : List Sample) (pivot : Int) :
    ∀ (fuel : Nat) (first : Int), first ≤ v.length →
      first ≤ partition_first v pivot fuel first ∧
      partition_first v pivot fuel first ≤ v.length := by
  intro fuel
  induction fuel with
  | zero =>
    intro first h
    exact ⟨le_rfl, h⟩
  | succ fuel ih =>
    intro first h
    unfold partition_first
    split
    · rename_i hc
      have hr := sample_less_left_range v first _ hc
      have := ih (first + 1) (by omega)
      exact ⟨by omega, this.2⟩
    · exact ⟨le_rfl, h⟩

theorem partition_last_le (v : List Sample) (pivot : Int) :
    ∀ (fuel : Nat) (last : Int), partition_last v pivot fuel last ≤ last := by
  intro fuel
  induction fuel with
  | zero =>
    intro last
    exact le_rfl
  | succ fuel ih =>
    intro last
    unfold partition_last
    split
    · have := ih (last - 1)
      omega
    · exact le_rfl

theorem unguarded_partition_perm (pivot : Int) :
    ∀ (fuel : Nat) (v : List Sample) (first last : Int),
      0 ≤ first → first ≤ v.length → last ≤ v.length →
      (unguarded_partition pivot fuel v first last).1.Perm v ∧
      first ≤ (unguarded_partition pivot fuel v first last).2 ∧
      (unguarded_partition pivot fuel v first last).2 ≤ v.length := by
  intro fuel
  induction fuel with
  | zero =>
    intro v first last h0 h1 _
    exact ⟨List.Perm.refl _, le_rfl, h1⟩
  | succ fuel ih =>
    intro v first last h0 h1 h2
    obtain ⟨b1, b2⟩ := partition_first_bounds v pivot v.length first h1
    have b3 := partition_last_le v pivot v.length (last - 1)
    unfold unguarded_partition
    simp only
    split
    · exact ⟨List.Perm.refl _, b1, b2⟩
    · rename_i hc
      have hlt : partition_first v pivot v.length first
          < partition_last v pivot v.length (last - 1) := by
        simpa using hc
      have hsw := iter_swap_perm v (partition_first v pivot v.length first)
        (partition_last v pivot v.length (last - 1)) (by omega) (by omega) (by omega) (by omega)
      have hl := hsw.length_eq
      obtain ⟨c1, c2, c3⟩ := ih (iter_swap v (partition_first v pivot v.length first)
        (partition_last v pivot v.length (last - 1)))
        (partition_first v pivot v.length first + 1)
        (partition_last v pivot v.length (last - 1)) (by omega) (by omega) (by omega)
      exact ⟨c1.trans hsw, by omega, by omega⟩

theorem move_median_to_first_perm (v : List Sample) (result a b c : Int)
    (hr : 0 ≤ result ∧ result < v.length) (ha : 0 ≤ a ∧ a < v.length)
    (hb : 0 ≤ b ∧ b < v.length) (hc : 0 ≤ c ∧ c < v.length) :
    (move_median_to_first v result a b c).Perm v := by
  unfold move_median_to_first
  split_ifs <;> first
    | exact iter_swap_perm v result a hr.1 hr.2 ha.1 ha.2
    | exact iter_swap_perm v result b hr.1 hr.2 hb.1 hb.2
    | exact iter_swap_perm v result c hr.1 hr.2 hc.1 hc.2

theorem unguarded_partition_pivot_perm (v : List Sample) (first last : Int)
    (hf : 0 ≤ first) (hn : last - first > 16) (hl : last ≤ v.length) :
    (unguarded_partition_pivot v first last).1.Perm v ∧
    first + 1 ≤ (unguarded_partition_pivot v first last).2 ∧
    (unguarded_partition_pivot v first last).2 ≤ v.length := by
  have hd : (last - first).tdiv 2 = (last - first) / 2 :=
    Int.tdiv_eq_ediv (by omega) (by norm_num)
  have hm := move_median_to_first_perm v first (first + 1) (first + (last - first) / 2)
    (last - 1) ⟨by omega, by omega⟩ ⟨by omega, by omega⟩ ⟨by omega, by omega⟩
    ⟨by omega, by omega⟩
  have hlen := hm.length_eq
  unfold unguarded_partition_pivot
  simp only [hd]
  obtain ⟨c1, c2, c3⟩ := unguarded_partition_perm first
    (move_median_to_first v first (first + 1) (first + (last - first) / 2) (last - 1)).length
    (move_median_to_first v first (first + 1) (first + (last - first) / 2) (last - 1))
    (first + 1) last (by omega) (by omega) (by omega)
  exact ⟨c1.trans hm, c2, by omega⟩

theorem introsort_loop_perm :
    ∀ (depth_limit : Nat) (v : List Sample) (first last : Int), 0 ≤ first → last ≤ v.length →
      (introsort_loop depth_limit v first last).Perm v := by
  intro depth_limit
  induction depth_limit with
  | zero =>
    intro v first last hf hl
    unfold introsort_loop
    split
    · exact partial_sort_perm v first last hf hl
    · exact List.Perm.refl _
  | succ depth_limit ih =>
    intro v first last hf hl
    unfold introsort_loop
    split
    · rename_i hn
      obtain ⟨c1, c2, c3⟩ := unguarded_partition_pivot_perm v first last hf hn hl
      simp only
      have h1 := ih (unguarded_partition_pivot v first last).1
        (unguarded_partition_pivot v first last).2 last (by omega)
        (by rw [c1.length_eq]; exact hl)
      have h2 := ih (introsort_loop depth_limit (unguarded_partition_pivot v first last).1
        (unguarded_partition_pivot v first last).2 last) first
        (unguarded_partition_pivot v first last).2 hf
        (by rw [h1.length_eq, c1.length_eq]; exact c3)
      exact (h2.trans h1).trans c1
    · exact List.Perm.refl _

/-! ## The library sort: the final insertion sort orders the vector -/

theorem sample_le_of_not_less (a b : Sample) (ha : a.t ≠ Dbl.nan) (hb : b.t ≠ Dbl.nan)
    (h : sample_less a b = false) : Dbl.le b.t a.t = true := by
  unfold sample_less at h
  cases hat : a.t <;> cases hbt : b.t <;> simp_all [Dbl.lt, Dbl.le]

theorem sample_le_of_less (a b : Sample) (h : sample_less a b = true) :
    Dbl.le a.t b.t = true :=
  Dbl.le_of_lt h

theorem shiftInv_start (v0 : List Sample) (i : Int) : ShiftInv v0 v0 i i :=
  ⟨rfl, fun _ _ => rfl, fun j h1 h2 => by omega, fun _ _ => rfl⟩

/-- One move of the hole from slot `p` down to slot `p - 1`. -/
theorem shiftInv_step {v0 v : List Sample} {i p : Int} (h : ShiftInv v0 v i p)
    (hp0 : 1 ≤ p) (hp : p ≤ i) (hi : i < v0.length) :
    ShiftInv v0 (vec_set v p (vec_at v (p - 1))) i (p - 1) := by
  obtain ⟨h1, h2, h3, h4⟩ := h
  refine ⟨by rw [vec_set_length]; exact h1, fun j hj => ?_, fun j hj1 hj2 => ?_, fun j hj => ?_⟩
  · rw [vec_at_set_ne v p j _ (by omega)]
    exact h2 j (by omega)
  · by_cases hjp : j = p
    · subst hjp
      rw [vec_at_set_self v j _ (by omega) (by omega)]
      exact h2 (j - 1) (by omega)
    · rw [vec_at_set_ne v p j _ (by omega)]
      exact h3 j (by omega) hj2
  · rw [vec_at_set_ne v p j _ (by omega)]
    exact h4 j hj

theorem unguarded_linear_insert_loop_inv (v0 : List Sample) (i : Int) (value : Sample)
    (hi : i < v0.length) :
    ∀ (fuel : Nat) (v : List Sample) (last : Int), 0 ≤ last → last ≤ i → last < fuel →
      ShiftInv v0 v i last → HoleInv v last value v0 →
      (∀ j : Int, last ≤ j → j < i → sample_less value (vec_at v0 j) = true) →
      0 ≤ (unguarded_linear_insert_loop value fuel v last (last - 1)).2 ∧
      (unguarded_linear_insert_loop value fuel v last (last - 1)).2 ≤ last ∧
      ShiftInv v0 (unguarded_linear_insert_loop value fuel v last (last - 1)).1 i
        (unguarded_linear_insert_loop value fuel v last (last - 1)).2 ∧
      HoleInv (unguarded_linear_insert_loop value fuel v last (last - 1)).1
        (unguarded_linear_insert_loop value fuel v last (last - 1)).2 value v0 ∧
      (∀ j : Int, (unguarded_linear_insert_loop value fuel v last (last - 1)).2 ≤ j → j < i →
        sample_less value (vec_at v0 j) = true) ∧
      sample_less value
        (vec_at v0 ((unguarded_linear_insert_loop value fuel v last (last - 1)).2 - 1)) = false := by
  intro fuel
  induction fuel with
  | zero =>
    intro v last h0 _ hf
    exfalso
    simp at hf
    omega
  | succ fuel ih =>
    intro v last h0 hli hf hs hh hgt
    have hnext : vec_at v (last - 1) = vec_at v0 (last - 1) := hs.2.1 (last - 1) (by omega)
    unfold unguarded_linear_insert_loop
    by_cases hc : sample_less value (vec_at v (last - 1)) = true
    · rw [if_pos hc]
      have hr := sample_less_right_range v (last - 1) value hc
      have hf2 : last - 1 < (fuel : Int) := by
        push_cast at hf
        omega
      have := ih (vec_set v last (vec_at v (last - 1))) (last - 1) (by omega) (by omega) hf2
        (shiftInv_step hs (by omega) hli hi) (holeInv_move hh (last - 1) hr.1 hr.2)
        (fun j hj1 hj2 => by
          by_cases hjl : j = last - 1
          · rw [hjl, ← hnext]
            exact hc
          · exact hgt j (by omega) hj2)
      obtain ⟨a1, a2, a3, a4, a5, a6⟩ := this
      exact ⟨a1, by omega, a3, a4, a5, a6⟩
    · rw [if_neg hc]
      refine ⟨h0, le_rfl, hs, hh, hgt, ?_⟩
      rw [← hnext]
      simpa using hc

theorem move_backward_inv (v0 : List Sample) (i first : Int) (value : Sample)
    (hi : i < v0.length) :
    ∀ (fuel : Nat) (v : List Sample) (last : Int), first ≤ last → last ≤ i →
      last - first ≤ fuel → 0 ≤ first →
      ShiftInv v0 v i last → HoleInv v last value v0 →
      ShiftInv v0 (move_backward first fuel v last (last + 1)) i first ∧
      HoleInv (move_backward first fuel v last (last + 1)) first value v0 := by
  intro fuel
  induction fuel with
  | zero =>
    intro v last h1 _ hf _ hs hh
    have : last = first := by
      simp at hf
      omega
    subst this
    exact ⟨hs, hh⟩
  | succ fuel ih =>
    intro v last h1 hli hf h0 hs hh
    unfold move_backward
    by_cases hc : first = last
    · subst hc
      simp only [ne_eq, not_true_eq_false, if_false]
      exact ⟨hs, hh⟩
    · rw [if_pos hc]
      have hlen := hh.2.1
      have e1 : last + 1 - 1 = last := by ring
      rw [e1]
      have := ih (vec_set v last (vec_at v (last - 1))) (last - 1) (by omega) (by omega)
        (by push_cast at hf; omega) h0 (shiftInv_step hs (by omega) hli hi)
        (holeInv_move hh (last - 1) (by omega) (by omega))
      have e2 : last - 1 + 1 = last := by ring
      rw [e2] at this
      exact this

/-- Storing `value` in the hole at slot `p` of an insertion at slot `i` leaves the
first `i + 1` slots ordered, when the samples below the hole are at or below
`value` and the moved ones at or above it. -/
theorem shifted_sorted (v0 v : List Sample) (i p : Int) (value : Sample)
    (hs0 : SortedTo v0 i) (hs : ShiftInv v0 v i p) (hp0 : 0 ≤ p) (hpi : p ≤ i)
    (hi : i < v0.length)
    (hlo : ∀ j : Int, 0 ≤ j → j < p → Dbl.le (vec_at v0 j).t value.t = true)
    (hhi : ∀ j : Int, p ≤ j → j < i → Dbl.le value.t (vec_at v0 j).t = true) :
    SortedTo (vec_set v p value) (i + 1) := by
  obtain ⟨h1, h2, h3, h4⟩ := hs
  have kp : vec_at (vec_set v p value) p = value :=
    vec_at_set_self v p value hp0 (by omega)
  have klo : ∀ x : Int, x < p → vec_at (vec_set v p value) x = vec_at v0 x := by
    intro x hx
    rw [vec_at_set_ne v p x _ (by omega)]
    exact h2 x hx
  have khi : ∀ x : Int, p < x → x ≤ i → vec_at (vec_set v p value) x = vec_at v0 (x - 1) := by
    intro x hx1 hx2
    rw [vec_at_set_ne v p x _ (by omega)]
    exact h3 x hx1 hx2
  intro a b ha hab hb
  rcases lt_trichotomy b p with hbp | hbp | hbp
  · rw [klo a (by omega), klo b hbp]
    exact hs0 a b ha hab (by omega)
  · subst hbp
    rw [klo a hab, kp]
    exact hlo a ha hab
  · rw [khi b hbp (by omega)]
    rcases lt_trichotomy a p with hap | hap | hap
    · rw [klo a hap]
      exact hs0 a (b - 1) ha (by omega) (by omega)
    · subst hap
      rw [kp]
      exact hhi (b - 1) (by omega) (by omega)
    · rw [khi a hap (by omega)]
      exact hs0 (a - 1) (b - 1) (by omega) (by omega) (by omega)

theorem noNaN_of_perm {v w : List Sample} (h : NoNaN v) (hp : w.Perm v) : NoNaN w :=
  fun a ha => h a (hp.mem_iff.mp ha)

theorem noNaN_at {v : List Sample} (h : NoNaN v) (i : Int) (h0 : 0 ≤ i) (h1 : i < v.length) :
    (vec_at v i).t ≠ Dbl.nan :=
  h _ (vec_at_mem v i h0 h1)

/-- The routine `std::__unguarded_linear_insert` at slot `i` of a vector whose
first `i` slots are ordered: it permutes the vector and leaves the first `i + 1`
slots ordered. -/
theorem unguarded_linear_insert_sorted (v : List Sample) (i : Int) (h0 : 0 ≤ i)
    (hi : i < v.length) (hn : NoNaN v) (hs : SortedTo v i) :
    (unguarded_linear_insert v i).Perm v ∧ SortedTo (unguarded_linear_insert v i) (i + 1) := by
  obtain ⟨a1, a2, a3, a4, a5, a6⟩ := unguarded_linear_insert_loop_inv v i (vec_at v i) hi
    v.length v i h0 le_rfl hi (shiftInv_start v i) (holeInv_start v i h0 hi)
    (fun j hj1 hj2 => by omega)
  unfold unguarded_linear_insert
  simp only
  refine ⟨a4.2.2, ?_⟩
  refine shifted_sorted v _ i _ (vec_at v i) hs a3 a1 a2 hi (fun j hj0 hjp => ?_)
    (fun j hj1 hj2 => sample_le_of_less _ _ (a5 j hj1 hj2))
  have hlast : Dbl.le (vec_at v ((unguarded_linear_insert_loop (vec_at v i) v.length v i
      (i - 1)).2 - 1)).t (vec_at v i).t = true :=
    sample_le_of_not_less _ _ (noNaN_at hn i h0 hi) (noNaN_at hn _ (by omega) (by omega)) a6
  by_cases hj : j = (unguarded_linear_insert_loop (vec_at v i) v.length v i (i - 1)).2 - 1
  · rw [hj]
    exact hlast
  · exact Dbl.le_transitive (hs j _ hj0 (by omega) (by omega)) hlast

/-- The other branch of `std::__insertion_sort`, for a sample below the first one:
it is moved to the front. -/
theorem move_to_front_sorted (v : List Sample) (i : Int) (h0 : 1 ≤ i) (hi : i < v.length)
    (hs : SortedTo v i) (hc : sample_less (vec_at v i) (vec_at v 0) = true) :
    (vec_set (move_backward 0 (i - 0).toNat v i (i + 1)) 0 (vec_at v i)).Perm v ∧
    SortedTo (vec_set (move_backward 0 (i - 0).toNat v i (i + 1)) 0 (vec_at v i)) (i + 1) := by
  obtain ⟨a1, a2⟩ := move_backward_inv v i 0 (vec_at v i) hi (i - 0).toNat v i (by omega)
    le_rfl (by omega) le_rfl (shiftInv_start v i) (holeInv_start v i (by omega) hi)
  refine ⟨a2.2.2, ?_⟩
  refine shifted_sorted v _ i 0 (vec_at v i) hs a1 le_rfl (by omega) hi
    (fun j hj0 hjp => by omega) (fun j hj1 hj2 => ?_)
  have hfirst := sample_le_of_less _ _ hc
  by_cases hj : j = 0
  · rw [hj]
    exact hfirst
  · exact Dbl.le_transitive hfirst (hs 0 j le_rfl (by omega) hj2)

theorem insertion_sort_loop_sorted (last : Int) :
    ∀ (fuel : Nat) (v : List Sample) (i : Int), 1 ≤ i → i ≤ last → last ≤ v.length →
      last - i ≤ fuel → NoNaN v → SortedTo v i →
      (insertion_sort_loop 0 last fuel v i).Perm v ∧
      SortedTo (insertion_sort_loop 0 last fuel v i) last := by
  intro fuel
  induction fuel with
  | zero =>
    intro v i _ h2 _ hf _ hs
    have : i = last := by
      simp at hf
      omega
    subst this
    exact ⟨List.Perm.refl _, hs⟩
  | succ fuel ih =>
    intro v i h1 h2 h3 hf hn hs
    unfold insertion_sort_loop
    by_cases hc : i = last
    · subst hc
      simp only [ne_eq, not_true_eq_false, if_false]
      exact ⟨List.Perm.refl _, hs⟩
    · rw [if_pos hc]
      have hstep : ∀ w : List Sample, w.Perm v → SortedTo w (i + 1) →
          (insertion_sort_loop 0 last fuel w (i + 1)).Perm v ∧
          SortedTo (insertion_sort_loop 0 last fuel w (i + 1)) last := by
        intro w hp hsw
        obtain ⟨b1, b2⟩ := ih w (i + 1) (by omega) (by omega) (by rw [hp.length_eq]; exact h3)
          (by push_cast at hf; omega) (noNaN_of_perm hn hp) hsw
        exact ⟨b1.trans hp, b2⟩
      split
      · rename_i hless
        obtain ⟨c1, c2⟩ := move_to_front_sorted v i h1 (by omega) hs hless
        exact hstep _ c1 c2
      · obtain ⟨c1, c2⟩ := unguarded_linear_insert_sorted v i (by omega) (by omega) hn hs
        exact hstep _ c1 c2

theorem insertion_sort_sorted (v : List Sample) (last : Int) (h0 : 0 ≤ last)
    (hl : last ≤ v.length) (hn : NoNaN v) :
    (insertion_sort v 0 last).Perm v ∧ SortedTo (insertion_sort v 0 last) last := by
  unfold insertion_sort
  split
  · rename_i h
    rw [← h]
    exact ⟨List.Perm.refl _, fun i j hi hij hj => by omega⟩
  · rename_i h
    exact insertion_sort_loop_sorted last _ v (0 + 1) (by omega) (by omega) hl
      (by omega) hn (fun i j hi hij hj => by omega)

theorem unguarded_insertion_sort_sorted (last : Int) :
    ∀ (fuel : Nat) (v : List Sample) (i : Int), 0 ≤ i → i ≤ last → last ≤ v.length →
      last - i ≤ fuel → NoNaN v → SortedTo v i →
      (unguarded_insertion_sort last fuel v i).Perm v ∧
      SortedTo (unguarded_insertion_sort last fuel v i) last := by
  intro fuel
  induction fuel with
  | zero =>
    intro v i _ h2 _ hf _ hs
    have : i = last := by
      simp at hf
      omega
    subst this
    exact ⟨List.Perm.refl _, hs⟩
  | succ fuel ih =>
    intro v i h1 h2 h3 hf hn hs
    unfold unguarded_insertion_sort
    by_cases hc : i = last
    · subst hc
      simp only [ne_eq, not_true_eq_false, if_false]
      exact ⟨List.Perm.refl _, hs⟩
    · rw [if_pos hc]
      obtain ⟨c1, c2⟩ := unguarded_linear_insert_sorted v i h1 (by omega) hn hs
      obtain ⟨b1, b2⟩ := ih (unguarded_linear_insert v i) (i + 1) (by omega) (by omega)
        (by rw [c1.length_eq]; exact h3) (by push_cast at hf; omega) (noNaN_of_perm hn c1) c2
      exact ⟨b1.trans c1, b2⟩

theorem final_insertion_sort_sorted (v : List Sample) (hn : NoNaN v) :
    (final_insertion_sort v 0 v.length).Perm v ∧
    SortedTo (final_insertion_sort v 0 v.length) v.length := by
  unfold final_insertion_sort
  split
  · rename_i h
    obtain ⟨c1, c2⟩ := insertion_sort_sorted v (0 + 16) (by omega) (by omega) hn
    obtain ⟨b1, b2⟩ := unguarded_insertion_sort_sorted v.length
      ((v.length : Int) - (0 + 16)).toNat (insertion_sort v 0 (0 + 16)) (0 + 16) (by omega)
      (by omega) (by rw [c1.length_eq]) (by omega) (noNaN_of_perm hn c1) c2
    exact ⟨b1.trans c1, b2⟩
  · exact insertion_sort_sorted v v.length (by omega) le_rfl hn

/-- An ordered vector, as a list. -/
theorem sortedTo_pairwise (v : List Sample) (h : SortedTo v v.length) :
    v.Pairwise (fun a b => Dbl.le a.t b.t = true) := by
  rw [List.pairwise_iff_getElem]
  intro i j hi hj hij
  have := h (i : Int) (j : Int) (by omega) (by omega) (by omega)
  rw [vec_at_getElem v i hi, vec_at_getElem v j hj] at this
  exact this

/-- The library sort: on a vector without NaN times, `std::sort` with the
comparator `a.t<b.t` yields a permutation ordered by non-decreasing time. -/
theorem std_sort_sorts (v : List Sample) (hn : NoNaN v) :
    (std_sort v).Perm v ∧ (std_sort v).Pairwise (fun a b => Dbl.le a.t b.t = true) := by
  unfold std_sort
  split
  · rename_i h
    have : v = [] := List.length_eq_zero.mp h
    subst this
    exact ⟨List.Perm.refl _, List.Pairwise.nil⟩
  · have h1 := introsort_loop_perm (Nat.log2 v.length * 2) v 0 v.length le_rfl le_rfl
    have hl := h1.length_eq
    obtain ⟨c1, c2⟩ := final_insertion_sort_sorted
      (introsort_loop (Nat.log2 v.length * 2) v 0 v.length) (noNaN_of_perm hn h1)
    rw [hl] at c1 c2
    refine ⟨c1.trans h1, ?_⟩
    apply sortedTo_pairwise
    rw [c1.length_eq, hl]
    exact c2

/-! ## The library sort: the fuel of every loop suffices -/

/-- Extra fuel does not change the upward scan of the partition. -/
theorem partition_first_fuel (v : List Sample) (pivot : Int) :
    ∀ (fuel k : Nat) (first : Int), (v.length : Int) - first ≤ fuel →
      partition_first v pivot (fuel + k) first = partition_first v pivot fuel first := by
  intro fuel
  induction fuel with
  | zero =>
    intro k first hf
    cases k with
    | zero => rfl
    | succ k =>
      have hc : ¬ (sample_less (vec_at v first) (vec_at v pivot) = true) := by
        intro hc
        have := sample_less_left_range v first _ hc
        simp at hf
        omega
      simp [partition_first, hc]
  | succ fuel ih =>
    intro k first hf
    have hk : fuel + 1 + k = (fuel + k) + 1 := by omega
    rw [hk]
    unfold partition_first
    split
    · exact ih k (first + 1) (by push_cast at hf; omega)
    · rfl

/-- Extra fuel does not change the downward scan of the partition. -/
theorem partition_last_fuel (v : List Sample) (pivot : Int) :
    ∀ (fuel k : Nat) (last : Int), last + 1 ≤ fuel →
      partition_last v pivot (fuel + k) last = partition_last v pivot fuel last := by
  intro fuel
  induction fuel with
  | zero =>
    intro k last hf
    cases k with
    | zero => rfl
    | succ k =>
      have hc : ¬ (sample_less (vec_at v pivot) (vec_at v last) = true) := by
        intro hc
        have := sample_less_right_range v last _ hc
        simp at hf
        omega
      simp [partition_last, hc]
  | succ fuel ih =>
    intro k last hf
    have hk : fuel + 1 + k = (fuel + k) + 1 := by omega
    rw [hk]
    unfold partition_last
    split
    · exact ih k (last - 1) (by push_cast at hf; omega)
    · rfl

theorem partition_first_ge (v : List Sample) (pivot : Int) :
    ∀ (fuel : Nat) (first : Int), first ≤ partition_first v pivot fuel first := by
  intro fuel
  induction fuel with
  | zero =>
    intro first
    exact le_rfl
  | succ fuel ih =>
    intro first
    unfold partition_first
    split
    · have := ih (first + 1)
      omega
    · exact le_rfl

/-- Extra fuel does not change the result of `std::__unguarded_partition`. -/
theorem unguarded_partition_fuel (pivot : Int) :
    ∀ (fuel k : Nat) (v : List Sample) (first last : Int), last - first < fuel → 0 < fuel →
      unguarded_partition pivot (fuel + k) v first last
        = unguarded_partition pivot fuel v first last := by
  intro fuel
  induction fuel with
  | zero =>
    intro k v first last _ h0
    exact absurd h0 (lt_irrefl 0)
  | succ fuel ih =>
    intro k v first last hf _
    have hk : fuel + 1 + k = (fuel + k) + 1 := by omega
    rw [hk]
    have b1 := partition_first_ge v pivot v.length first
    have b3 := partition_last_le v pivot v.length (last - 1)
    unfold unguarded_partition
    simp only
    split
    · rfl
    · rename_i hc
      have hlt : partition_first v pivot v.length first
          < partition_last v pivot v.length (last - 1) := by
        simpa using hc
      have hpos : 0 < fuel := by
        push_cast at hf
        omega
      exact ih k _ _ _ (by push_cast at hf; omega) hpos

/-- Extra fuel does not change the result of `std::__push_heap`. -/
theorem push_heap_fuel (first topIndex : Int) (value : Sample) (ht : 0 ≤ topIndex) :
    ∀ (fuel k : Nat) (v : List Sample) (holeIndex : Int), holeIndex ≤ fuel →
      push_heap first topIndex value (fuel + k) v holeIndex
        = push_heap first topIndex value fuel v holeIndex := by
  intro fuel
  induction fuel with
  | zero =>
    intro k v holeIndex hf
    cases k with
    | zero => rfl
    | succ k =>
      have hc : ¬ holeIndex > topIndex := by
        simp at hf
        omega
      simp [push_heap, hc]
  | succ fuel ih =>
    intro k v holeIndex hf
    have hk : fuel + 1 + k = (fuel + k) + 1 := by omega
    rw [hk]
    unfold push_heap
    simp only
    split
    · rename_i hc
      have hp : (holeIndex - 1).tdiv 2 = (holeIndex - 1) / 2 :=
        Int.tdiv_eq_ediv (by omega) (by norm_num)
      rw [hp]
      exact ih k _ _ (by push_cast at hf; omega)
    · rfl

/-- Extra fuel does not change the result of the loop of `std::__adjust_heap`. -/
theorem adjust_heap_loop_fuel (first len : Int) (hl : 1 ≤ len) :
    ∀ (fuel k : Nat) (v : List Sample) (holeIndex secondChild : Int), 0 ≤ secondChild →
      (len - 1) / 2 - secondChild ≤ fuel →
      adjust_heap_loop first len (fuel + k) v holeIndex secondChild
        = adjust_heap_loop first len fuel v holeIndex secondChild := by
  have hd : (len - 1).tdiv 2 = (len - 1) / 2 := Int.tdiv_eq_ediv (by omega) (by norm_num)
  intro fuel
  induction fuel with
  | zero =>
    intro k v holeIndex secondChild _ hf
    cases k with
    | zero => rfl
    | succ k =>
      have hc : ¬ secondChild < (len - 1) / 2 := by
        simp at hf
        omega
      simp [adjust_heap_loop, hd, hc]
  | succ fuel ih =>
    intro k v holeIndex secondChild hs hf
    have hk : fuel + 1 + k = (fuel + k) + 1 := by omega
    rw [hk]
    unfold adjust_heap_loop
    simp only [hd]
    split
    · split
      · exact ih k _ _ _ (by omega) (by push_cast at hf; omega)
      · exact ih k _ _ _ (by omega) (by push_cast at hf; omega)
    · rfl

/-- Extra fuel does not change the result of the loop of `std::__make_heap`. -/
theorem make_heap_loop_fuel (first len : Int) :
    ∀ (fuel k : Nat) (v : List Sample) (parent : Int), 0 ≤ parent → parent < fuel →
      make_heap_loop first len (fuel + k) v parent = make_heap_loop first len fuel v parent := by
  intro fuel
  induction fuel with
  | zero =>
    intro k v parent h0 hf
    exfalso
    simp at hf
    omega
  | succ fuel ih =>
    intro k v parent h0 hf
    have hk : fuel + 1 + k = (fuel + k) + 1 := by omega
    rw [hk]
    unfold make_heap_loop
    simp only
    split
    · rfl
    · exact ih k _ _ (by omega) (by push_cast at hf; omega)

/-- Extra fuel does not change the result of `std::__sort_heap`. -/
theorem sort_heap_fuel (first : Int) :
    ∀ (fuel k : Nat) (v : List Sample) (last : Int), last - first - 1 ≤ fuel →
      sort_heap first (fuel + k) v last = sort_heap first fuel v last := by
  intro fuel
  induction fuel with
  | zero =>
    intro k v last hf
    cases k with
    | zero => rfl
    | succ k =>
      have hc : ¬ last - first > 1 := by
        simp at hf
        omega
      simp [sort_heap, hc]
  | succ fuel ih =>
    intro k v last hf
    have hk : fuel + 1 + k = (fuel + k) + 1 := by omega
    rw [hk]
    unfold sort_heap
    split
    · exact ih k _ _ (by push_cast at hf; omega)
    · rfl

/-- Extra fuel does not change the result of the loop of `std::__heap_select`. -/
theorem heap_select_loop_fuel (first middle last : Int) :
    ∀ (fuel k : Nat) (v : List Sample) (i : Int), last - i ≤ fuel →
      heap_select_loop first middle last (fuel + k) v i
        = heap_select_loop first middle last fuel v i := by
  intro fuel
  induction fuel with
  | zero =>
    intro k v i hf
    cases k with
    | zero => rfl
    | succ k =>
      have hc : ¬ i < last := by
        simp at hf
        omega
      simp [heap_select_loop, hc]
  | succ fuel ih =>
    intro k v i hf
    have hk : fuel + 1 + k = (fuel + k) + 1 := by omega
    rw [hk]
    unfold heap_select_loop
    split
    · exact ih k _ _ (by push_cast at hf; omega)
    · rfl

/-- Extra fuel does not change the result of the loop of
`std::__unguarded_linear_insert`. -/
theorem unguarded_linear_insert_loop_fuel (value : Sample) :
    ∀ (fuel k : Nat) (v : List Sample) (last next : Int), next + 1 ≤ fuel →
      unguarded_linear_insert_loop value (fuel + k) v last next
        = unguarded_linear_insert_loop value fuel v last next := by
  intro fuel
  induction fuel with
  | zero =>
    intro k v last next hf
    cases k with
    | zero => rfl
    | succ k =>
      have hc : ¬ (sample_less value (vec_at v next) = true) := by
        intro hc
        have := sample_less_right_range v next _ hc
        simp at hf
        omega
      simp [unguarded_linear_insert_loop, hc]
  | succ fuel ih =>
    intro k v last next hf
    have hk : fuel + 1 + k = (fuel + k) + 1 := by omega
    rw [hk]
    unfold unguarded_linear_insert_loop
    split
    · exact ih k _ _ _ (by push_cast at hf; omega)
    · rfl

/-- Extra fuel does not change the result of `std::move_backward`. -/
theorem move_backward_fuel (first : Int) :
    ∀ (fuel k : Nat) (v : List Sample) (last result : Int), first ≤ last →
      last - first ≤ fuel →
      move_backward first (fuel + k) v last result = move_backward first fuel v last result := by
  intro fuel
  induction fuel with
  | zero =>
    intro k v last result h1 hf
    cases k with
    | zero => rfl
    | succ k =>
      have hc : first = last := by
        simp at hf
        omega
      simp [move_backward, hc]
  | succ fuel ih =>
    intro k v last result h1 hf
    have hk : fuel + 1 + k = (fuel + k) + 1 := by omega
    rw [hk]
    unfold move_backward
    split
    · exact ih k _ _ _ (by omega) (by push_cast at hf; omega)
    · rfl

/-- Extra fuel does not change the result of the loop of `std::__insertion_sort`. -/
theorem insertion_sort_loop_fuel (first last : Int) :
    ∀ (fuel k : Nat) (v : List Sample) (i : Int), i ≤ last → last - i ≤ fuel →
      insertion_sort_loop first last (fuel + k) v i = insertion_sort_loop first last fuel v i := by
  intro fuel
  induction fuel with
  | zero =>
    intro k v i h1 hf
    cases k with
    | zero => rfl
    | succ k =>
      have hc : i = last := by
        simp at hf
        omega
      simp [insertion_sort_loop, hc]
  | succ fuel ih =>
    intro k v i h1 hf
    have hk : fuel + 1 + k = (fuel + k) + 1 := by omega
    rw [hk]
    unfold insertion_sort_loop
    split
    · exact ih k _ _ (by omega) (by push_cast at hf; omega)
    · rfl

/-- Extra fuel does not change the result of `std::__unguarded_insertion_sort`. -/
theorem unguarded_insertion_sort_fuel (last : Int) :
    ∀ (fuel k : Nat) (v : List Sample) (i : Int), i ≤ last → last - i ≤ fuel →
      unguarded_insertion_sort last (fuel + k) v i = unguarded_insertion_sort last fuel v i := by
  intro fuel
  induction fuel with
  | zero =>
    intro k v i h1 hf
    cases k with
    | zero => rfl
    | succ k =>
      have hc : i = last := by
        simp at hf
        omega
      simp [unguarded_insertion_sort, hc]
  | succ fuel ih =>
    intro k v i h1 hf
    have hk : fuel + 1 + k = (fuel + k) + 1 := by omega
    rw [hk]
    unfold unguarded_insertion_sort
    split
    · exact ih k _ _ (by omega) (by push_cast at hf; omega)
    · rfl

/-! ## Sorting a channel -/

/-- Inserting a sample into an ordered list keeps it ordered, when no time
involved is NaN. -/
theorem orderedInsert_sorted (a : Sample) (ha : a.t ≠ Dbl.nan) :
    ∀ l : List Sample, (∀ b ∈ l, b.t ≠ Dbl.nan) →
      l.Pairwise (fun a b => Dbl.le a.t b.t = true) →
      (l.orderedInsert (fun a b => Dbl.le a.t b.t = true) a).Pairwise
        (fun a b => Dbl.le a.t b.t = true)
  | [], _, _ => by simp
  | b :: l, hl, hs => by
    have hb : b.t ≠ Dbl.nan := hl b (List.mem_cons_self _ _)
    have hs' := List.pairwise_cons.mp hs
    by_cases h : Dbl.le a.t b.t = true
    · rw [List.orderedInsert, if_pos h]
      refine List.pairwise_cons.mpr ⟨fun c hc => ?_, hs⟩
      rcases List.mem_cons.mp hc with rfl | hc
      · exact h
      · exact Dbl.le_transitive h (hs'.1 c hc)
    · rw [List.orderedInsert, if_neg h]
      have hba : Dbl.le b.t a.t = true :=
        Dbl.le_of_lt (Dbl.lt_of_le_false ha hb (by simpa using h))
      refine List.pairwise_cons.mpr ⟨fun c hc => ?_, ?_⟩
      · rcases (List.mem_orderedInsert _).mp hc with rfl | hc
        · exact hba
        · exact hs'.1 c hc
      · exact orderedInsert_sorted a ha l (fun c hc => hl c (List.mem_cons_of_mem _ hc)) hs'.2

/-- The insertion sort orders every list without NaN times. -/
theorem sortByTime_sorted :
    ∀ l : List Sample, (∀ a ∈ l, a.t ≠ Dbl.nan) →
      (sortByTime l).Pairwise (fun a b => Dbl.le a.t b.t = true)
  | [], _ => by simp [sortByTime]
  | a :: l, hl => by
    have ih := sortByTime_sorted l (fun c hc => hl c (List.mem_cons_of_mem _ hc))
    unfold sortByTime at ih ⊢
    rw [List.insertionSort]
    refine orderedInsert_sorted a (hl a (List.mem_cons_self _ _)) _ (fun c hc => ?_) ih
    exact hl c (List.mem_cons_of_mem _ ((List.perm_insertionSort _ l).mem_iff.mp hc))

/-- Counterexample to C16.  Seventeen samples of equal time 0 with the values
1, ..., 17: after `sort_channel` the values stand in the order 9, 17, 16, ..., 10,
1, 8, 7, ..., 2, so samples of equal time are not kept in their previous relative
order (`std::sort` partitions a vector of more than 16 elements by swaps).  And
with the stored samples `(NaN,1), (0,2)` the segment is left as it is, which is
not ordered by non-decreasing time. -/
theorem sort_channel_stable_counterexample :
    seventeenState.uchannels.find "A" = some 1 ∧
    ((seventeenState.channels 1).data.map (fun seg => seg.data.map Sample.t))
      = [List.replicate 17 (Dbl.fin 0)] ∧
    ((seventeenState.channels 1).data.map (fun seg => seg.data.map Sample.x))
      = [[Dbl.fin 1, Dbl.fin 2, Dbl.fin 3, Dbl.fin 4, Dbl.fin 5, Dbl.fin 6, Dbl.fin 7,
          Dbl.fin 8, Dbl.fin 9, Dbl.fin 10, Dbl.fin 11, Dbl.fin 12, Dbl.fin 13, Dbl.fin 14,
          Dbl.fin 15, Dbl.fin 16, Dbl.fin 17]] ∧
    (((sort_channel std_sort seventeenState "A").channels 1).data.map
        (fun seg => seg.data.map Sample.x))
      = [[Dbl.fin 9, Dbl.fin 17, Dbl.fin 16, Dbl.fin 15, Dbl.fin 14, Dbl.fin 13, Dbl.fin 12,
          Dbl.fin 11, Dbl.fin 10, Dbl.fin 1, Dbl.fin 8, Dbl.fin 7, Dbl.fin 6, Dbl.fin 5,
          Dbl.fin 4, Dbl.fin 3, Dbl.fin 2]] ∧
    nanTimeState.uchannels.find "A" = some 1 ∧
    (nanTimeState.channels 1).data.map Segment.data
      = [[⟨Dbl.nan, Dbl.fin 1⟩, ⟨Dbl.fin 0, Dbl.fin 2⟩]] ∧
    ((sort_channel std_sort nanTimeState "A").channels 1).data.map Segment.data
      = [[⟨Dbl.nan, Dbl.fin 1⟩, ⟨Dbl.fin 0, Dbl.fin 2⟩]] ∧
    Dbl.le Dbl.nan (Dbl.fin 0) = false := by
  refine ⟨by decide, by decide!, by decide!, by decide!, by decide, by decide, by decide!,
    by decide⟩

/-- C16 as amended: `sort_channel` on a channel registered under an id other than
0 replaces the samples of each of its segments by the result of `std::sort` with
the comparator `a.t<b.t`, all other fields of the segment kept; whenever no time
in the segment is NaN, that result is a permutation of the previous samples
ordered by non-decreasing `t` (samples of equal `t` are not necessarily kept in
their previous relative order).  The number of segments, the name map and all
other channels are unchanged. -/
theorem sort_channel_sorts (s : Instance) (name : String) (c : Nat)
    (hreg : s.uchannels.find name = some c) (hc : c ≠ 0) :
    List.Forall₂
      (fun seg seg1 : Segment => seg1 = { seg with data := std_sort seg.data } ∧
        ((∀ a ∈ seg.data, a.t ≠ Dbl.nan) →
          seg1.data.Perm seg.data ∧ seg1.data.Pairwise (fun a b => Dbl.le a.t b.t = true)))
      (s.channels c).data ((sort_channel std_sort s name).channels c).data ∧
    ((sort_channel std_sort s name).channels c).data.length = (s.channels c).data.length ∧
    (∀ c1 : Nat, c1 ≠ c → (sort_channel std_sort s name).channels c1 = s.channels c1) ∧
    (sort_channel std_sort s name).uchannels = s.uchannels := by
  have hdata : (sort_channel std_sort s name).channels
      = setAt s.channels c { s.channels c with
          data := (s.channels c).data.map (fun seg => { seg with data := std_sort seg.data }) } := by
    unfold sort_channel
    simp only [NameMap.index_of_find hreg, hc, if_false, updChan]
  have hmaps : (sort_channel std_sort s name).uchannels = s.uchannels := by
    unfold sort_channel
    simp only [NameMap.index_of_find hreg, hc, if_false, updChan]
  rw [hdata]
  refine ⟨?_, ?_, fun c1 hc1 => ?_, hmaps⟩
  · simp only [setAt, if_true]
    rw [List.forall₂_map_right_iff, List.forall₂_same]
    intro seg _
    exact ⟨rfl, fun hnan => std_sort_sorts seg.data hnan⟩
  · simp only [setAt, if_true, List.length_map]
  · simp only [setAt, if_neg hc1]

/-- Witness of C16 as amended: the samples `(2,1), (0,2), (1,3)` of channel `A` are
replaced by `(0,2), (1,3), (2,1)`. -/
theorem sort_channel_sorts_witness :
    (unsortedState.uchannels.find "A" = some 1 ∧ (1 : Nat) ≠ 0) ∧
    (List.Forall₂
      (fun seg seg1 : Segment => seg1 = { seg with data := std_sort seg.data } ∧
        ((∀ a ∈ seg.data, a.t ≠ Dbl.nan) →
          seg1.data.Perm seg.data ∧ seg1.data.Pairwise (fun a b => Dbl.le a.t b.t = true)))
      (unsortedState.channels 1).data
      ((sort_channel std_sort unsortedState "A").channels 1).data ∧
    ((sort_channel std_sort unsortedState "A").channels 1).data.length
      = (unsortedState.channels 1).data.length ∧
    (∀ c1 : Nat, c1 ≠ 1 →
      (sort_channel std_sort unsortedState "A").channels c1 = unsortedState.channels c1) ∧
    (sort_channel std_sort unsortedState "A").uchannels = unsortedState.uchannels) ∧
    (unsortedState.channels 1).data.map Segment.data
      = [[⟨Dbl.fin 2, Dbl.fin 1⟩, ⟨Dbl.fin 0, Dbl.fin 2⟩, ⟨Dbl.fin 1, Dbl.fin 3⟩]] ∧
    ((sort_channel std_sort unsortedState "A").channels 1).data.map Segment.data
      = [[⟨Dbl.fin 0, Dbl.fin 2⟩, ⟨Dbl.fin 1, Dbl.fin 3⟩, ⟨Dbl.fin 2, Dbl.fin 1⟩]] :=
  ⟨⟨by decide, by decide⟩,
    sort_channel_sorts unsortedState "A" 1 (by decide) (by decide),
    by decide, by decide!⟩

/-! ## Detaching from the parent's member set -/

theorem IdSet.not_mem_erase (s : IdSet) (a : Nat) : a ∉ IdSet.erase s a := by
  unfold IdSet.erase
  simp [List.mem_filter]

/-- After `remove_channel` on a channel registered under an id other than 0 and
bound to a window, the id is no longer in that window's channel set. -/
theorem remove_channel_detaches (s : Instance) (name : String) (c w : Nat)
    (hreg : s.uchannels.find name = some c) (hc : c ≠ 0)
    (hwin : (s.channels c).win = some w) :
    ∃ s1, remove_channel s name = .ok s1 ∧ c ∉ (s1.windows w).channels := by
  unfold remove_channel
  simp only [NameMap.index_of_find hreg, hc, if_false, updChan, setAt, if_true, hwin, updWin]
  refine ⟨_, rfl, ?_⟩
  simp only [setAt, if_true]
  exact IdSet.not_mem_erase _ c

/-- Evaluation for C18: in the state with frame `F` (id 1) owning window `W`
(id 1), the remove-window command (opcode 41) on `W` unregisters the window and
leaves its id 1 in the window set of frame 1. -/
theorem remove_window2_keeps_frame_member :
    configuredState.uwindows.find "W" = some 1 ∧
    (configuredState.windows 1).fr = some 1 ∧
    1 ∈ (configuredState.frames 1).windows ∧
    ∃ s1, listen_step sortByTime configuredState (removeWindowPacket "W") = .ok s1 ∧
      s1.uwindows.find "W" = none ∧ 1 ∈ (s1.frames 1).windows :=
  ⟨by decide, by decide, by decide, _, rfl, by decide, by decide⟩

/-! ## Auto-range -/

theorem ScanPair.initial : ScanPair (maxsample, -maxsample) := by
  refine ⟨?_, ?_, ?_, ?_, Or.inl ⟨rfl, rfl⟩⟩ <;> decide

/-- One sample of the scan keeps the running pair well formed. -/
theorem ScanPair.step (acc : Dbl × Dbl) (x : Dbl) (h : ScanPair acc) :
    ScanPair (if Dbl.gt acc.1 x then x else acc.1, if Dbl.lt acc.2 x then x else acc.2) := by
  obtain ⟨a1, a2⟩ := acc
  obtain ⟨h1, h2, h3, h4, h5⟩ := h
  simp only at h1 h2 h3 h4 h5
  have hM : maxsample = Dbl.fin (10 ^ 36) := rfl
  have hM2 : -maxsample = Dbl.fin (-(10 ^ 36)) := rfl
  rw [hM2, hM] at h5
  unfold ScanPair
  rw [hM2, hM]
  cases x with
  | nan =>
    have e1 : Dbl.gt a1 Dbl.nan = false := by cases a1 <;> rfl
    have e2 : Dbl.lt a2 Dbl.nan = false := by cases a2 <;> rfl
    simp only [e1, e2]
    exact ⟨h1, h2, h3, h4, h5⟩
  | pinf =>
    have e1 : Dbl.gt a1 Dbl.pinf = false := by cases a1 <;> rfl
    simp only [e1]
    cases a2 with
    | nan => exact absurd rfl h3
    | ninf => exact absurd rfl h4
    | pinf =>
      simp only [Dbl.lt]
      exact ⟨h1, h2, h3, h4, h5⟩
    | fin r =>
      simp only [Dbl.lt, if_true]
      refine ⟨h1, h2, by decide, by decide, Or.inr ?_⟩
      cases a1 with
      | nan => exact absurd rfl h1
      | pinf => exact absurd rfl h2
      | ninf => rfl
      | fin p => rfl
  | ninf =>
    have e2 : Dbl.lt a2 Dbl.ninf = false := by cases a2 <;> rfl
    simp only [e2]
    cases a1 with
    | nan => exact absurd rfl h1
    | pinf => exact absurd rfl h2
    | ninf =>
      simp only [Dbl.gt, Dbl.lt]
      exact ⟨h1, h2, h3, h4, h5⟩
    | fin p =>
      simp only [Dbl.gt, Dbl.lt, if_true]
      refine ⟨by decide, by decide, h3, h4, Or.inr ?_⟩
      cases a2 with
      | nan => exact absurd rfl h3
      | ninf => exact absurd rfl h4
      | pinf => rfl
      | fin r => rfl
  | fin q =>
    cases a1 with
    | nan => exact absurd rfl h1
    | pinf => exact absurd rfl h2
    | ninf =>
      have e1 : Dbl.gt Dbl.ninf (Dbl.fin q) = false := rfl
      simp only [e1, Bool.false_eq_true, if_false]
      have hne : (if Dbl.lt a2 (Dbl.fin q) = true then Dbl.fin q else a2) ≠ Dbl.nan := by
        split
        · simp
        · exact h3
      refine ⟨h1, h2, hne, ?_, Or.inr ?_⟩
      · split
        · simp
        · exact h4
      · generalize (if Dbl.lt a2 (Dbl.fin q) = true then Dbl.fin q else a2) = b at hne
        cases b with
        | nan => exact absurd rfl hne
        | ninf => rfl
        | pinf => rfl
        | fin r => rfl
    | fin p =>
      cases a2 with
      | nan => exact absurd rfl h3
      | ninf => exact absurd rfl h4
      | pinf =>
        have e2 : Dbl.lt Dbl.pinf (Dbl.fin q) = false := rfl
        simp only [e2]
        refine ⟨?_, ?_, h3, h4, Or.inr ?_⟩
        · split <;> simp
        · split <;> simp
        · split <;> rfl
      | fin r =>
        simp only [Dbl.gt, Dbl.lt, decide_eq_true_eq]
        have h5' : (p = 10 ^ 36 ∧ r = -(10 ^ 36)) ∨ p ≤ r := by
          rcases h5 with ⟨e1, e2⟩ | e
          · exact Or.inl ⟨Dbl.fin.inj e1, Dbl.fin.inj e2⟩
          · exact Or.inr (by simpa [Dbl.le] using e)
        refine ⟨?_, ?_, ?_, ?_, Or.inr ?_⟩
        · split <;> simp
        · split <;> simp
        · split <;> simp
        · split <;> simp
        · by_cases c1 : q < p <;> by_cases c2 : r < q <;>
            simp only [c1, c2, if_true, if_false, Dbl.le, decide_eq_true_eq]
          · exact le_rfl
          · rcases h5' with ⟨e1, e2⟩ | e
            · linarith
            · linarith
          · linarith
          · rcases h5' with ⟨e1, e2⟩ | e
            · exfalso
              rw [e1] at c1
              rw [e2] at c2
              have : (-(10 : ℚ) ^ 36) < 10 ^ 36 := by norm_num
              linarith
            · exact e

theorem findminmax_scan_pair (seg : Segment) (c1 skip : Int) :
    ∀ (fuel : Nat) (q1 : Int) (acc : Dbl × Dbl), ScanPair acc →
      ScanPair (findminmax_scan seg c1 skip fuel q1 acc)
  | 0, _, _, h => h
  | fuel + 1, q1, acc, h => by
    unfold findminmax_scan
    split
    · exact findminmax_scan_pair seg c1 skip fuel _ _ (ScanPair.step acc _ h)
    · exact h

/-- With a step of at least 1 the scan ends within `q1 - c1 + 1` iterations: extra
fuel does not change its result. -/
theorem findminmax_scan_fuel (seg : Segment) (c1 skip : Int) (hskip : 1 ≤ skip) :
    ∀ (fuel k : Nat) (q1 : Int) (acc : Dbl × Dbl), q1 - c1 + 1 ≤ fuel →
      findminmax_scan seg c1 skip (fuel + k) q1 acc = findminmax_scan seg c1 skip fuel q1 acc := by
  intro fuel
  induction fuel with
  | zero =>
    intro k q1 acc hf
    cases k with
    | zero => rfl
    | succ k =>
      have : ¬ q1 ≥ c1 := by omega
      simp [findminmax_scan, this]
  | succ fuel ih =>
    intro k q1 acc hf
    have hk : fuel + 1 + k = (fuel + k) + 1 := by omega
    rw [hk]
    unfold findminmax_scan
    by_cases hge : q1 ≥ c1
    · simp only [hge, if_true]
      exact ih k (q1 - skip) _ (by omega)
    · simp only [hge, if_false]

/-- With `minskip >= 0`, the step over a non-empty index range is at least 1. -/
theorem findminmax_skip_pos (minskip : Int) (segment : Segment) (h : 0 ≤ minskip)
    (hc : segment.c1 ≤ segment.c2) : 1 ≤ findminmax_skip minskip segment := by
  have h0 : 0 ≤ (segment.c2 - segment.c1 + 1).tdiv 128 := by
    rw [Int.tdiv_eq_ediv (by omega) (by norm_num)]
    exact Int.ediv_nonneg (by omega) (by norm_num)
  unfold findminmax_skip
  simp only
  by_cases hz : (segment.c2 - segment.c1 + 1).tdiv 128 = 0
  · simp only [hz, if_true]
    split
    · exact le_min le_rfl (by omega)
    · exact le_rfl
  · simp only [hz, if_false]
    split
    · exact le_min (by omega) (by omega)
    · omega

theorem findminmax_segment_pair (minskip : Int) (h : 0 ≤ minskip) (acc : Dbl × Dbl)
    (segment : Segment) (hacc : ScanPair acc) :
    ∃ m, findminmax_segment minskip acc segment = some m ∧ ScanPair m := by
  unfold findminmax_segment
  rw [if_neg]
  · exact ⟨_, rfl, findminmax_scan_pair _ _ _ _ _ _ hacc⟩
  · rintro ⟨h1, h2⟩
    have := findminmax_skip_pos minskip segment h h2
    omega

theorem findminmax_segments_pair (minskip : Int) (h : 0 ≤ minskip) :
    ∀ (segs : List Segment) (acc : Dbl × Dbl), ScanPair acc →
      ∃ m, segs.foldlM (findminmax_segment minskip) acc = some m ∧ ScanPair m
  | [], acc, hacc => ⟨acc, rfl, hacc⟩
  | seg :: segs, acc, hacc => by
    obtain ⟨m, hm, hp⟩ := findminmax_segment_pair minskip h acc seg hacc
    obtain ⟨m1, hm1, hp1⟩ := findminmax_segments_pair minskip h segs m hp
    refine ⟨m1, ?_, hp1⟩
    rw [List.foldlM_cons, hm]
    exact hm1

theorem findminmax_channels_pair (s : Instance) (minskip : Int) (h : 0 ≤ minskip) :
    ∀ (cs : List Nat) (acc : Dbl × Dbl), ScanPair acc →
      ∃ m, cs.foldlM (findminmax_channel s minskip) acc = some m ∧ ScanPair m
  | [], acc, hacc => ⟨acc, rfl, hacc⟩
  | c :: cs, acc, hacc => by
    have hc : ∃ m, findminmax_channel s minskip acc c = some m ∧ ScanPair m := by
      unfold findminmax_channel
      split
      · exact findminmax_segments_pair minskip h _ acc hacc
      · exact ⟨acc, rfl, hacc⟩
    obtain ⟨m, hm, hp⟩ := hc
    obtain ⟨m1, hm1, hp1⟩ := findminmax_channels_pair s minskip h cs m hp
    refine ⟨m1, ?_, hp1⟩
    rw [List.foldlM_cons, hm]
    exact hm1

/-- After the two replacements the pair satisfies `mn < mx`. -/
theorem findminmax_default_lt (m : Dbl × Dbl) (h : ScanPair m) :
    Dbl.lt (findminmax_default m).1 (findminmax_default m).2 = true := by
  obtain ⟨a, b⟩ := m
  obtain ⟨h1, h2, h3, h4, h5⟩ := h
  simp only at h1 h2 h3 h4 h5
  unfold findminmax_default
  simp only
  by_cases hs : (Dbl.eq a maxsample || Dbl.eq b (-maxsample)) = true
  · rw [if_pos hs]
    decide
  · rw [if_neg hs]
    have hle : Dbl.le a b = true := by
      rcases h5 with ⟨e1, e2⟩ | e
      · exfalso
        apply hs
        rw [e1]
        have : Dbl.eq maxsample maxsample = true := by decide
        rw [this, Bool.true_or]
      · exact e
    cases a with
    | nan => exact absurd rfl h1
    | pinf => exact absurd rfl h2
    | ninf =>
      cases b with
      | nan => exact absurd rfl h3
      | ninf => exact absurd rfl h4
      | pinf => rfl
      | fin r => rfl
    | fin p =>
      cases b with
      | nan => exact absurd rfl h3
      | ninf => exact absurd rfl h4
      | pinf => rfl
      | fin r =>
        have hpr : p ≤ r := by simpa [Dbl.le] using hle
        by_cases he : p = r
        · subst he
          have : Dbl.eq (Dbl.fin p) (Dbl.fin p) = true := by simp [Dbl.eq]
          rw [if_pos this, Dbl.fin_sub, Dbl.fin_add]
          simp only [Dbl.lt, decide_eq_true_eq]
          linarith
        · have : ¬ (Dbl.eq (Dbl.fin p) (Dbl.fin r) = true) := by
            simp [Dbl.eq, he]
          rw [if_neg this]
          simp only [Dbl.lt, decide_eq_true_eq]
          exact lt_of_le_of_ne hpr he

/-- With `minskip >= 0`, the scan of `findminmax` ends and yields `mn < mx`. -/
theorem findminmax_extrema_total (s : Instance) (w : Nat) (h : 0 ≤ (s.windows w).minskip) :
    ∃ m, findminmax_extrema s w = some m ∧ Dbl.lt m.1 m.2 = true := by
  obtain ⟨m, hm, hp⟩ := findminmax_channels_pair s (s.windows w).minskip h
    (s.windows w).channels (maxsample, -maxsample) ScanPair.initial
  refine ⟨findminmax_default m, ?_, findminmax_default_lt m hp⟩
  unfold findminmax_extrema
  rw [hm]
  rfl

theorem Dbl.eq_of_eq_true {a b : Dbl} (h : Dbl.eq a b = true) : a = b := by
  cases a <;> cases b <;> simp_all [Dbl.eq]

/-- The padded bounds are a fixed point of the hysteresis test: with
`top = mx + (mx-mn)/20` and `bottom = mn - (mx-mn)/20` the test is false. -/
theorem findminmax_exceeds_padded (a b : Dbl) (h : Dbl.lt a b = true) :
    findminmax_exceeds (a, b) (b + (b - a) / Dbl.fin 20) (a - (b - a) / Dbl.fin 20) = false := by
  have h20 : Dbl.pinf / Dbl.fin 20 = Dbl.pinf := by decide!
  cases a with
  | nan => simp [Dbl.lt] at h
  | pinf => cases b <;> simp [Dbl.lt] at h
  | ninf =>
    cases b with
    | nan => simp [Dbl.lt] at h
    | ninf => simp [Dbl.lt] at h
    | pinf =>
      have e : Dbl.pinf - Dbl.ninf = Dbl.pinf := rfl
      rw [e, h20]
      decide!
    | fin r =>
      have e : Dbl.fin r - Dbl.ninf = Dbl.pinf := rfl
      rw [e, h20]
      have e1 : Dbl.fin r + Dbl.pinf = Dbl.pinf := rfl
      have e2 : Dbl.ninf - Dbl.pinf = Dbl.ninf := rfl
      rw [e1, e2]
      unfold findminmax_exceeds
      simp only [e]
      have e3 : (Dbl.pinf - Dbl.ninf) / Dbl.fin 3 = Dbl.pinf := by decide!
      rw [e3]
      rfl
  | fin p =>
    cases b with
    | nan => simp [Dbl.lt] at h
    | ninf => simp [Dbl.lt] at h
    | pinf =>
      have e : Dbl.pinf - Dbl.fin p = Dbl.pinf := rfl
      rw [e, h20]
      have e1 : Dbl.pinf + Dbl.pinf = Dbl.pinf := rfl
      have e2 : Dbl.fin p - Dbl.pinf = Dbl.ninf := rfl
      rw [e1, e2]
      unfold findminmax_exceeds
      simp only [e]
      have e3 : (Dbl.pinf - Dbl.ninf) / Dbl.fin 3 = Dbl.pinf := by decide!
      rw [e3]
      rfl
    | fin r =>
      have hpr : p < r := by simpa [Dbl.lt] using h
      rw [Dbl.fin_sub, Dbl.fin_div _ _ (by norm_num), Dbl.fin_add, Dbl.fin_sub]
      unfold findminmax_exceeds
      simp only [Dbl.fin_sub, Dbl.fin_div _ _ (by norm_num : (3 : ℚ) ≠ 0), Dbl.gt, Dbl.lt,
        Bool.or_eq_false_iff, decide_eq_false_iff_not, not_lt]
      refine ⟨⟨?_, ?_⟩, ?_⟩ <;> linarith

/-- Applying the bounds computation to its own result gives that result again. -/
theorem findminmax_bounds_idem (m : Dbl × Dbl) (top bottom : Dbl)
    (h : Dbl.lt m.1 m.2 = true) :
    findminmax_bounds m (findminmax_bounds m top bottom).1 (findminmax_bounds m top bottom).2
      = findminmax_bounds m top bottom := by
  by_cases he : findminmax_exceeds m top bottom = true
  · have h1 : findminmax_bounds m top bottom
        = (m.2 + (m.2 - m.1) / Dbl.fin 20, m.1 - (m.2 - m.1) / Dbl.fin 20) := by
      unfold findminmax_bounds
      rw [if_pos he]
    rw [h1]
    unfold findminmax_bounds
    simp only
    rw [findminmax_exceeds_padded m.1 m.2 h]
    simp
  · have h1 : findminmax_bounds m top bottom = (top, bottom) := by
      unfold findminmax_bounds
      rw [if_neg he]
    rw [h1]
    exact h1

/-- What one call of `findminmax` leaves: the window's bounds are the computed
pair, and nothing that the scan reads has changed. -/
theorem findminmax_result (s : Instance) (w : Nat) (m : Dbl × Dbl)
    (hm : findminmax_extrema s w = some m) :
    ∃ s1, findminmax s w = some s1 ∧
      (s1.windows w).top = (findminmax_bounds m (s.windows w).top (s.windows w).bottom).1 ∧
      (s1.windows w).bottom = (findminmax_bounds m (s.windows w).top (s.windows w).bottom).2 ∧
      s1.channels = s.channels ∧ (s1.windows w).channels = (s.windows w).channels ∧
      (s1.windows w).minskip = (s.windows w).minskip := by
  unfold findminmax
  rw [hm]
  simp only
  split
  · refine ⟨_, rfl, ?_, ?_, rfl, ?_, ?_⟩ <;> simp [updWin, setAt]
  · rename_i hne
    have h1 : Dbl.eq (findminmax_bounds m (s.windows w).top (s.windows w).bottom).1
        (s.windows w).top = true := by
      simpa [Dbl.ne] using (Bool.or_eq_false_iff.mp (Bool.eq_false_iff.mpr hne)).1
    have h2 : Dbl.eq (findminmax_bounds m (s.windows w).top (s.windows w).bottom).2
        (s.windows w).bottom = true := by
      simpa [Dbl.ne] using (Bool.or_eq_false_iff.mp (Bool.eq_false_iff.mpr hne)).2
    exact ⟨s, rfl, (Dbl.eq_of_eq_true h1).symm, (Dbl.eq_of_eq_true h2).symm, rfl, rfl, rfl⟩

/-- The scan reads only the channel records and the window's member set and
`minskip`. -/
theorem findminmax_extrema_congr (s s1 : Instance) (w : Nat)
    (h1 : s1.channels = s.channels) (h2 : (s1.windows w).channels = (s.windows w).channels)
    (h3 : (s1.windows w).minskip = (s.windows w).minskip) :
    findminmax_extrema s1 w = findminmax_extrema s w := by
  have hc : findminmax_channel s1 = findminmax_channel s := by
    funext minskip acc c
    unfold findminmax_channel
    rw [h1]
  unfold findminmax_extrema
  rw [h2, h3, hc]

/-- C13: for every state and window slot with `minskip >= 0` (every prior
`(top, bottom)`, every channel data, every cached `[c1,c2]`), `findminmax`
returns, and applying it a second time with nothing else changed leaves the same
`(top, bottom)` as the first call. -/
theorem findminmax_idempotent (s : Instance) (w : Nat) (h : 0 ≤ (s.windows w).minskip) :
    ∃ s1 s2, findminmax s w = some s1 ∧ findminmax s1 w = some s2 ∧
      (s2.windows w).top = (s1.windows w).top ∧
      (s2.windows w).bottom = (s1.windows w).bottom := by
  obtain ⟨m, hm, hlt⟩ := findminmax_extrema_total s w h
  obtain ⟨s1, hs1, ht, hb, hch, hwc, hms⟩ := findminmax_result s w m hm
  have hm1 : findminmax_extrema s1 w = some m :=
    (findminmax_extrema_congr s s1 w hch hwc hms).trans hm
  obtain ⟨s2, hs2, ht2, hb2, -, -, -⟩ := findminmax_result s1 w m hm1
  refine ⟨s1, s2, hs1, hs2, ?_, ?_⟩
  · rw [ht2, ht, hb, findminmax_bounds_idem m _ _ hlt]
  · rw [hb2, ht, hb, findminmax_bounds_idem m _ _ hlt]

/-- Witness of C13: the window of the samples `(0,0), (1,1), (2,4)`; the first call
moves the bounds from `(1, 0)` to `(4.2, -0.2)`. -/
theorem findminmax_idempotent_witness :
    (∃ s1 s2, findminmax rangedState 1 = some s1 ∧ findminmax s1 1 = some s2 ∧
      (s2.windows 1).top = (s1.windows 1).top ∧
      (s2.windows 1).bottom = (s1.windows 1).bottom) ∧
    (findminmax rangedState 1).map (fun s1 => ((s1.windows 1).top, (s1.windows 1).bottom))
      = some (Dbl.fin (21 / 5), Dbl.fin (-1 / 5)) :=
  ⟨findminmax_idempotent rangedState 1 (by decide!), by decide!⟩

/-- Evaluation for C14: the auto-ranged window with bounds `top = 10`,
`bottom = 5` shows one active channel whose only scanned sample has the accepted
value `x = 1e36`.  `findminmax` takes the pair `(mn, mx)` for the "no sample"
case, `(0, 1)`, and sets `top = 1.05`, `bottom = -0.05`, instead of
`1e36 + 0.55` and `1e36 - 0.55`. -/
theorem findminmax_sentinel_sample :
    accept (Dbl.fin (10 ^ 36)) = true ∧
    (sentinelState.windows 1).channels = [1] ∧
    (sentinelState.channels 1).active = 1 ∧
    (sentinelState.channels 1).data.map (fun seg => (seg.data, seg.c1, seg.c2))
      = [([⟨Dbl.fin 0, Dbl.fin (10 ^ 36)⟩], 0, 0)] ∧
    (sentinelState.windows 1).top = Dbl.fin 10 ∧
    (sentinelState.windows 1).bottom = Dbl.fin 5 ∧
    findminmax_extrema sentinelState 1 = some (Dbl.fin 0, Dbl.fin 1) ∧
    (findminmax sentinelState 1).map
        (fun s1 => ((s1.windows 1).top, (s1.windows 1).bottom, (s1.windows 1).reconfigured))
      = some (Dbl.fin (21 / 20), Dbl.fin (-1 / 20), 1) ∧
    (findminmax sentinelState 1).map (fun s1 => (s1.windows 1).top)
      ≠ some (Dbl.fin (10 ^ 36 + 11 / 20)) := by
  refine ⟨by decide!, by decide!, by decide!, by decide!, by decide!, by decide!, by decide!,
    by decide!, by decide!⟩

/-! ## Name maps: lookup after erase and assign -/

theorem sameLinks_refl (s : Instance) : SameLinks s s :=
  ⟨rfl, rfl, fun _ => rfl, fun _ => ⟨rfl, rfl⟩⟩

theorem sameLinks_trans {a b c : Instance} (h1 : SameLinks a b) (h2 : SameLinks b c) :
    SameLinks a c :=
  ⟨h2.1.trans h1.1, h2.2.1.trans h1.2.1, fun w => (h2.2.2.1 w).trans (h1.2.2.1 w),
   fun x => ⟨(h2.2.2.2 x).1.trans (h1.2.2.2 x).1, (h2.2.2.2 x).2.trans (h1.2.2.2 x).2⟩⟩

/-- States that differ only outside the channel and window records and the two
name maps have the same linkage. -/
theorem SameLinks.of_eq {s s1 : Instance} (h1 : s1.channels = s.channels)
    (h2 : s1.windows = s.windows) (h3 : s1.uchannels = s.uchannels)
    (h4 : s1.uwindows = s.uwindows) : SameLinks s s1 :=
  ⟨h3, h4, fun w => by rw [h2], fun c => by rw [h1]; exact ⟨rfl, rfl⟩⟩

theorem sameLinks_updFrame (s : Instance) (f : Nat) (g : FrameInfo → FrameInfo) :
    SameLinks s (updFrame s f g) := SameLinks.of_eq rfl rfl rfl rfl

theorem sameLinks_updChan (s : Instance) (c : Nat) (g : ChanInfo → ChanInfo)
    (hg : ∀ ch, (g ch).name = ch.name ∧ (g ch).win = ch.win) :
    SameLinks s (updChan s c g) := by
  refine ⟨rfl, rfl, fun _ => rfl, fun x => ?_⟩
  simp only [updChan, setAt]
  split
  · rename_i h; rw [h]; exact hg _
  · exact ⟨rfl, rfl⟩

theorem sameLinks_updWin (s : Instance) (w : Nat) (g : WindowInfo → WindowInfo)
    (hg : ∀ win, (g win).channels = win.channels) :
    SameLinks s (updWin s w g) := by
  refine ⟨rfl, rfl, fun x => ?_, fun _ => ⟨rfl, rfl⟩⟩
  simp only [updWin, setAt]
  split
  · rename_i h; rw [h]; exact hg _
  · rfl

theorem sameLinks_clear_data_id (s : Instance) (c : Nat) :
    SameLinks s (clear_data_id s c) :=
  sameLinks_updChan s c (fun ch => { ch with data := [], data2 := {} }) (fun _ => ⟨rfl, rfl⟩)

theorem sameLinks_foldl {α : Type} (f : Instance → α → Instance)
    (hf : ∀ st x, SameLinks st (f st x)) :
    ∀ (l : List α) (s : Instance), SameLinks s (l.foldl f s) := by
  intro l
  induction l with
  | nil => intro s; exact sameLinks_refl s
  | cons x rest ih => intro s; exact sameLinks_trans (hf s x) (ih (f s x))

theorem IdSet.mem_insert {a b : Nat} : ∀ {s : IdSet}, b ∈ IdSet.insert s a ↔ b = a ∨ b ∈ s
  | [] => by simp [IdSet.insert]
  | x :: rest => by
    have ih := @IdSet.mem_insert a b rest
    unfold IdSet.insert
    split
    · simp
    · split
      · rename_i h1 h2
        simp only [List.mem_cons]
        constructor
        · intro h; exact Or.inr h
        · rintro (h | h)
          · left; rw [h, h2]
          · exact h
      · simp only [List.mem_cons, ih]
        tauto

theorem sameLinks_configchannel_option (w c : Nat) (s : Instance) (i : String × Dbl) :
    SameLinks s (configchannel_option w c s i) := by
  have hwin : ∀ (st : Instance) (g : WindowInfo → WindowInfo),
      (∀ win, (g win).channels = win.channels) → SameLinks s st →
      SameLinks s (updWin st w g) :=
    fun st g hg hst => sameLinks_trans hst (sameLinks_updWin st w g hg)
  have hchan : ∀ (st : Instance) (g : ChanInfo → ChanInfo),
      (∀ ch, (g ch).name = ch.name ∧ (g ch).win = ch.win) → SameLinks s st →
      SameLinks s (updChan st c g) :=
    fun st g hg hst => sameLinks_trans hst (sameLinks_updChan st c g hg)
  have kc : ∀ (key : String) (g : ChanInfo → ChanInfo) (x : Instance),
      (∀ ch, (g ch).name = ch.name ∧ (g ch).win = ch.win) → SameLinks s x →
      SameLinks s (whenKey i key (fun st => updChan st c g) x) :=
    fun key g x hg hx => whenKey_pres (SameLinks s) i key _ x (fun st hst => hchan st g hg hst) hx
  have kw : ∀ (key : String) (g : WindowInfo → WindowInfo) (x : Instance),
      (∀ win, (g win).channels = win.channels) → SameLinks s x →
      SameLinks s (whenKey i key (fun st => updWin st w g) x) :=
    fun key g x hg hx => whenKey_pres (SameLinks s) i key _ x (fun st hst => hwin st g hg hst) hx
  unfold configchannel_option
  refine whenKey_pres (SameLinks s) _ _ _ _ (fun st hst => ?_) ?_
  · split
    · exact sameLinks_trans hst (sameLinks_clear_data_id st c)
    · exact hst
  iterate 11 refine kc _ _ _ (fun _ => ⟨rfl, rfl⟩) ?_
  iterate 6 refine kw _ _ _ (fun _ => rfl) ?_
  refine whenKey_pres (SameLinks s) _ _ _ _ (fun st hst => ?_) ?_
  · split
    · exact hwin st _ (fun _ => rfl) hst
    · exact hst
  refine whenKey_pres (SameLinks s) _ _ _ _ (fun st hst => ?_) (sameLinks_refl s)
  split
  · exact hwin st _ (fun _ => rfl) hst
  · exact hst

theorem sameLinks_configchannel_options (w c : Nat) (e1 : List (String × Dbl)) (s : Instance) :
    SameLinks s (e1.foldl (configchannel_option w c) s) :=
  sameLinks_foldl _ (sameLinks_configchannel_option w c) e1 s

theorem WellLinked.empty : WellLinked Instance.empty :=
  ⟨fun _ h => Option.noConfusion h, fun _ h => Option.noConfusion h,
   fun _ _ hc => absurd hc (List.not_mem_nil _)⟩

/-- Whenever the scan of one segment ends, it keeps the running pair well
formed. -/
theorem findminmax_segment_some (minskip : Int) (acc m : Dbl × Dbl) (segment : Segment)
    (h : findminmax_segment minskip acc segment = some m) (hacc : ScanPair acc) :
    ScanPair m := by
  unfold findminmax_segment at h
  split at h
  · exact Option.noConfusion h
  · rw [← Option.some.inj h]
    exact findminmax_scan_pair _ _ _ _ _ _ hacc

theorem findminmax_segments_some (minskip : Int) :
    ∀ (segs : List Segment) (acc m : Dbl × Dbl),
      segs.foldlM (findminmax_segment minskip) acc = some m → ScanPair acc → ScanPair m
  | [], acc, m, h, hacc => by
    have h' : some acc = some m := h
    rw [← Option.some.inj h']; exact hacc
  | seg :: segs, acc, m, h, hacc => by
    rw [List.foldlM_cons] at h
    cases h1 : findminmax_segment minskip acc seg with
    | none => rw [h1] at h; exact Option.noConfusion h
    | some m1 =>
      rw [h1] at h
      exact findminmax_segments_some minskip segs m1 m h
        (findminmax_segment_some minskip acc m1 seg h1 hacc)

theorem findminmax_channels_some (s : Instance) (minskip : Int) :
    ∀ (cs : List Nat) (acc m : Dbl × Dbl),
      cs.foldlM (findminmax_channel s minskip) acc = some m → ScanPair acc → ScanPair m
  | [], acc, m, h, hacc => by
    have h' : some acc = some m := h
    rw [← Option.some.inj h']; exact hacc
  | c :: cs, acc, m, h, hacc => by
    rw [List.foldlM_cons] at h
    cases h1 : findminmax_channel s minskip acc c with
    | none => rw [h1] at h; exact Option.noConfusion h
    | some m1 =>
      rw [h1] at h
      refine findminmax_channels_some s minskip cs m1 m h ?_
      unfold findminmax_channel at h1
      split at h1
      · exact findminmax_segments_some minskip _ acc m1 h1 hacc
      · rw [← Option.some.inj h1]; exact hacc

/-- Whenever the scan of `findminmax` ends, the pair it works with satisfies
`mn < mx`. -/
theorem findminmax_extrema_lt (s : Instance) (w : Nat) (m : Dbl × Dbl)
    (h : findminmax_extrema s w = some m) : Dbl.lt m.1 m.2 = true := by
  unfold findminmax_extrema at h
  cases h1 : (s.windows w).channels.foldlM (findminmax_channel s (s.windows w).minskip)
      (maxsample, -maxsample) with
  | none => rw [h1] at h; exact Option.noConfusion h
  | some m0 =>
    rw [h1] at h
    have h' : some (findminmax_default m0) = some m := h
    rw [← Option.some.inj h']
    exact findminmax_default_lt m0
      (findminmax_channels_some s _ _ _ m0 h1 ScanPair.initial)

/-- Counterexample to C21: the window has `top = 100`, `bottom = -100` and the
scan yields `mn = 0`, `mx = 4`.  The maximum does not exceed the top, the
minimum is not below the bottom, and the current spread 200 is not less than one
third of the new spread 4; yet `findminmax` changes the bounds, to `4.2` and
`-0.2`. -/
theorem findminmax_hysteresis_counterexample :
    (wideState.windows 1).top = Dbl.fin 100 ∧
    (wideState.windows 1).bottom = Dbl.fin (-100) ∧
    findminmax_extrema wideState 1 = some (Dbl.fin 0, Dbl.fin 4) ∧
    Dbl.gt (Dbl.fin 4) (wideState.windows 1).top = false ∧
    Dbl.lt (Dbl.fin 0) (wideState.windows 1).bottom = false ∧
    Dbl.lt ((wideState.windows 1).top - (wideState.windows 1).bottom)
      ((Dbl.fin 4 - Dbl.fin 0) / Dbl.fin 3) = false ∧
    (findminmax wideState 1).map (fun s1 => ((s1.windows 1).top, (s1.windows 1).bottom))
      = some (Dbl.fin (21 / 5), Dbl.fin (-1 / 5)) := by
  refine ⟨by decide!, by decide!, by decide!, by decide!, by decide!, by decide!, by decide!⟩

/-- C21 as amended: when the scan of `findminmax` ends with the pair `(mn, mx)`,
the call returns; the stored bounds are replaced by the padded pair if `mx`
exceeds the current top, or `mn` is below the current bottom, or the new spread
`mx - mn` is less than one third of the current spread `top - bottom`; in every
other case the prior bounds are kept. -/
theorem findminmax_hysteresis (s : Instance) (w : Nat) (m : Dbl × Dbl)
    (hm : findminmax_extrema s w = some m) :
    ∃ s1, findminmax s w = some s1 ∧
      ((Dbl.gt m.2 (s.windows w).top = true ∨ Dbl.lt m.1 (s.windows w).bottom = true ∨
          Dbl.lt (m.2 - m.1) (((s.windows w).top - (s.windows w).bottom) / Dbl.fin 3) = true) →
        (s1.windows w).top = m.2 + (m.2 - m.1) / Dbl.fin 20 ∧
        (s1.windows w).bottom = m.1 - (m.2 - m.1) / Dbl.fin 20) ∧
      (Dbl.gt m.2 (s.windows w).top = false → Dbl.lt m.1 (s.windows w).bottom = false →
        Dbl.lt (m.2 - m.1) (((s.windows w).top - (s.windows w).bottom) / Dbl.fin 3) = false →
        (s1.windows w).top = (s.windows w).top ∧
        (s1.windows w).bottom = (s.windows w).bottom) := by
  obtain ⟨s1, hs1, ht, hb, -, -, -⟩ := findminmax_result s w m hm
  refine ⟨s1, hs1, fun hex => ?_, fun h1 h2 h3 => ?_⟩
  · have he : findminmax_exceeds m (s.windows w).top (s.windows w).bottom = true := by
      unfold findminmax_exceeds
      rcases hex with h | h | h
      · rw [h]; rfl
      · rw [h, Bool.or_true, Bool.true_or]
      · rw [h, Bool.or_true]
    rw [ht, hb]
    unfold findminmax_bounds
    rw [if_pos he]
    exact ⟨rfl, rfl⟩
  · have he : ¬ (findminmax_exceeds m (s.windows w).top (s.windows w).bottom = true) := by
      unfold findminmax_exceeds
      rw [h1, h2, h3]
      decide
    rw [ht, hb]
    unfold findminmax_bounds
    rw [if_neg he]
    exact ⟨rfl, rfl⟩

/-- Witness of C21 as amended: the window with bounds `(100, -100)` and the scanned
pair `(0, 4)`, where the new spread is below a third of the current one. -/
theorem findminmax_hysteresis_witness :
    ∃ s1, findminmax wideState 1 = some s1 ∧
      ((Dbl.gt (Dbl.fin 4) (wideState.windows 1).top = true ∨
          Dbl.lt (Dbl.fin 0) (wideState.windows 1).bottom = true ∨
          Dbl.lt (Dbl.fin 4 - Dbl.fin 0)
            (((wideState.windows 1).top - (wideState.windows 1).bottom) / Dbl.fin 3) = true) →
        (s1.windows 1).top = Dbl.fin 4 + (Dbl.fin 4 - Dbl.fin 0) / Dbl.fin 20 ∧
        (s1.windows 1).bottom = Dbl.fin 0 - (Dbl.fin 4 - Dbl.fin 0) / Dbl.fin 20) ∧
      (Dbl.gt (Dbl.fin 4) (wideState.windows 1).top = false →
        Dbl.lt (Dbl.fin 0) (wideState.windows 1).bottom = false →
        Dbl.lt (Dbl.fin 4 - Dbl.fin 0)
            (((wideState.windows 1).top - (wideState.windows 1).bottom) / Dbl.fin 3) = false →
        (s1.windows 1).top = (wideState.windows 1).top ∧
        (s1.windows 1).bottom = (wideState.windows 1).bottom) :=
  findminmax_hysteresis wideState 1 (Dbl.fin 0, Dbl.fin 4) (by decide!)

/-- Evaluation for C22: window `W` shows tab 1; channel `B` is on tab 2.  With the
sample `(0,100)` in `B` the call sets the bounds `(105, -5)`, with the sample
`(0,50)` in `B` it sets `(52.5, -2.5)`: the samples of a channel outside the
current tab decide the bounds. -/
theorem findminmax_other_tab :
    ((tabState 100).windows 1).curtab = 1 ∧ ((tabState 50).windows 1).curtab = 1 ∧
    ((tabState 100).channels 2).wintab = 2 ∧ ((tabState 50).channels 2).wintab = 2 ∧
    ((tabState 100).channels 1).data = ((tabState 50).channels 1).data ∧
    ((tabState 100).windows 1).top = ((tabState 50).windows 1).top ∧
    ((tabState 100).windows 1).bottom = ((tabState 50).windows 1).bottom ∧
    (findminmax (tabState 100) 1).map (fun s1 => ((s1.windows 1).top, (s1.windows 1).bottom))
      = some (Dbl.fin 105, Dbl.fin (-5)) ∧
    (findminmax (tabState 50) 1).map (fun s1 => ((s1.windows 1).top, (s1.windows 1).bottom))
      = some (Dbl.fin (105 / 2), Dbl.fin (-5 / 2)) := by
  refine ⟨by decide!, by decide!, by decide!, by decide!, by decide!, by decide!, by decide!,
    by decide!, by decide!⟩

/-- Among values that are not NaN, `a < b` fails only when `b <= a`. -/
theorem Dbl.le_of_lt_eq_false {a b : Dbl} (ha : a ≠ Dbl.nan) (hb : b ≠ Dbl.nan)
    (h : Dbl.lt a b = false) : Dbl.le b a = true := by
  cases a <;> cases b <;> simp_all [Dbl.le, Dbl.lt]

theorem Dbl.lt_of_le_of_lt {a b c : Dbl} (h1 : Dbl.le a b = true) (h2 : Dbl.lt b c = true) :
    Dbl.lt a c = true := by
  cases a <;> cases b <;> cases c <;> simp_all [Dbl.le, Dbl.lt]
  exact h1.trans_lt h2

theorem Dbl.lt_of_lt_of_le {a b c : Dbl} (h1 : Dbl.lt a b = true) (h2 : Dbl.le b c = true) :
    Dbl.lt a c = true := by
  cases a <;> cases b <;> cases c <;> simp_all [Dbl.le, Dbl.lt]
  exact h1.trans_le h2

theorem Dbl.lt_left_ne_nan {a b : Dbl} (h : Dbl.lt a b = true) : a ≠ Dbl.nan := by
  intro ha; rw [ha] at h; simp [Dbl.lt] at h

theorem Dbl.lt_right_ne_nan {a b : Dbl} (h : Dbl.lt a b = true) : b ≠ Dbl.nan := by
  intro hb; rw [hb] at h; cases a <;> simp [Dbl.lt] at h

/-- The padded pair: its top is above its bottom, and their difference is 1.1
times the positive spread `mx - mn`. -/
theorem findminmax_padded_spread (a b : Dbl) (h : Dbl.lt a b = true) :
    Dbl.gt (b + (b - a) / Dbl.fin 20) (a - (b - a) / Dbl.fin 20) = true ∧
    (b + (b - a) / Dbl.fin 20) - (a - (b - a) / Dbl.fin 20) = Dbl.fin (11 / 10) * (b - a) ∧
    Dbl.gt (b - a) (Dbl.fin 0) = true := by
  have h20 : Dbl.pinf / Dbl.fin 20 = Dbl.pinf := by decide!
  have h11 : Dbl.fin (11 / 10) * Dbl.pinf = Dbl.pinf := by decide!
  cases a with
  | nan => simp [Dbl.lt] at h
  | pinf => cases b <;> simp [Dbl.lt] at h
  | ninf =>
    cases b with
    | nan => simp [Dbl.lt] at h
    | ninf => simp [Dbl.lt] at h
    | pinf =>
      have e : Dbl.pinf - Dbl.ninf = Dbl.pinf := rfl
      rw [e, h20, h11]
      exact ⟨rfl, rfl, rfl⟩
    | fin r =>
      have e : Dbl.fin r - Dbl.ninf = Dbl.pinf := rfl
      rw [e, h20, h11]
      exact ⟨rfl, rfl, rfl⟩
  | fin p =>
    cases b with
    | nan => simp [Dbl.lt] at h
    | ninf => simp [Dbl.lt] at h
    | pinf =>
      have e : Dbl.pinf - Dbl.fin p = Dbl.pinf := rfl
      rw [e, h20, h11]
      exact ⟨rfl, rfl, rfl⟩
    | fin r =>
      have hpr : p < r := by simpa [Dbl.lt] using h
      rw [Dbl.fin_sub, Dbl.fin_div _ _ (by norm_num), Dbl.fin_add, Dbl.fin_sub, Dbl.fin_sub,
        Dbl.fin_mul]
      refine ⟨?_, ?_, ?_⟩
      · simp only [Dbl.gt, Dbl.lt, decide_eq_true_eq]
        linarith
      · congr 1
        ring
      · simp only [Dbl.gt, Dbl.lt, decide_eq_true_eq]
        linarith

/-- Counterexample to C23.  First, the window was configured with `top = NaN`
(and the default `bottom = 0`); the scan yields `(0, 4)`, no test of the
hysteresis rule holds, the bounds are kept, and `top > bottom` is false after
the call.  Second, the window was configured with `minskp = -1`: the scan steps
away from the visible range and the call never returns. -/
theorem findminmax_spread_counterexample :
    (nanTopState.windows 1).top = Dbl.nan ∧
    (nanTopState.windows 1).bottom = Dbl.fin 0 ∧
    findminmax_extrema nanTopState 1 = some (Dbl.fin 0, Dbl.fin 4) ∧
    (findminmax nanTopState 1).map (fun s1 => ((s1.windows 1).top, (s1.windows 1).bottom))
      = some (Dbl.nan, Dbl.fin 0) ∧
    (findminmax nanTopState 1).map
      (fun s1 => Dbl.gt (s1.windows 1).top (s1.windows 1).bottom) = some false ∧
    (negSkipState.windows 1).minskip = -1 ∧
    (negSkipState.windows 1).top = Dbl.fin 1 ∧
    (negSkipState.windows 1).bottom = Dbl.fin 0 ∧
    (findminmax negSkipState 1).isNone = true := by
  refine ⟨by decide!, by decide!, by decide!, by decide!, by decide!, by decide!, by decide!,
    by decide!, by decide!⟩

/-- C23 as amended: for every window with `minskip >= 0` whose prior bounds are
not NaN (including `top == bottom` and `top < bottom`) and every channel data,
`findminmax` returns, its scan having ended with a pair `(mn, mx)`, and
afterwards `top > bottom`; and when the call changed the bounds,
`top - bottom = 1.1 * (mx - mn)` with `mx - mn > 0`. -/
theorem findminmax_spread (s : Instance) (w : Nat)
    (hskip : 0 ≤ (s.windows w).minskip)
    (htop : (s.windows w).top ≠ Dbl.nan) (hbot : (s.windows w).bottom ≠ Dbl.nan) :
    ∃ s1 m, findminmax s w = some s1 ∧ findminmax_extrema s w = some m ∧
      Dbl.gt (s1.windows w).top (s1.windows w).bottom = true ∧
      (((s1.windows w).top ≠ (s.windows w).top ∨ (s1.windows w).bottom ≠ (s.windows w).bottom) →
        (s1.windows w).top - (s1.windows w).bottom = Dbl.fin (11 / 10) * (m.2 - m.1) ∧
        Dbl.gt (m.2 - m.1) (Dbl.fin 0) = true) := by
  obtain ⟨m, hm, hlt⟩ := findminmax_extrema_total s w hskip
  obtain ⟨s1, hs1, ht, hb, -, -, -⟩ := findminmax_result s w m hm
  obtain ⟨p1, p2, p3⟩ := findminmax_padded_spread m.1 m.2 hlt
  refine ⟨s1, m, hs1, hm, ?_⟩
  rw [ht, hb]
  by_cases he : findminmax_exceeds m (s.windows w).top (s.windows w).bottom = true
  · have hbd : findminmax_bounds m (s.windows w).top (s.windows w).bottom
        = (m.2 + (m.2 - m.1) / Dbl.fin 20, m.1 - (m.2 - m.1) / Dbl.fin 20) := by
      unfold findminmax_bounds
      rw [if_pos he]
    rw [hbd]
    exact ⟨p1, fun _ => ⟨p2, p3⟩⟩
  · have hbd : findminmax_bounds m (s.windows w).top (s.windows w).bottom
        = ((s.windows w).top, (s.windows w).bottom) := by
      unfold findminmax_bounds
      rw [if_neg he]
    rw [hbd]
    refine ⟨?_, fun hch => ?_⟩
    · have hf : findminmax_exceeds m (s.windows w).top (s.windows w).bottom = false := by
        simpa using he
      unfold findminmax_exceeds at hf
      rw [Bool.or_eq_false_iff, Bool.or_eq_false_iff] at hf
      obtain ⟨⟨h1, h2⟩, -⟩ := hf
      have hmx : Dbl.le m.2 (s.windows w).top = true :=
        Dbl.le_of_lt_eq_false htop (Dbl.lt_right_ne_nan hlt) h1
      have hmn : Dbl.le (s.windows w).bottom m.1 = true :=
        Dbl.le_of_lt_eq_false (Dbl.lt_left_ne_nan hlt) hbot h2
      exact Dbl.lt_of_lt_of_le (Dbl.lt_of_le_of_lt hmn hlt) hmx
    · rcases hch with h | h <;> exact absurd rfl h

/-- Witness of C23 as amended: the window with `minskip = 0`, the default bounds
`(1, 0)` and the scanned pair `(0, 4)`; the call moves the bounds to
`(4.2, -0.2)`. -/
theorem findminmax_spread_witness :
    (0 ≤ (rangedState.windows 1).minskip ∧
      (rangedState.windows 1).top ≠ Dbl.nan ∧ (rangedState.windows 1).bottom ≠ Dbl.nan) ∧
    (∃ s1 m, findminmax rangedState 1 = some s1 ∧ findminmax_extrema rangedState 1 = some m ∧
      Dbl.gt (s1.windows 1).top (s1.windows 1).bottom = true ∧
      (((s1.windows 1).top ≠ (rangedState.windows 1).top ∨
          (s1.windows 1).bottom ≠ (rangedState.windows 1).bottom) →
        (s1.windows 1).top - (s1.windows 1).bottom = Dbl.fin (11 / 10) * (m.2 - m.1) ∧
        Dbl.gt (m.2 - m.1) (Dbl.fin 0) = true)) ∧
    (rangedState.windows 1).top = Dbl.fin 1 ∧ (rangedState.windows 1).bottom = Dbl.fin 0 ∧
    findminmax_extrema rangedState 1 = some (Dbl.fin 0, Dbl.fin 4) ∧
    (findminmax rangedState 1).map (fun s1 => ((s1.windows 1).top, (s1.windows 1).bottom))
      = some (Dbl.fin (21 / 5), Dbl.fin (-1 / 5)) :=
  ⟨⟨by decide!, by decide!, by decide!⟩,
    findminmax_spread rangedState 1 (by decide!) (by decide!) (by decide!),
    by decide!, by decide!, by decide!, by decide!⟩

/-! ## Bound on the emitted point count -/

/-- The option loop of `configchannel` touches neither the frame records nor the
window and frame name maps. -/
theorem configchannel_options_frames (w c : Nat) (e1 : List (String × Dbl)) (s : Instance) :
    (e1.foldl (configchannel_option w c) s).frames = s.frames ∧
    (e1.foldl (configchannel_option w c) s).uwindows = s.uwindows ∧
    (e1.foldl (configchannel_option w c) s).uframes = s.uframes :=
  configchannel_options_pres
    (fun st => st.frames = s.frames ∧ st.uwindows = s.uwindows ∧ st.uframes = s.uframes)
    (fun _ _ _ h => h) (fun _ _ _ _ h => h) (fun _ _ h => h) w c e1 s ⟨rfl, rfl, rfl⟩

/-- The part of `configchannel` after the linkage of the three slots keeps the
linkage data, the frame records and the name maps. -/
theorem configchannel_tail_keeps (s4 : Instance) (c w f : Nat) (dname label : String)
    (e1 : List (String × Dbl)) (s9 : Instance)
    (h9 : s9 = updChan
        (if ((e1.foldl (configchannel_option w c)
              (updFrame s4 f (fun fr => { fr with windows := IdSet.insert fr.windows w }))).windows
              w).autorange = 0 then
          updWin (e1.foldl (configchannel_option w c)
              (updFrame s4 f (fun fr => { fr with windows := IdSet.insert fr.windows w }))) w
            (fun win => { win with reconfigured := 1 })
         else e1.foldl (configchannel_option w c)
              (updFrame s4 f (fun fr => { fr with windows := IdSet.insert fr.windows w })))
        c (fun ch =>
          { ch with im_name := { ch.im_name with text := dname },
                    im_label := { ch.im_label with text := label } })) :
    SameLinks s4 s9 ∧
    s9.frames = (updFrame s4 f (fun fr => { fr with windows := IdSet.insert fr.windows w })).frames ∧
    s9.uframes = s4.uframes := by
  have e5 : SameLinks s4
      (updFrame s4 f (fun fr => { fr with windows := IdSet.insert fr.windows w })) :=
    sameLinks_updFrame s4 f _
  have e6 : SameLinks s4 (e1.foldl (configchannel_option w c)
      (updFrame s4 f (fun fr => { fr with windows := IdSet.insert fr.windows w }))) :=
    sameLinks_trans e5 (sameLinks_configchannel_options w c e1 _)
  obtain ⟨f6, -, u6⟩ := configchannel_options_frames w c e1
    (updFrame s4 f (fun fr => { fr with windows := IdSet.insert fr.windows w }))
  generalize e1.foldl (configchannel_option w c)
      (updFrame s4 f (fun fr => { fr with windows := IdSet.insert fr.windows w })) = s6
    at e6 f6 u6 h9
  have e7 : SameLinks s4
        (if (s6.windows w).autorange = 0 then
          updWin s6 w (fun win => { win with reconfigured := 1 }) else s6) ∧
      (if (s6.windows w).autorange = 0 then
          updWin s6 w (fun win => { win with reconfigured := 1 }) else s6).frames = s6.frames ∧
      (if (s6.windows w).autorange = 0 then
          updWin s6 w (fun win => { win with reconfigured := 1 }) else s6).uframes
        = s6.uframes := by
    split
    · exact ⟨sameLinks_trans e6
        (sameLinks_updWin s6 w (fun win => { win with reconfigured := 1 }) (fun _ => rfl)),
        rfl, rfl⟩
    · exact ⟨e6, rfl, rfl⟩
  generalize (if (s6.windows w).autorange = 0 then
        updWin s6 w (fun win => { win with reconfigured := 1 }) else s6) = s7 at e7 h9
  rw [h9]
  refine ⟨sameLinks_trans e7.1
    (sameLinks_updChan s7 c (fun ch =>
      { ch with im_name := { ch.im_name with text := dname },
                im_label := { ch.im_label with text := label } }) (fun _ => ⟨rfl, rfl⟩)), ?_, ?_⟩
  · show s7.frames = _
    rw [e7.2.1, f6]
  · show s7.uframes = _
    rw [e7.2.2, u6]
    rfl

/-- After the tail of `configchannel`, channel slot `c` is a member of window slot
`w`, `w` is a member of frame slot `f`, and the three name maps are those of the
state in which the slots were resolved. -/
theorem configchannel_apply_members (s2 : Instance) (c w f : Nat)
    (name dname label window : String) (e1 : List (String × Dbl)) :
    c ∈ ((configchannel_apply s2 c w f name dname label window e1).windows w).channels ∧
    w ∈ ((configchannel_apply s2 c w f name dname label window e1).frames f).windows ∧
    (configchannel_apply s2 c w f name dname label window e1).uchannels = s2.uchannels ∧
    (configchannel_apply s2 c w f name dname label window e1).uwindows = s2.uwindows ∧
    (configchannel_apply s2 c w f name dname label window e1).uframes = s2.uframes := by
  obtain ⟨hl, hf, hu⟩ := configchannel_tail_keeps
    (updWin (updChan s2 c (fun ch =>
          { ch with used := 1, name := name, dname := dname, label := label, window := w,
                    win := some w })) w
        (fun win => { win with channels := IdSet.insert win.channels c, used := 1,
                               name := window, frame := f, fr := some f }))
    c w f dname label e1 (configchannel_apply s2 c w f name dname label window e1) rfl
  obtain ⟨l1, l2, l3, -⟩ := hl
  refine ⟨?_, ?_, l1, l2, hu⟩
  · rw [l3 w]
    simp only [updWin, updChan, setAt, if_true]
    exact IdSet.mem_insert.mpr (Or.inl rfl)
  · rw [hf]
    simp only [updFrame, updWin, updChan, setAt, if_true]
    exact IdSet.mem_insert.mpr (Or.inl rfl)

/-- A configure-channel command that names a registered frame, a channel that is
not registered and a window that is not registered creates the channel and the
window under the ids given by `firstfree` and links them. -/
theorem configchannel_creates (s : Instance) (e1 : List (String × Dbl)) (e2 : List String)
    (f : Nat) (window : String)
    (hname : tokenValue "#name" e2 "" ≠ "")
    (hframe : tokenValue "#frame" e2 "" ≠ "")
    (hwindow : window = if tokenValue "#window" e2 "" = "" then tokenValue "#name" e2 ""
      else tokenValue "#window" e2 "")
    (hf : s.uframes.find (tokenValue "#frame" e2 "") = some f)
    (hnewc : s.uchannels.find (tokenValue "#name" e2 "") = none)
    (hneww : s.uwindows.find window = none) :
    ∃ s', configchannel s e1 e2 = .ok s' ∧
      s'.uchannels.find (tokenValue "#name" e2 "") = some (firstfree s.uchannels) ∧
      s'.uwindows.find window = some (firstfree s.uwindows) ∧
      s'.uframes.find (tokenValue "#frame" e2 "") = some f ∧
      firstfree s.uchannels ∈ (s'.windows (firstfree s.uwindows)).channels ∧
      firstfree s.uwindows ∈ (s'.frames f).windows := by
  have hs0 : ({ s with uframes := s.uframes } : Instance) = s := by cases s; rfl
  have hrc : resolve_channel s (tokenValue "#name" e2 "") =
      ({ s with uchannels := s.uchannels.assign (tokenValue "#name" e2 "") (firstfree s.uchannels),
                channels := setAt s.channels (firstfree s.uchannels) {} },
       firstfree s.uchannels) := by
    simp [resolve_channel, hnewc]
  have hguard : ∀ wn, window_name_differs
      { s with uchannels := s.uchannels.assign (tokenValue "#name" e2 "") (firstfree s.uchannels),
               channels := setAt s.channels (firstfree s.uchannels) {} }
      (firstfree s.uchannels) wn = false := by
    intro wn
    simp [window_name_differs, setAt]
  have hrw : resolve_window
      { s with uchannels := s.uchannels.assign (tokenValue "#name" e2 "") (firstfree s.uchannels),
               channels := setAt s.channels (firstfree s.uchannels) {} } window =
      ({ s with uchannels := s.uchannels.assign (tokenValue "#name" e2 "") (firstfree s.uchannels),
                channels := setAt s.channels (firstfree s.uchannels) {},
                uwindows := s.uwindows.assign window (firstfree s.uwindows),
                windows := setAt s.windows (firstfree s.uwindows) {} },
       firstfree s.uwindows) := by
    simp [resolve_window, hneww]
  have hm1 : channel_window_mismatch
      { s with uchannels := s.uchannels.assign (tokenValue "#name" e2 "") (firstfree s.uchannels),
               channels := setAt s.channels (firstfree s.uchannels) {},
               uwindows := s.uwindows.assign window (firstfree s.uwindows),
               windows := setAt s.windows (firstfree s.uwindows) {} }
      (firstfree s.uchannels) (firstfree s.uwindows) = false := by
    simp [channel_window_mismatch, setAt]
  have hm2 : window_frame_mismatch
      { s with uchannels := s.uchannels.assign (tokenValue "#name" e2 "") (firstfree s.uchannels),
               channels := setAt s.channels (firstfree s.uchannels) {},
               uwindows := s.uwindows.assign window (firstfree s.uwindows),
               windows := setAt s.windows (firstfree s.uwindows) {} }
      (firstfree s.uwindows) f = false := by
    simp [window_frame_mismatch, setAt]
  unfold configchannel
  simp only [hname, hframe, or_self, if_false, hf, NameMap.index_of_find hf, hs0, hrc,
    reduceCtorEq, ← hwindow, hguard, hrw, hm1, hm2, Bool.false_eq_true]
  refine ⟨_, rfl, ?_⟩
  obtain ⟨m1, m2, m3, m4, m5⟩ := configchannel_apply_members
    { s with uchannels := s.uchannels.assign (tokenValue "#name" e2 "") (firstfree s.uchannels),
             channels := setAt s.channels (firstfree s.uchannels) {},
             uwindows := s.uwindows.assign window (firstfree s.uwindows),
             windows := setAt s.windows (firstfree s.uwindows) {} }
    (firstfree s.uchannels) (firstfree s.uwindows) f (tokenValue "#name" e2 "")
    (if tokenValue "#dname" e2 "" = "" then tokenValue "#name" e2 ""
      else tokenValue "#dname" e2 "")
    (tokenValue "#label" e2 "") window e1
  refine ⟨?_, ?_, ?_, m1, m2⟩
  · rw [m3]; exact NameMap.find_assign_self _ _ _
  · rw [m4]; exact NameMap.find_assign_self _ _ _
  · rw [m5]; exact hf

/-- Counterexample to C25: in the empty registry, a configure-channel packet for
channel `A` in window `W` of frame `F` is dispatched and registers nothing: the
frame is not created, nor are the channel and the window. -/
theorem lazy_creation_counterexample :
    ∃ s, listen_step sortByTime Instance.empty (channelPacket "A" "W" "F") = .ok s ∧
      s.uchannels.find "A" = none ∧ s.uwindows.find "W" = none ∧ s.uframes.find "F" = none ∧
      s.uchannels = [] ∧ s.uwindows = [] ∧ s.uframes = [] :=
  ⟨_, rfl, by decide, by decide, by decide, by decide, by decide, by decide⟩

/-- C25 as amended: for every state and every configure-channel packet (opcode
101) that carries non-empty `#name` and `#frame` values naming a registered
frame and a channel and window (the `#window` value, or the channel name when
`#window` is absent) neither of which is registered yet, after dispatch the
channel and the window are registered (under the ids given by `firstfree`), the
frame is registered as before, the channel is a member of the window and the
window is a member of the frame. -/
theorem lazy_creation (stdsort : List Sample → List Sample) (s : Instance) (p : Packet)
    (f : Nat) (window : String)
    (hop : p.d0 = 101)
    (hname : tokenValue "#name" p.toks "" ≠ "")
    (hframe : tokenValue "#frame" p.toks "" ≠ "")
    (hwindow : window = if tokenValue "#window" p.toks "" = "" then tokenValue "#name" p.toks ""
      else tokenValue "#window" p.toks "")
    (hf : s.uframes.find (tokenValue "#frame" p.toks "") = some f)
    (hnewc : s.uchannels.find (tokenValue "#name" p.toks "") = none)
    (hneww : s.uwindows.find window = none) :
    ∃ s' c w, listen_step stdsort s p = .ok s' ∧
      s'.uchannels.find (tokenValue "#name" p.toks "") = some c ∧
      s'.uwindows.find window = some w ∧
      s'.uframes.find (tokenValue "#frame" p.toks "") = some f ∧
      c ∈ (s'.windows w).channels ∧ w ∈ (s'.frames f).windows ∧
      c = firstfree s.uchannels ∧ w = firstfree s.uwindows := by
  obtain ⟨s1, h1, a1, a2, a3, a4, a5⟩ :=
    configchannel_creates { s with lockdepth := s.lockdepth + 1 } p.opts p.toks f window
      hname hframe hwindow hf hnewc hneww
  refine ⟨{ s1 with lockdepth := s1.lockdepth - 1 }, firstfree s.uchannels,
    firstfree s.uwindows, ?_, a1, a2, a3, a4, a5, rfl, rfl⟩
  unfold listen_step
  rw [dispatch_configchannel stdsort p _ hop, h1]
  rfl

/-- Witness of C25 as amended: with frame `F` registered, the packet for channel
`A` in window `W` of `F` creates channel 1 in window 1. -/
theorem lazy_creation_witness :
    ∃ s' c w, listen_step sortByTime frameState (channelPacket "A" "W" "F") = .ok s' ∧
      s'.uchannels.find (tokenValue "#name" (channelPacket "A" "W" "F").toks "") = some c ∧
      s'.uwindows.find "W" = some w ∧
      s'.uframes.find (tokenValue "#frame" (channelPacket "A" "W" "F").toks "") = some 1 ∧
      c ∈ (s'.windows w).channels ∧ w ∈ (s'.frames 1).windows ∧
      c = firstfree frameState.uchannels ∧ w = firstfree frameState.uwindows :=
  lazy_creation sortByTime frameState (channelPacket "A" "W" "F") 1 "W" (by decide)
    (by decide) (by decide) (by decide) (by decide) (by decide) (by decide)

/-! ## Ids in the name maps -/

/-- Evaluation for C29: from the empty registry, two link-frames packets (opcode
151) for the unknown frame names `X` and `Z` leave both names registered in the
frame name map under id 0. -/
theorem link_frames_registers_zero :
    ∃ s, listen_main sortByTime Instance.empty [linkPacket "X" "Y", linkPacket "Z" "Y"] = .ok s ∧
      s.uframes.find "X" = some 0 ∧ s.uframes.find "Z" = some 0 ∧
      s.uframes = [("X", 0), ("Z", 0)] :=
  ⟨_, rfl, by decide, by decide, by decide⟩

/-! ## Handlers that keep the hold counter and the lock depth -/

theorem sameHold_refl (s : Instance) : SameHold s s := ⟨rfl, rfl⟩

theorem sameHold_trans {a b c : Instance} (h1 : SameHold a b) (h2 : SameHold b c) :
    SameHold a c := ⟨h2.1.trans h1.1, h2.2.trans h1.2⟩

theorem sameHold_foldl {α : Type} (f : Instance → α → Instance)
    (hf : ∀ st x, SameHold st (f st x)) :
    ∀ (l : List α) (s : Instance), SameHold s (l.foldl f s) := by
  intro l
  induction l with
  | nil => intro s; exact sameHold_refl s
  | cons x rest ih => intro s; exact sameHold_trans (hf s x) (ih (f s x))

theorem sameHold_foldlM {α : Type} (f : Instance → α → Outcome)
    (hf : ∀ st x st', f st x = .ok st' → SameHold st st') :
    ∀ (l : List α) (s s' : Instance), l.foldlM f s = .ok s' → SameHold s s' := by
  intro l
  induction l with
  | nil =>
    intro s s' h
    have h' : (Except.ok s : Outcome) = .ok s' := h
    rw [← Except.ok.inj h']
    exact sameHold_refl s
  | cons x rest ih =>
    intro s s' h
    rw [List.foldlM_cons] at h
    obtain ⟨s1, h1, h2⟩ := Outcome.bind_ok h
    exact sameHold_trans (hf s x s1 h1) (ih s1 s' h2)

theorem sameHold_updChan (s : Instance) (c : Nat) (g : ChanInfo → ChanInfo) :
    SameHold s (updChan s c g) := ⟨rfl, rfl⟩

theorem sameHold_updWin (s : Instance) (w : Nat) (g : WindowInfo → WindowInfo) :
    SameHold s (updWin s w g) := ⟨rfl, rfl⟩

theorem sameHold_updFrame (s : Instance) (f : Nat) (g : FrameInfo → FrameInfo) :
    SameHold s (updFrame s f g) := ⟨rfl, rfl⟩

theorem sameHold_clear_data_id (s : Instance) (c : Nat) : SameHold s (clear_data_id s c) :=
  ⟨rfl, rfl⟩

theorem sameHold_clear_data (s : Instance) (name : String) : SameHold s (clear_data s name) := by
  unfold clear_data
  split <;> exact ⟨rfl, rfl⟩

theorem sameHold_clear_all_data (s : Instance) : SameHold s (clear_all_data s) :=
  sameHold_foldl (fun (st : Instance) (e : String × Nat) => clear_data_id st e.2)
    (fun st e => sameHold_clear_data_id st e.2) _ s

theorem sameHold_remove_channel (s s' : Instance) (name : String)
    (h : remove_channel s name = .ok s') : SameHold s s' := by
  unfold remove_channel at h
  simp only at h
  split at h
  · rw [← Except.ok.inj h]; exact ⟨rfl, rfl⟩
  · split at h
    · exact Except.noConfusion h
    · rw [← Except.ok.inj h]; exact ⟨rfl, rfl⟩

theorem sameHold_deactivate_channel (s : Instance) (name : String) :
    SameHold s (deactivate_channel s name) := by
  unfold deactivate_channel
  simp only
  split <;> exact ⟨rfl, rfl⟩

theorem sameHold_sort_channel (stdsort : List Sample → List Sample) (s : Instance)
    (name : String) : SameHold s (sort_channel stdsort s name) := by
  unfold sort_channel
  simp only
  split <;> exact ⟨rfl, rfl⟩

theorem sameHold_newsamples (s : Instance) (name : String) (a : List Sample)
    (newsegment : Bool) : SameHold s (newsamples s name a newsegment) := by
  unfold newsamples
  simp only
  split <;> exact ⟨rfl, rfl⟩

theorem sameHold_newimage (s : Instance) (name : String) (data : List Dbl) :
    SameHold s (newimage s name data) := by
  unfold newimage
  simp only
  split <;> exact ⟨rfl, rfl⟩

theorem sameHold_show_frame (s : Instance) (name : String) (value : Int) :
    SameHold s (show_frame s name value) := by
  unfold show_frame
  simp only
  split <;> exact ⟨rfl, rfl⟩

theorem sameHold_delete_text_frame (s : Instance) (name : String) :
    SameHold s (delete_text_frame s name) := by
  unfold delete_text_frame
  simp only
  split <;> exact ⟨rfl, rfl⟩

theorem sameHold_remove_window2_ref (s s' : Instance) (name : Instance → String)
    (h : remove_window2_ref s name = .ok s') : SameHold s s' := by
  unfold remove_window2_ref at h
  simp only at h
  split at h
  · rw [← Except.ok.inj h]; exact ⟨rfl, rfl⟩
  · obtain ⟨s2, h2, h3⟩ := Outcome.bind_ok h
    have e2 := sameHold_foldlM _
      (fun st c st' hst => sameHold_remove_channel st st' _ hst) _ _ _ h2
    rw [← Except.ok.inj h3]
    exact sameHold_trans (sameHold_trans ⟨rfl, rfl⟩ e2) ⟨rfl, rfl⟩

theorem sameHold_remove_frame (s s' : Instance) (name : String)
    (h : remove_frame s name = .ok s') : SameHold s s' := by
  unfold remove_frame at h
  simp only at h
  split at h
  · rw [← Except.ok.inj h]; exact ⟨rfl, rfl⟩
  · obtain ⟨s2, h2, h3⟩ := Outcome.bind_ok h
    have e2 := sameHold_foldlM _
      (fun st w st' hst => sameHold_remove_window2_ref st st' _ hst) _ _ _ h2
    rw [← Except.ok.inj h3]
    exact sameHold_trans (sameHold_trans ⟨rfl, rfl⟩ e2) ⟨rfl, rfl⟩

theorem sameHold_findlasttimes_segment (c : ChanInfo) (st st' : Instance) (seg : Segment)
    (h : findlasttimes_segment c st seg = .ok st') : SameHold st st' := by
  simp only [findlasttimes_segment] at h
  split at h
  · rw [← Except.ok.inj h]; exact sameHold_refl st
  · split at h
    · exact Except.noConfusion h
    · split at h
      · exact Except.noConfusion h
      · rw [← Except.ok.inj h]
        split <;> split <;> exact ⟨rfl, rfl⟩

theorem sameHold_findlasttimes_channel (st st' : Instance) (e : String × Nat)
    (h : findlasttimes_channel st e = .ok st') : SameHold st st' := by
  simp only [findlasttimes_channel] at h
  split at h
  · rw [← Except.ok.inj h]; exact sameHold_refl st
  · exact sameHold_foldlM _ (fun a seg b hab => sameHold_findlasttimes_segment _ a b seg hab)
      _ _ _ h

theorem sameHold_findlasttimes_fix1 (st : Instance) (e : String × Nat) :
    SameHold st (findlasttimes_fix1 st e) := by
  simp only [findlasttimes_fix1]
  split <;> exact ⟨rfl, rfl⟩

theorem sameHold_findlasttimes_fix2 (st : Instance) (e : String × Nat) :
    SameHold st (findlasttimes_fix2 st e) := by
  simp only [findlasttimes_fix2]
  split <;> exact ⟨rfl, rfl⟩

theorem sameHold_findlasttimes_fix3 (st : Instance) (e : String × Nat) :
    SameHold st (findlasttimes_fix3 st e) := by
  simp only [findlasttimes_fix3]
  split <;> exact ⟨rfl, rfl⟩

theorem sameHold_findlasttimes (s s' : Instance) (h : findlasttimes s = .ok s') :
    SameHold s s' := by
  simp only [findlasttimes] at h
  obtain ⟨s2, h2, h3⟩ := Outcome.bind_ok h
  have e1 : SameHold s (s.uframes.foldl
      (fun (st : Instance) (e : String × Nat) => updFrame st e.2
        (fun fr => { fr with lasttime := Dbl.fin (-(10 ^ 100)),
                             firsttime := Dbl.fin (10 ^ 100) })) s) :=
    sameHold_foldl _ (fun (st : Instance) (e : String × Nat) => sameHold_updFrame st e.2 _) _ s
  have e2 := sameHold_foldlM _
    (fun a e b hab => sameHold_findlasttimes_channel a b e hab) _ _ _ h2
  have := Except.ok.inj h3
  rw [← this]
  exact sameHold_trans (sameHold_trans e1 e2)
    (sameHold_trans (sameHold_trans (sameHold_foldl _ sameHold_findlasttimes_fix1 _ s2)
      (sameHold_foldl _ sameHold_findlasttimes_fix2 _ _))
      (sameHold_foldl _ sameHold_findlasttimes_fix3 _ _))

theorem sameHold_follow_all_frames (s s' : Instance) (h : follow_all_frames s = .ok s') :
    SameHold s s' := by
  simp only [follow_all_frames] at h
  obtain ⟨s1, h1, h2⟩ := Outcome.bind_ok h
  have := Except.ok.inj h2
  rw [← this]
  exact sameHold_trans (sameHold_findlasttimes s s1 h1)
    (sameHold_foldl (fun (st : Instance) (e : String × Nat) =>
        updFrame st e.2 (fun fr => { fr with endtime := fr.lasttime }))
      (fun st e => sameHold_updFrame st e.2 _) _ s1)

theorem sameHold_configframe (s : Instance) (e1 : List (String × Dbl)) (e2 : List String) :
    SameHold s (configframe s e1 e2) := by
  unfold configframe
  simp only
  refine configframe_options_pres (fun st => SameHold s st)
    (fun st f g hst => sameHold_trans hst (sameHold_updFrame st f g)) _ e1 _ ?_
  refine sameHold_trans ?_ (sameHold_updFrame _ _ _)
  unfold resolve_frame
  split <;> exact ⟨rfl, rfl⟩

theorem configchannel_options_comm (w c : Nat) (e1 : List (String × Dbl)) (s : Instance) :
    (e1.foldl (configchannel_option w c) s).comm = s.comm :=
  configchannel_options_pres (fun st => st.comm = s.comm)
    (fun _ _ _ h => h) (fun _ _ _ _ h => h) (fun _ _ h => h) w c e1 s rfl

theorem configchannel_options_lockdepth (w c : Nat) (e1 : List (String × Dbl)) (s : Instance) :
    (e1.foldl (configchannel_option w c) s).lockdepth = s.lockdepth :=
  configchannel_options_pres (fun st => st.lockdepth = s.lockdepth)
    (fun _ _ _ h => h) (fun _ _ _ _ h => h) (fun _ _ h => h) w c e1 s rfl

theorem sameHold_configchannel_apply (s2 : Instance) (c w f : Nat)
    (name dname label window : String) (e1 : List (String × Dbl)) :
    SameHold s2 (configchannel_apply s2 c w f name dname label window e1) := by
  unfold configchannel_apply SameHold
  simp only
  split
  · simp only [updChan, updWin, configchannel_options_comm, configchannel_options_lockdepth]
    exact ⟨rfl, rfl⟩
  · simp only [updChan, configchannel_options_comm, configchannel_options_lockdepth]
    exact ⟨rfl, rfl⟩

theorem sameHold_configchannel (s s' : Instance) (e1 : List (String × Dbl)) (e2 : List String)
    (h : configchannel s e1 e2 = .ok s') : SameHold s s' := by
  unfold configchannel at h
  simp only at h
  split at h
  · rw [← Except.ok.inj h]; exact sameHold_refl s
  split at h
  · rw [← Except.ok.inj h]; exact sameHold_refl s
  have hrc : ∀ (st : Instance) (n : String), SameHold st (resolve_channel st n).1 := by
    intro st n
    unfold resolve_channel
    split <;> exact ⟨rfl, rfl⟩
  have hrw : ∀ (st : Instance) (n : String), SameHold st (resolve_window st n).1 := by
    intro st n
    unfold resolve_window
    split <;> exact ⟨rfl, rfl⟩
  have h0 : SameHold s { s with uframes := (s.uframes.index (tokenValue "#frame" e2 "")).2 } :=
    ⟨rfl, rfl⟩
  generalize ({ s with uframes := (s.uframes.index (tokenValue "#frame" e2 "")).2 } : Instance)
    = s0 at h h0
  generalize (if tokenValue "#window" e2 "" = "" then tokenValue "#name" e2 ""
    else tokenValue "#window" e2 "") = window at h
  generalize (if tokenValue "#dname" e2 "" = "" then tokenValue "#name" e2 ""
    else tokenValue "#dname" e2 "") = dname at h
  have h1 := sameHold_trans h0 (hrc s0 (tokenValue "#name" e2 ""))
  generalize resolve_channel s0 (tokenValue "#name" e2 "") = rc at h h1
  split at h
  · rw [← Except.ok.inj h]; exact h1
  have h2 := sameHold_trans h1 (hrw rc.1 window)
  generalize resolve_window rc.1 window = rwn at h h2
  split at h
  · exact Except.noConfusion h
  split at h
  · exact Except.noConfusion h
  rw [← Except.ok.inj h]
  exact sameHold_trans h2 (sameHold_configchannel_apply _ _ _ _ _ _ _ _ _)

theorem sameHold_addtexttoframe (s s' : Instance) (p : Packet)
    (h : addtexttoframe s p = .ok s') : SameHold s s' := by
  unfold addtexttoframe at h
  simp only at h
  split at h
  · exact Except.noConfusion h
  · rw [← Except.ok.inj h]
    exact ⟨rfl, rfl⟩

theorem sameHold_set_toggles (p : Packet) (s : Instance) : SameHold s (set_toggles p s) := by
  unfold set_toggles
  simp only
  split <;> split <;> split <;> exact ⟨rfl, rfl⟩

theorem sameHold_link_frames (p : Packet) (s : Instance) : SameHold s (link_frames p s) := by
  unfold link_frames
  split <;> exact ⟨rfl, rfl⟩

theorem sameHold_ingest_samples (p : Packet) (s : Instance) :
    SameHold s (ingest_samples p s) := by
  unfold ingest_samples
  simp only
  have e1 : SameHold s { s with comm := { s.comm with packets := s.comm.packets + 1 } } :=
    ⟨rfl, rfl⟩
  have e2 : SameHold s
      (if p.d1 ≠ 0 then
        clear_data { s with comm := { s.comm with packets := s.comm.packets + 1 } } p.c8
       else { s with comm := { s.comm with packets := s.comm.packets + 1 } }) := by
    split
    · exact sameHold_trans e1 (sameHold_clear_data _ _)
    · exact e1
  have e3 := sameHold_newsamples
    (if p.d1 ≠ 0 then
        clear_data { s with comm := { s.comm with packets := s.comm.packets + 1 } } p.c8
       else { s with comm := { s.comm with packets := s.comm.packets + 1 } })
    p.c8 (p.samples.take p.i1.toNat) (decide (p.d2 ≠ 0))
  exact sameHold_trans (sameHold_trans e2 e3) ⟨rfl, rfl⟩

theorem sameHold_ingest_image (p : Packet) (s : Instance) : SameHold s (ingest_image p s) := by
  unfold ingest_image
  simp only
  have e2 : SameHold s (if p.d1 ≠ 0 then clear_data s p.c8 else s) := by
    split
    · exact sameHold_clear_data _ _
    · exact sameHold_refl s
  exact sameHold_trans e2 (sameHold_newimage _ p.c8 _)

/-! ## The hold counter after every packet -/

theorem sameHold_onOp_bind {p : Packet} {code : Nat} {handler k : Instance → Outcome}
    {s s' : Instance}
    (h : (onOp p code handler s >>= k) = .ok s')
    (hh : ∀ st st', handler st = .ok st' → SameHold st st')
    (hk : ∀ s1, k s1 = .ok s' → SameHold s1 s') : SameHold s s' := by
  obtain ⟨s1, h1, h2⟩ := Outcome.bind_ok h
  refine sameHold_trans ?_ (hk s1 h2)
  unfold onOp at h1
  split at h1
  · exact hh s s1 h1
  · rw [← Except.ok.inj h1]; exact sameHold_refl s

theorem sameHold_onOp_bind_pure {p : Packet} {code : Nat} {g : Instance → Instance}
    {k : Instance → Outcome} {s s' : Instance}
    (h : (onOp p code (fun st => .ok (g st)) s >>= k) = .ok s')
    (hg : ∀ st, SameHold st (g st))
    (hk : ∀ s1, k s1 = .ok s' → SameHold s1 s') : SameHold s s' :=
  sameHold_onOp_bind h
    (fun st st' hst => by
      rw [← Except.ok.inj hst]; exact hg st)
    hk

/-- An opcode test that does not match leaves the state as it is. -/
theorem sameHold_onOp_skip {p : Packet} {code : Nat} {handler k : Instance → Outcome}
    {s s' : Instance}
    (h : (onOp p code handler s >>= k) = .ok s') (hne : p.d0 ≠ code)
    (hk : ∀ s1, k s1 = .ok s' → SameHold s1 s') : SameHold s s' := by
  rw [onOp_ne handler s hne] at h
  exact hk s h

/-- Every packet other than begin-batch and end-batch keeps the hold counter and
the lock depth. -/
theorem sameHold_dispatch (stdsort : List Sample → List Sample) (p : Packet) (s s' : Instance)
    (h91 : p.d0 ≠ 91) (h92 : p.d0 ≠ 92) (h : dispatch stdsort p s = .ok s') :
    SameHold s s' := by
  unfold dispatch at h
  refine sameHold_onOp_bind h
    (fun a b hab => sameHold_foldlM _
      (fun st k st' hst => sameHold_remove_channel st st' k hst) _ _ _ hab)
    (fun s1 h => ?_)
  refine sameHold_onOp_bind h (fun a b hab => sameHold_remove_channel a b _ hab) (fun s1 h => ?_)
  refine sameHold_onOp_bind_pure h
    (fun st => sameHold_foldl _ (fun a k => sameHold_deactivate_channel a k) _ st)
    (fun s1 h => ?_)
  refine sameHold_onOp_bind_pure h sameHold_clear_all_data (fun s1 h => ?_)
  refine sameHold_onOp_bind_pure h (fun st => sameHold_clear_data st _) (fun s1 h => ?_)
  refine sameHold_onOp_bind h
    (fun a b hab => sameHold_foldlM _
      (fun st k st' hst => sameHold_remove_frame st st' k hst) _ _ _ hab)
    (fun s1 h => ?_)
  refine sameHold_onOp_bind h (fun a b hab => sameHold_remove_frame a b _ hab) (fun s1 h => ?_)
  refine sameHold_onOp_bind_pure h
    (fun st => sameHold_foldl _ (fun a k => sameHold_show_frame a k 0) _ st) (fun s1 h => ?_)
  refine sameHold_onOp_bind_pure h
    (fun st => sameHold_foldl _ (fun a k => sameHold_show_frame a k 1) _ st) (fun s1 h => ?_)
  refine sameHold_onOp_bind h sameHold_follow_all_frames (fun s1 h => ?_)
  refine sameHold_onOp_bind h (fun a b hab => sameHold_remove_window2_ref a b _ hab)
    (fun s1 h => ?_)
  refine sameHold_onOp_bind_pure h (fun st => sameHold_sort_channel stdsort st _)
    (fun s1 h => ?_)
  refine sameHold_onOp_bind_pure h (fun st => ⟨rfl, rfl⟩) (fun s1 h => ?_)
  refine sameHold_onOp_bind_pure h (fun st => ⟨rfl, rfl⟩) (fun s1 h => ?_)
  refine sameHold_onOp_bind h (fun a b hab => sameHold_addtexttoframe a b _ hab)
    (fun s1 h => ?_)
  refine sameHold_onOp_bind_pure h (fun st => sameHold_delete_text_frame st _) (fun s1 h => ?_)
  refine sameHold_onOp_bind_pure h (fun st => ⟨rfl, rfl⟩) (fun s1 h => ?_)
  refine sameHold_onOp_bind_pure h (sameHold_set_toggles p) (fun s1 h => ?_)
  refine sameHold_onOp_skip h h91 (fun s1 h => ?_)
  refine sameHold_onOp_skip h h92 (fun s1 h => ?_)
  refine sameHold_onOp_bind_pure h (fun st => sameHold_configframe st _ _) (fun s1 h => ?_)
  refine sameHold_onOp_bind h (fun a b hab => sameHold_configchannel a b _ _ hab)
    (fun s1 h => ?_)
  refine sameHold_onOp_bind_pure h (sameHold_link_frames p) (fun s1 h => ?_)
  refine sameHold_onOp_bind_pure h (fun st => ⟨rfl, rfl⟩) (fun s1 h => ?_)
  refine sameHold_onOp_bind_pure h (fun st => ⟨rfl, rfl⟩) (fun s1 h => ?_)
  refine sameHold_onOp_bind_pure h (fun st => sameHold_refl st) (fun s1 h => ?_)
  refine sameHold_onOp_bind_pure h (sameHold_ingest_samples p) (fun s1 h => ?_)
  unfold onOp at h
  split at h
  · rw [← Except.ok.inj h]
    exact sameHold_ingest_image p s1
  · rw [← Except.ok.inj h]; exact sameHold_refl s1

/-- One packet keeps the invariant "the hold counter is 0 or 1 and equals the
residual lock depth"; a begin-batch packet leaves the counter at 1 and an
end-batch packet leaves it at 0. -/
theorem hold_listen_step (stdsort : List Sample → List Sample) (s s' : Instance) (p : Packet)
    (hc : s.comm.cnt ≤ 1) (hl : s.lockdepth = s.comm.cnt)
    (h : listen_step stdsort s p = .ok s') :
    s'.comm.cnt ≤ 1 ∧ s'.lockdepth = s'.comm.cnt ∧
    (p.d0 = 91 → s'.comm.cnt = 1) ∧ (p.d0 = 92 → s'.comm.cnt = 0) := by
  unfold listen_step at h
  obtain ⟨s1, h1, h2⟩ := Outcome.bind_ok h
  rw [← Except.ok.inj h2]
  by_cases h91 : p.d0 = 91
  · rw [dispatch_batch_begin stdsort p _ h91] at h1
    rw [← Except.ok.inj h1]
    have h92 : p.d0 ≠ 92 := by omega
    refine ⟨by simp [batch_begin], ?_, fun _ => by simp [batch_begin], fun e => absurd e h92⟩
    simp only [batch_begin, release_holds_eq]
    rw [hl]
    push_cast
    ring
  · by_cases h92 : p.d0 = 92
    · rw [dispatch_batch_end stdsort p _ h92] at h1
      rw [← Except.ok.inj h1]
      have hcases : s.comm.cnt = 0 ∨ s.comm.cnt = 1 := by omega
      rcases hcases with h0 | h0
      · refine ⟨?_, ?_, fun e => absurd e h91, fun _ => ?_⟩
        · simp [batch_end, h0]
        · simp [batch_end, h0, hl]
        · simp [batch_end, h0]
      · refine ⟨?_, ?_, fun e => absurd e h91, fun _ => ?_⟩
        · simp [batch_end, h0]
        · simp [batch_end, h0, hl]
        · simp [batch_end, h0]
    · obtain ⟨e1, e2⟩ := sameHold_dispatch stdsort p _ s1 h91 h92 h1
      refine ⟨?_, ?_, fun e => absurd e h91, fun e => absurd e h92⟩
      · show s1.comm.cnt ≤ 1
        rw [e1]; exact hc
      · show s1.lockdepth - 1 = s1.comm.cnt
        rw [e1, e2]
        show s.lockdepth + 1 - 1 = _
        rw [hl]
        ring

/-- C30: from any state with hold counter 0 and lock depth 0, after every fully
dispatched sequence of packets of any opcodes the hold counter is 0 or 1 and
the residual lock depth held by the dispatcher equals it; from such a state a
begin-batch packet (opcode 91) is dispatched and leaves the counter at 1, and an
end-batch packet (opcode 92) is dispatched and leaves it at 0. -/
theorem batch_counter_invariant (stdsort : List Sample → List Sample) (pkts : List Packet)
    (s0 s : Instance) (hcnt : s0.comm.cnt = 0) (hlock : s0.lockdepth = 0)
    (hrun : listen_main stdsort s0 pkts = .ok s) :
    (s.comm.cnt = 0 ∨ s.comm.cnt = 1) ∧ s.lockdepth = s.comm.cnt ∧
    (∀ p : Packet, p.d0 = 91 →
      ∃ s', listen_step stdsort s p = .ok s' ∧ s'.comm.cnt = 1 ∧ s'.lockdepth = 1) ∧
    (∀ p : Packet, p.d0 = 92 →
      ∃ s', listen_step stdsort s p = .ok s' ∧ s'.comm.cnt = 0 ∧ s'.lockdepth = 0) := by
  have hinv : ∀ (l : List Packet) (a b : Instance), a.comm.cnt ≤ 1 →
      a.lockdepth = a.comm.cnt → listen_main stdsort a l = .ok b →
      b.comm.cnt ≤ 1 ∧ b.lockdepth = b.comm.cnt := by
    intro l
    induction l with
    | nil =>
      intro a b hc hl h
      unfold listen_main at h
      rw [← Except.ok.inj h]; exact ⟨hc, hl⟩
    | cons p ps ih =>
      intro a b hc hl h
      unfold listen_main at h
      obtain ⟨a1, h1, h2⟩ := Outcome.bind_ok h
      obtain ⟨c1, l1, -, -⟩ := hold_listen_step stdsort a a1 p hc hl h1
      exact ih a1 b c1 l1 h2
  obtain ⟨hc, hl⟩ := hinv pkts s0 s (by omega) (by rw [hlock, hcnt]; rfl) hrun
  refine ⟨by omega, hl, fun p hp => ?_, fun p hp => ?_⟩
  · have hstep : listen_step stdsort s p = .ok
        { batch_begin { s with lockdepth := s.lockdepth + 1 } with
          lockdepth := (batch_begin { s with lockdepth := s.lockdepth + 1 }).lockdepth - 1 } := by
      unfold listen_step
      rw [dispatch_batch_begin stdsort p _ hp]
      rfl
    obtain ⟨-, l1, c1, -⟩ := hold_listen_step stdsort s _ p hc hl hstep
    exact ⟨_, hstep, c1 hp, by rw [l1, c1 hp]; rfl⟩
  · have hstep : listen_step stdsort s p = .ok
        { batch_end { s with lockdepth := s.lockdepth + 1 } with
          lockdepth := (batch_end { s with lockdepth := s.lockdepth + 1 }).lockdepth - 1 } := by
      unfold listen_step
      rw [dispatch_batch_end stdsort p _ hp]
      rfl
    obtain ⟨-, l1, -, c1⟩ := hold_listen_step stdsort s _ p hc hl hstep
    exact ⟨_, hstep, c1 hp, by rw [l1, c1 hp]; rfl⟩

/-- Witness of C30: from the empty start-up state, after a begin-batch packet, a
configure-frame packet and a second begin-batch packet. -/
theorem batch_counter_invariant_witness :
    (batchedState.comm.cnt = 0 ∨ batchedState.comm.cnt = 1) ∧
    batchedState.lockdepth = batchedState.comm.cnt ∧
    (∀ p : Packet, p.d0 = 91 →
      ∃ s', listen_step sortByTime batchedState p = .ok s' ∧ s'.comm.cnt = 1 ∧
        s'.lockdepth = 1) ∧
    (∀ p : Packet, p.d0 = 92 →
      ∃ s', listen_step sortByTime batchedState p = .ok s' ∧ s'.comm.cnt = 0 ∧
        s'.lockdepth = 0) :=
  batch_counter_invariant sortByTime [{ d0 := 91 }, framePacket "F", { d0 := 91 }]
    Instance.empty batchedState (by decide) (by decide) rfl

/-! ## Options of a configure-channel command -/

theorem whenKey_pres_key (P : Instance → Prop) (i : String × Dbl) (key : String)
    (body : Instance → Instance) (s : Instance) (hs : P s)
    (hbody : i.1 = key → ∀ st, P st → P (body st)) : P (whenKey i key body s) := by
  unfold whenKey
  split
  · rename_i h
    exact hbody h s hs
  · exact hs

/-! One option and one field: the field takes the option's value when the key is
the field's key, and keeps its value otherwise. -/

theorem option_step_pos_bottom (w c : Nat) (s : Instance) (i : String × Dbl) :
    ((configchannel_option w c s i).windows w).pos_bottom
      = if i.1 = "posbot" then i.2 else (s.windows w).pos_bottom := by
  by_cases h : i.1 = "posbot"
  · rw [if_pos h]
    simp [configchannel_option, whenKey, h, updWin, updChan, setAt, clear_data_id]
  · rw [if_neg h]
    have key := whenKey_pres_key
      (fun st => (st.windows w).pos_bottom = (s.windows w).pos_bottom) i
    unfold configchannel_option
    iterate 20 refine key _ _ _ ?_ (fun hk st hst => ?_)
    rfl
    all_goals first
      | exact absurd hk h
      | (simp only [updWin, updChan, setAt, clear_data_id, if_true]; exact hst)
      | (split <;> first
          | exact hst
          | (simp only [updWin, updChan, setAt, clear_data_id, if_true]; exact hst))

theorem option_step_pos_top (w c : Nat) (s : Instance) (i : String × Dbl) :
    ((configchannel_option w c s i).windows w).pos_top
      = if i.1 = "postop" then i.2 else (s.windows w).pos_top := by
  by_cases h : i.1 = "postop"
  · rw [if_pos h]
    simp [configchannel_option, whenKey, h, updWin, updChan, setAt, clear_data_id]
  · rw [if_neg h]
    have key := whenKey_pres_key
      (fun st => (st.windows w).pos_top = (s.windows w).pos_top) i
    unfold configchannel_option
    iterate 20 refine key _ _ _ ?_ (fun hk st hst => ?_)
    rfl
    all_goals first
      | exact absurd hk h
      | (simp only [updWin, updChan, setAt, clear_data_id, if_true]; exact hst)
      | (split <;> first
          | exact hst
          | (simp only [updWin, updChan, setAt, clear_data_id, if_true]; exact hst))

theorem option_step_minskip (w c : Nat) (s : Instance) (i : String × Dbl) :
    ((configchannel_option w c s i).windows w).minskip
      = if i.1 = "minskp" then Dbl.toInt i.2 else (s.windows w).minskip := by
  by_cases h : i.1 = "minskp"
  · rw [if_pos h]
    simp [configchannel_option, whenKey, h, updWin, updChan, setAt, clear_data_id]
  · rw [if_neg h]
    have key := whenKey_pres_key
      (fun st => (st.windows w).minskip = (s.windows w).minskip) i
    unfold configchannel_option
    iterate 20 refine key _ _ _ ?_ (fun hk st hst => ?_)
    rfl
    all_goals first
      | exact absurd hk h
      | (simp only [updWin, updChan, setAt, clear_data_id, if_true]; exact hst)
      | (split <;> first
          | exact hst
          | (simp only [updWin, updChan, setAt, clear_data_id, if_true]; exact hst))

theorem option_step_autorange (w c : Nat) (s : Instance) (i : String × Dbl) :
    ((configchannel_option w c s i).windows w).autorange
      = if i.1 = "autor" then Dbl.toInt i.2 else (s.windows w).autorange := by
  by_cases h : i.1 = "autor"
  · rw [if_pos h]
    simp [configchannel_option, whenKey, h, updWin, updChan, setAt, clear_data_id]
  · rw [if_neg h]
    have key := whenKey_pres_key
      (fun st => (st.windows w).autorange = (s.windows w).autorange) i
    unfold configchannel_option
    iterate 20 refine key _ _ _ ?_ (fun hk st hst => ?_)
    rfl
    all_goals first
      | exact absurd hk h
      | (simp only [updWin, updChan, setAt, clear_data_id, if_true]; exact hst)
      | (split <;> first
          | exact hst
          | (simp only [updWin, updChan, setAt, clear_data_id, if_true]; exact hst))

theorem option_step_names (w c : Nat) (s : Instance) (i : String × Dbl) :
    ((configchannel_option w c s i).windows w).names
      = if i.1 = "names" then Dbl.toInt i.2 else (s.windows w).names := by
  by_cases h : i.1 = "names"
  · rw [if_pos h]
    simp [configchannel_option, whenKey, h, updWin, updChan, setAt, clear_data_id]
  · rw [if_neg h]
    have key := whenKey_pres_key
      (fun st => (st.windows w).names = (s.windows w).names) i
    unfold configchannel_option
    iterate 20 refine key _ _ _ ?_ (fun hk st hst => ?_)
    rfl
    all_goals first
      | exact absurd hk h
      | (simp only [updWin, updChan, setAt, clear_data_id, if_true]; exact hst)
      | (split <;> first
          | exact hst
          | (simp only [updWin, updChan, setAt, clear_data_id, if_true]; exact hst))

theorem option_step_logsc (w c : Nat) (s : Instance) (i : String × Dbl) :
    ((configchannel_option w c s i).windows w).logsc
      = if i.1 = "logsc" then Dbl.toInt i.2 else (s.windows w).logsc := by
  by_cases h : i.1 = "logsc"
  · rw [if_pos h]
    simp [configchannel_option, whenKey, h, updWin, updChan, setAt, clear_data_id]
  · rw [if_neg h]
    have key := whenKey_pres_key
      (fun st => (st.windows w).logsc = (s.windows w).logsc) i
    unfold configchannel_option
    iterate 20 refine key _ _ _ ?_ (fun hk st hst => ?_)
    rfl
    all_goals first
      | exact absurd hk h
      | (simp only [updWin, updChan, setAt, clear_data_id, if_true]; exact hst)
      | (split <;> first
          | exact hst
          | (simp only [updWin, updChan, setAt, clear_data_id, if_true]; exact hst))

theorem option_step_red (w c : Nat) (s : Instance) (i : String × Dbl) :
    ((configchannel_option w c s i).channels c).style.r
      = if i.1 = "red" then i.2 else (s.channels c).style.r := by
  by_cases h : i.1 = "red"
  · rw [if_pos h]
    simp [configchannel_option, whenKey, h, updWin, updChan, setAt, clear_data_id]
  · rw [if_neg h]
    have key := whenKey_pres_key
      (fun st => (st.channels c).style.r = (s.channels c).style.r) i
    unfold configchannel_option
    iterate 20 refine key _ _ _ ?_ (fun hk st hst => ?_)
    rfl
    all_goals first
      | exact absurd hk h
      | (simp only [updWin, updChan, setAt, clear_data_id, if_true]; exact hst)
      | (split <;> first
          | exact hst
          | (simp only [updWin, updChan, setAt, clear_data_id, if_true]; exact hst))

theorem option_step_green (w c : Nat) (s : Instance) (i : String × Dbl) :
    ((configchannel_option w c s i).channels c).style.g
      = if i.1 = "green" then i.2 else (s.channels c).style.g := by
  by_cases h : i.1 = "green"
  · rw [if_pos h]
    simp [configchannel_option, whenKey, h, updWin, updChan, setAt, clear_data_id]
  · rw [if_neg h]
    have key := whenKey_pres_key
      (fun st => (st.channels c).style.g = (s.channels c).style.g) i
    unfold configchannel_option
    iterate 20 refine key _ _ _ ?_ (fun hk st hst => ?_)
    rfl
    all_goals first
      | exact absurd hk h
      | (simp only [updWin, updChan, setAt, clear_data_id, if_true]; exact hst)
      | (split <;> first
          | exact hst
          | (simp only [updWin, updChan, setAt, clear_data_id, if_true]; exact hst))

theorem option_step_blue (w c : Nat) (s : Instance) (i : String × Dbl) :
    ((configchannel_option w c s i).channels c).style.b
      = if i.1 = "blue" then i.2 else (s.channels c).style.b := by
  by_cases h : i.1 = "blue"
  · rw [if_pos h]
    simp [configchannel_option, whenKey, h, updWin, updChan, setAt, clear_data_id]
  · rw [if_neg h]
    have key := whenKey_pres_key
      (fun st => (st.channels c).style.b = (s.channels c).style.b) i
    unfold configchannel_option
    iterate 20 refine key _ _ _ ?_ (fun hk st hst => ?_)
    rfl
    all_goals first
      | exact absurd hk h
      | (simp only [updWin, updChan, setAt, clear_data_id, if_true]; exact hst)
      | (split <;> first
          | exact hst
          | (simp only [updWin, updChan, setAt, clear_data_id, if_true]; exact hst))

theorem option_step_alpha (w c : Nat) (s : Instance) (i : String × Dbl) :
    ((configchannel_option w c s i).channels c).style.a
      = if i.1 = "alpha" then i.2 else (s.channels c).style.a := by
  by_cases h : i.1 = "alpha"
  · rw [if_pos h]
    simp [configchannel_option, whenKey, h, updWin, updChan, setAt, clear_data_id]
  · rw [if_neg h]
    have key := whenKey_pres_key
      (fun st => (st.channels c).style.a = (s.channels c).style.a) i
    unfold configchannel_option
    iterate 20 refine key _ _ _ ?_ (fun hk st hst => ?_)
    rfl
    all_goals first
      | exact absurd hk h
      | (simp only [updWin, updChan, setAt, clear_data_id, if_true]; exact hst)
      | (split <;> first
          | exact hst
          | (simp only [updWin, updChan, setAt, clear_data_id, if_true]; exact hst))

theorem option_step_style (w c : Nat) (s : Instance) (i : String × Dbl) :
    ((configchannel_option w c s i).channels c).style.style
      = if i.1 = "style" then Dbl.toInt i.2 else (s.channels c).style.style := by
  by_cases h : i.1 = "style"
  · rw [if_pos h]
    simp [configchannel_option, whenKey, h, updWin, updChan, setAt, clear_data_id]
  · rw [if_neg h]
    have key := whenKey_pres_key
      (fun st => (st.channels c).style.style = (s.channels c).style.style) i
    unfold configchannel_option
    iterate 20 refine key _ _ _ ?_ (fun hk st hst => ?_)
    rfl
    all_goals first
      | exact absurd hk h
      | (simp only [updWin, updChan, setAt, clear_data_id, if_true]; exact hst)
      | (split <;> first
          | exact hst
          | (simp only [updWin, updChan, setAt, clear_data_id, if_true]; exact hst))

theorem option_step_width (w c : Nat) (s : Instance) (i : String × Dbl) :
    ((configchannel_option w c s i).channels c).style.width
      = if i.1 = "width" then i.2 else (s.channels c).style.width := by
  by_cases h : i.1 = "width"
  · rw [if_pos h]
    simp [configchannel_option, whenKey, h, updWin, updChan, setAt, clear_data_id]
  · rw [if_neg h]
    have key := whenKey_pres_key
      (fun st => (st.channels c).style.width = (s.channels c).style.width) i
    unfold configchannel_option
    iterate 20 refine key _ _ _ ?_ (fun hk st hst => ?_)
    rfl
    all_goals first
      | exact absurd hk h
      | (simp only [updWin, updChan, setAt, clear_data_id, if_true]; exact hst)
      | (split <;> first
          | exact hst
          | (simp only [updWin, updChan, setAt, clear_data_id, if_true]; exact hst))

theorem option_step_wintab (w c : Nat) (s : Instance) (i : String × Dbl) :
    ((configchannel_option w c s i).channels c).wintab
      = if i.1 = "wintab" then Dbl.toInt i.2 else (s.channels c).wintab := by
  by_cases h : i.1 = "wintab"
  · rw [if_pos h]
    simp [configchannel_option, whenKey, h, updWin, updChan, setAt, clear_data_id]
  · rw [if_neg h]
    have key := whenKey_pres_key
      (fun st => (st.channels c).wintab = (s.channels c).wintab) i
    unfold configchannel_option
    iterate 20 refine key _ _ _ ?_ (fun hk st hst => ?_)
    rfl
    all_goals first
      | exact absurd hk h
      | (simp only [updWin, updChan, setAt, clear_data_id, if_true]; exact hst)
      | (split <;> first
          | exact hst
          | (simp only [updWin, updChan, setAt, clear_data_id, if_true]; exact hst))

theorem option_step_displayname (w c : Nat) (s : Instance) (i : String × Dbl) :
    ((configchannel_option w c s i).channels c).displayname
      = if i.1 = "shownm" then Dbl.toInt i.2 else (s.channels c).displayname := by
  by_cases h : i.1 = "shownm"
  · rw [if_pos h]
    simp [configchannel_option, whenKey, h, updWin, updChan, setAt, clear_data_id]
  · rw [if_neg h]
    have key := whenKey_pres_key
      (fun st => (st.channels c).displayname = (s.channels c).displayname) i
    unfold configchannel_option
    iterate 20 refine key _ _ _ ?_ (fun hk st hst => ?_)
    rfl
    all_goals first
      | exact absurd hk h
      | (simp only [updWin, updChan, setAt, clear_data_id, if_true]; exact hst)
      | (split <;> first
          | exact hst
          | (simp only [updWin, updChan, setAt, clear_data_id, if_true]; exact hst))

theorem option_step_showshadow (w c : Nat) (s : Instance) (i : String × Dbl) :
    ((configchannel_option w c s i).channels c).showshadow
      = if i.1 = "showsh" then Dbl.toInt i.2 else (s.channels c).showshadow := by
  by_cases h : i.1 = "showsh"
  · rw [if_pos h]
    simp [configchannel_option, whenKey, h, updWin, updChan, setAt, clear_data_id]
  · rw [if_neg h]
    have key := whenKey_pres_key
      (fun st => (st.channels c).showshadow = (s.channels c).showshadow) i
    unfold configchannel_option
    iterate 20 refine key _ _ _ ?_ (fun hk st hst => ?_)
    rfl
    all_goals first
      | exact absurd hk h
      | (simp only [updWin, updChan, setAt, clear_data_id, if_true]; exact hst)
      | (split <;> first
          | exact hst
          | (simp only [updWin, updChan, setAt, clear_data_id, if_true]; exact hst))

theorem option_step_active (w c : Nat) (s : Instance) (i : String × Dbl) :
    ((configchannel_option w c s i).channels c).active
      = if i.1 = "active" then Dbl.toInt i.2 else (s.channels c).active := by
  by_cases h : i.1 = "active"
  · rw [if_pos h]
    simp [configchannel_option, whenKey, h, updWin, updChan, setAt, clear_data_id]
  · rw [if_neg h]
    have key := whenKey_pres_key
      (fun st => (st.channels c).active = (s.channels c).active) i
    unfold configchannel_option
    iterate 20 refine key _ _ _ ?_ (fun hk st hst => ?_)
    rfl
    all_goals first
      | exact absurd hk h
      | (simp only [updWin, updChan, setAt, clear_data_id, if_true]; exact hst)
      | (split <;> first
          | exact hst
          | (simp only [updWin, updChan, setAt, clear_data_id, if_true]; exact hst))

theorem option_step_samplesperpixel (w c : Nat) (s : Instance) (i : String × Dbl) :
    ((configchannel_option w c s i).channels c).samplesperpixel
      = if i.1 = "perpix" then i.2 else (s.channels c).samplesperpixel := by
  by_cases h : i.1 = "perpix"
  · rw [if_pos h]
    simp [configchannel_option, whenKey, h, updWin, updChan, setAt, clear_data_id]
  · rw [if_neg h]
    have key := whenKey_pres_key
      (fun st => (st.channels c).samplesperpixel = (s.channels c).samplesperpixel) i
    unfold configchannel_option
    iterate 20 refine key _ _ _ ?_ (fun hk st hst => ?_)
    rfl
    all_goals first
      | exact absurd hk h
      | (simp only [updWin, updChan, setAt, clear_data_id, if_true]; exact hst)
      | (split <;> first
          | exact hst
          | (simp only [updWin, updChan, setAt, clear_data_id, if_true]; exact hst))

/-- The option `top` is stored only while the window is not auto-ranged. -/
theorem option_step_top (w c : Nat) (s : Instance) (i : String × Dbl) :
    ((configchannel_option w c s i).windows w).top
      = if i.1 = "top" ∧ (s.windows w).autorange = 0 then i.2 else (s.windows w).top := by
  by_cases h : i.1 = "top"
  · by_cases ha : (s.windows w).autorange = 0
    · rw [if_pos ⟨h, ha⟩]
      simp [configchannel_option, whenKey, h, ha, updWin, updChan, setAt, clear_data_id]
    · rw [if_neg (fun hc => ha hc.2)]
      simp [configchannel_option, whenKey, h, ha, updWin, updChan, setAt, clear_data_id]
  · rw [if_neg (fun hc => h hc.1)]
    have key := whenKey_pres_key (fun st => (st.windows w).top = (s.windows w).top) i
    unfold configchannel_option
    iterate 20 refine key _ _ _ ?_ (fun hk st hst => ?_)
    rfl
    all_goals first
      | exact absurd hk h
      | (simp only [updWin, updChan, setAt, clear_data_id, if_true]; exact hst)
      | (split <;> first
          | exact hst
          | (simp only [updWin, updChan, setAt, clear_data_id, if_true]; exact hst))

/-- The option `bottom` is stored only while the window is not auto-ranged. -/
theorem option_step_bottom (w c : Nat) (s : Instance) (i : String × Dbl) :
    ((configchannel_option w c s i).windows w).bottom
      = if i.1 = "bottom" ∧ (s.windows w).autorange = 0 then i.2
        else (s.windows w).bottom := by
  by_cases h : i.1 = "bottom"
  · by_cases ha : (s.windows w).autorange = 0
    · rw [if_pos ⟨h, ha⟩]
      simp [configchannel_option, whenKey, h, ha, updWin, updChan, setAt, clear_data_id]
    · rw [if_neg (fun hc => ha hc.2)]
      simp [configchannel_option, whenKey, h, ha, updWin, updChan, setAt, clear_data_id]
  · rw [if_neg (fun hc => h hc.1)]
    have key := whenKey_pres_key (fun st => (st.windows w).bottom = (s.windows w).bottom) i
    unfold configchannel_option
    iterate 20 refine key _ _ _ ?_ (fun hk st hst => ?_)
    rfl
    all_goals first
      | exact absurd hk h
      | (simp only [updWin, updChan, setAt, clear_data_id, if_true]; exact hst)
      | (split <;> first
          | exact hst
          | (simp only [updWin, updChan, setAt, clear_data_id, if_true]; exact hst))

/-- The option `clear` with value 1 empties the segment list; no option adds a
segment. -/
theorem option_step_data (w c : Nat) (s : Instance) (i : String × Dbl) :
    ((configchannel_option w c s i).channels c).data
      = if i.1 = "clear" ∧ Dbl.toInt i.2 = 1 then [] else (s.channels c).data := by
  by_cases h : i.1 = "clear"
  · by_cases ha : Dbl.toInt i.2 = 1
    · rw [if_pos ⟨h, ha⟩]
      simp [configchannel_option, whenKey, h, ha, updWin, updChan, setAt, clear_data_id]
    · rw [if_neg (fun hc => ha hc.2)]
      simp [configchannel_option, whenKey, h, ha, updWin, updChan, setAt, clear_data_id]
  · rw [if_neg (fun hc => h hc.1)]
    have key := whenKey_pres_key (fun st => (st.channels c).data = (s.channels c).data) i
    unfold configchannel_option
    iterate 20 refine key _ _ _ ?_ (fun hk st hst => ?_)
    rfl
    all_goals first
      | exact absurd hk h
      | (simp only [updWin, updChan, setAt, clear_data_id, if_true]; exact hst)
      | (split <;> exact hst)

/-! The option loop and the last occurrence of a key. -/

theorem lastOption_fold_aux {α : Type} (proj : Instance → α) (conv : Dbl → α) (K : String)
    (w c : Nat)
    (step : ∀ s i, proj (configchannel_option w c s i)
      = if i.1 = K then conv i.2 else proj s) (d : α) :
    ∀ (e1 : List (String × Dbl)) (s : Instance) (acc : Option Dbl),
      proj s = (acc.map conv).getD d →
      proj (e1.foldl (configchannel_option w c) s)
        = ((e1.foldl (fun acc i => if i.1 = K then some i.2 else acc) acc).map conv).getD d
  | [], _, _, h => h
  | i :: rest, s, acc, h => by
    rw [List.foldl_cons, List.foldl_cons]
    apply lastOption_fold_aux proj conv K w c step d rest
    rw [step]
    by_cases hk : i.1 = K
    · simp [hk]
    · simp [hk, h]

/-- After the option loop, a field whose key occurs in the options holds the
value of the key's last occurrence. -/
theorem lastOption_fold {α : Type} (proj : Instance → α) (conv : Dbl → α) (K : String)
    (w c : Nat)
    (step : ∀ s i, proj (configchannel_option w c s i)
      = if i.1 = K then conv i.2 else proj s)
    (e1 : List (String × Dbl)) (s : Instance) (v : Dbl) (hv : lastOption e1 K = some v) :
    proj (e1.foldl (configchannel_option w c) s) = conv v := by
  have h := lastOption_fold_aux proj conv K w c step (proj s) e1 s none rfl
  unfold lastOption at hv
  rw [h, hv]
  rfl

theorem lastOption_none_fold {α : Type} (proj : Instance → α) (conv : Dbl → α) (K : String)
    (w c : Nat)
    (step : ∀ s i, proj (configchannel_option w c s i)
      = if i.1 = K then conv i.2 else proj s)
    (e1 : List (String × Dbl)) (s : Instance) (hv : lastOption e1 K = none) :
    proj (e1.foldl (configchannel_option w c) s) = proj s := by
  have h := lastOption_fold_aux proj conv K w c step (proj s) e1 s none rfl
  unfold lastOption at hv
  rw [h, hv]
  rfl

/-- In a window that is not auto-ranged, with no `autor` option in the list, the
option loop stores the last `top` and the last `bottom`. -/
theorem options_bounds_aux (w c : Nat) (d1 d2 : Dbl) :
    ∀ (e1 : List (String × Dbl)) (s : Instance) (a1 a2 : Option Dbl),
      (s.windows w).autorange = 0 → (∀ i ∈ e1, i.1 ≠ "autor") →
      (s.windows w).top = a1.getD d1 → (s.windows w).bottom = a2.getD d2 →
      ((e1.foldl (configchannel_option w c) s).windows w).top
        = (e1.foldl (fun acc i => if i.1 = "top" then some i.2 else acc) a1).getD d1 ∧
      ((e1.foldl (configchannel_option w c) s).windows w).bottom
        = (e1.foldl (fun acc i => if i.1 = "bottom" then some i.2 else acc) a2).getD d2
  | [], _, _, _, _, _, h1, h2 => ⟨h1, h2⟩
  | i :: rest, s, a1, a2, ha, hno, h1, h2 => by
    simp only [List.foldl_cons]
    have hi : i.1 ≠ "autor" := hno i (List.mem_cons_self _ _)
    apply options_bounds_aux w c d1 d2 rest
    · rw [option_step_autorange, if_neg hi]
      exact ha
    · exact fun j hj => hno j (List.mem_cons_of_mem _ hj)
    · rw [option_step_top]
      by_cases hk : i.1 = "top"
      · simp [hk, ha]
      · simp [hk, h1]
    · rw [option_step_bottom]
      by_cases hk : i.1 = "bottom"
      · simp [hk, ha]
      · simp [hk, h2]

/-- In an auto-ranged window, with no `autor` option in the list, the option loop
leaves `top` and `bottom` as they are. -/
theorem options_bounds_kept (w c : Nat) :
    ∀ (e1 : List (String × Dbl)) (s : Instance),
      (s.windows w).autorange ≠ 0 → (∀ i ∈ e1, i.1 ≠ "autor") →
      ((e1.foldl (configchannel_option w c) s).windows w).top = (s.windows w).top ∧
      ((e1.foldl (configchannel_option w c) s).windows w).bottom = (s.windows w).bottom
  | [], _, _, _ => ⟨rfl, rfl⟩
  | i :: rest, s, ha, hno => by
    simp only [List.foldl_cons]
    have hi : i.1 ≠ "autor" := hno i (List.mem_cons_self _ _)
    have ha1 : ((configchannel_option w c s i).windows w).autorange ≠ 0 := by
      rw [option_step_autorange, if_neg hi]
      exact ha
    obtain ⟨t, b⟩ := options_bounds_kept w c rest (configchannel_option w c s i) ha1
      (fun j hj => hno j (List.mem_cons_of_mem _ hj))
    rw [t, b, option_step_top, option_step_bottom,
      if_neg (fun hc => ha hc.2), if_neg (fun hc => ha hc.2)]
    exact ⟨rfl, rfl⟩

theorem options_data_nil (w c : Nat) :
    ∀ (e1 : List (String × Dbl)) (s : Instance), (s.channels c).data = [] →
      ((e1.foldl (configchannel_option w c) s).channels c).data = []
  | [], _, h => h
  | i :: rest, s, h => by
    simp only [List.foldl_cons]
    apply options_data_nil w c rest
    rw [option_step_data, h]
    split <;> rfl

/-- An option `clear` with value 1 leaves the channel without segments at the end
of the option loop. -/
theorem options_clear (w c : Nat) :
    ∀ (e1 : List (String × Dbl)) (s : Instance),
      (∃ i ∈ e1, i.1 = "clear" ∧ Dbl.toInt i.2 = 1) →
      ((e1.foldl (configchannel_option w c) s).channels c).data = []
  | [], _, h => by
    obtain ⟨i, hi, -⟩ := h
    exact absurd hi (List.not_mem_nil _)
  | i :: rest, s, h => by
    simp only [List.foldl_cons]
    obtain ⟨j, hj, hk, hv⟩ := h
    rcases List.mem_cons.mp hj with e | hj'
    · apply options_data_nil w c rest
      rw [option_step_data, ← e, if_pos ⟨hk, hv⟩]
    · exact options_clear w c rest _ ⟨j, hj', hk, hv⟩

/-- The window record in slot `w` and the channel record in slot `c` at the end of
`configchannel` are those left by the option loop, up to the `reconfigured` flag
and the two label texts. -/
theorem configchannel_apply_records (s2 : Instance) (c w f : Nat)
    (name dname label window : String) (e1 : List (String × Dbl)) :
    ∃ s5 : Instance,
      (s5.windows w).autorange = (s2.windows w).autorange ∧
      (s5.windows w).top = (s2.windows w).top ∧
      (s5.windows w).bottom = (s2.windows w).bottom ∧
      (configchannel_apply s2 c w f name dname label window e1).windows w
        = { (e1.foldl (configchannel_option w c) s5).windows w with
            reconfigured :=
              ((configchannel_apply s2 c w f name dname label window e1).windows w).reconfigured } ∧
      (configchannel_apply s2 c w f name dname label window e1).channels c
        = { (e1.foldl (configchannel_option w c) s5).channels c with
            im_name := { ((e1.foldl (configchannel_option w c) s5).channels c).im_name with
              text := dname },
            im_label := { ((e1.foldl (configchannel_option w c) s5).channels c).im_label with
              text := label } } := by
  refine ⟨updFrame (updWin (updChan s2 c (fun ch =>
          { ch with used := 1, name := name, dname := dname, label := label, window := w,
                    win := some w })) w
        (fun win => { win with channels := IdSet.insert win.channels c, used := 1,
                               name := window, frame := f, fr := some f })) f
      (fun fr => { fr with windows := IdSet.insert fr.windows w }), ?_, ?_, ?_, ?_, ?_⟩
  · simp [updFrame, updWin, updChan, setAt]
  · simp [updFrame, updWin, updChan, setAt]
  · simp [updFrame, updWin, updChan, setAt]
  · unfold configchannel_apply
    simp only
    split
    · simp [updWin, updChan, setAt]
    · simp only [updChan]
  · unfold configchannel_apply
    simp only
    split
    · simp [updWin, updChan, setAt]
    · simp [updChan, setAt]

/-- A configure-channel command that passes the five guards of `configchannel`
ends in the tail of the routine, on the channel slot and the window slot it has
resolved. -/
theorem configchannel_accepted (s : Instance) (e1 : List (String × Dbl)) (e2 : List String)
    (f c w : Nat) (window : String) (s1 s2 : Instance)
    (hname : tokenValue "#name" e2 "" ≠ "")
    (hframe : tokenValue "#frame" e2 "" ≠ "")
    (hwindow : window = if tokenValue "#window" e2 "" = "" then tokenValue "#name" e2 ""
      else tokenValue "#window" e2 "")
    (hf : s.uframes.find (tokenValue "#frame" e2 "") = some f)
    (hrc : resolve_channel s (tokenValue "#name" e2 "") = (s1, c))
    (hdiff : window_name_differs s1 c window = false)
    (hrw : resolve_window s1 window = (s2, w))
    (hm1 : channel_window_mismatch s2 c w = false)
    (hm2 : window_frame_mismatch s2 w f = false) :
    configchannel s e1 e2 = .ok (configchannel_apply s2 c w f (tokenValue "#name" e2 "")
      (if tokenValue "#dname" e2 "" = "" then tokenValue "#name" e2 ""
        else tokenValue "#dname" e2 "")
      (tokenValue "#label" e2 "") window e1) := by
  have hs0 : ({ s with uframes := s.uframes } : Instance) = s := by cases s; rfl
  unfold configchannel
  simp only [hname, hframe, or_self, if_false, hf, NameMap.index_of_find hf, hs0, hrc,
    reduceCtorEq, ← hwindow, hdiff, hrw, hm1, hm2, Bool.false_eq_true]

/-- The fields of window slot `w` and channel slot `c` after the tail of
`configchannel` with the options `e1`. -/
theorem configchannel_apply_options (s2 : Instance) (c w f : Nat)
    (name dname label window : String) (e1 : List (String × Dbl)) (s9 : Instance)
    (h9 : s9 = configchannel_apply s2 c w f name dname label window e1) :
    (∀ v, lastOption e1 "posbot" = some v → (s9.windows w).pos_bottom = v) ∧
    (∀ v, lastOption e1 "postop" = some v → (s9.windows w).pos_top = v) ∧
    (∀ v, lastOption e1 "minskp" = some v → (s9.windows w).minskip = Dbl.toInt v) ∧
    (∀ v, lastOption e1 "autor" = some v → (s9.windows w).autorange = Dbl.toInt v) ∧
    (∀ v, lastOption e1 "names" = some v → (s9.windows w).names = Dbl.toInt v) ∧
    (∀ v, lastOption e1 "logsc" = some v → (s9.windows w).logsc = Dbl.toInt v) ∧
    (∀ v, lastOption e1 "red" = some v → (s9.channels c).style.r = v) ∧
    (∀ v, lastOption e1 "green" = some v → (s9.channels c).style.g = v) ∧
    (∀ v, lastOption e1 "blue" = some v → (s9.channels c).style.b = v) ∧
    (∀ v, lastOption e1 "alpha" = some v → (s9.channels c).style.a = v) ∧
    (∀ v, lastOption e1 "style" = some v → (s9.channels c).style.style = Dbl.toInt v) ∧
    (∀ v, lastOption e1 "width" = some v → (s9.channels c).style.width = v) ∧
    (∀ v, lastOption e1 "wintab" = some v → (s9.channels c).wintab = Dbl.toInt v) ∧
    (∀ v, lastOption e1 "shownm" = some v → (s9.channels c).displayname = Dbl.toInt v) ∧
    (∀ v, lastOption e1 "showsh" = some v → (s9.channels c).showshadow = Dbl.toInt v) ∧
    (∀ v, lastOption e1 "active" = some v → (s9.channels c).active = Dbl.toInt v) ∧
    (∀ v, lastOption e1 "perpix" = some v → (s9.channels c).samplesperpixel = v) ∧
    ((s2.windows w).autorange = 0 → (∀ i ∈ e1, i.1 ≠ "autor") →
      (∀ v, lastOption e1 "top" = some v → (s9.windows w).top = v) ∧
      (∀ v, lastOption e1 "bottom" = some v → (s9.windows w).bottom = v)) ∧
    ((s2.windows w).autorange ≠ 0 → (∀ i ∈ e1, i.1 ≠ "autor") →
      (s9.windows w).top = (s2.windows w).top ∧
      (s9.windows w).bottom = (s2.windows w).bottom) ∧
    ((∃ i ∈ e1, i.1 = "clear" ∧ Dbl.toInt i.2 = 1) → (s9.channels c).data = []) := by
  obtain ⟨s5, ha5, ht5, hb5, hwin, hchan⟩ :=
    configchannel_apply_records s2 c w f name dname label window e1
  rw [← h9] at hwin hchan
  refine ⟨?_, ?_, ?_, ?_, ?_, ?_, ?_, ?_, ?_, ?_, ?_, ?_, ?_, ?_, ?_, ?_, ?_, ?_, ?_, ?_⟩
  · intro v hv
    rw [hwin]
    exact lastOption_fold (fun st => (st.windows w).pos_bottom) (fun v => v) "posbot" w c
      (option_step_pos_bottom w c) e1 s5 v hv
  · intro v hv
    rw [hwin]
    exact lastOption_fold (fun st => (st.windows w).pos_top) (fun v => v) "postop" w c
      (option_step_pos_top w c) e1 s5 v hv
  · intro v hv
    rw [hwin]
    exact lastOption_fold (fun st => (st.windows w).minskip) Dbl.toInt "minskp" w c
      (option_step_minskip w c) e1 s5 v hv
  · intro v hv
    rw [hwin]
    exact lastOption_fold (fun st => (st.windows w).autorange) Dbl.toInt "autor" w c
      (option_step_autorange w c) e1 s5 v hv
  · intro v hv
    rw [hwin]
    exact lastOption_fold (fun st => (st.windows w).names) Dbl.toInt "names" w c
      (option_step_names w c) e1 s5 v hv
  · intro v hv
    rw [hwin]
    exact lastOption_fold (fun st => (st.windows w).logsc) Dbl.toInt "logsc" w c
      (option_step_logsc w c) e1 s5 v hv
  · intro v hv
    rw [hchan]
    exact lastOption_fold (fun st => (st.channels c).style.r) (fun v => v) "red" w c
      (option_step_red w c) e1 s5 v hv
  · intro v hv
    rw [hchan]
    exact lastOption_fold (fun st => (st.channels c).style.g) (fun v => v) "green" w c
      (option_step_green w c) e1 s5 v hv
  · intro v hv
    rw [hchan]
    exact lastOption_fold (fun st => (st.channels c).style.b) (fun v => v) "blue" w c
      (option_step_blue w c) e1 s5 v hv
  · intro v hv
    rw [hchan]
    exact lastOption_fold (fun st => (st.channels c).style.a) (fun v => v) "alpha" w c
      (option_step_alpha w c) e1 s5 v hv
  · intro v hv
    rw [hchan]
    exact lastOption_fold (fun st => (st.channels c).style.style) Dbl.toInt "style" w c
      (option_step_style w c) e1 s5 v hv
  · intro v hv
    rw [hchan]
    exact lastOption_fold (fun st => (st.channels c).style.width) (fun v => v) "width" w c
      (option_step_width w c) e1 s5 v hv
  · intro v hv
    rw [hchan]
    exact lastOption_fold (fun st => (st.channels c).wintab) Dbl.toInt "wintab" w c
      (option_step_wintab w c) e1 s5 v hv
  · intro v hv
    rw [hchan]
    exact lastOption_fold (fun st => (st.channels c).displayname) Dbl.toInt "shownm" w c
      (option_step_displayname w c) e1 s5 v hv
  · intro v hv
    rw [hchan]
    exact lastOption_fold (fun st => (st.channels c).showshadow) Dbl.toInt "showsh" w c
      (option_step_showshadow w c) e1 s5 v hv
  · intro v hv
    rw [hchan]
    exact lastOption_fold (fun st => (st.channels c).active) Dbl.toInt "active" w c
      (option_step_active w c) e1 s5 v hv
  · intro v hv
    rw [hchan]
    exact lastOption_fold (fun st => (st.channels c).samplesperpixel) (fun v => v) "perpix" w c
      (option_step_samplesperpixel w c) e1 s5 v hv
  · intro ha hno
    rw [hwin]
    obtain ⟨t, b⟩ := options_bounds_aux w c (s5.windows w).top (s5.windows w).bottom e1 s5
      none none (by rw [ha5]; exact ha) hno rfl rfl
    refine ⟨fun v hv => ?_, fun v hv => ?_⟩
    · show ((e1.foldl (configchannel_option w c) s5).windows w).top = v
      unfold lastOption at hv
      rw [t, hv]
      rfl
    · show ((e1.foldl (configchannel_option w c) s5).windows w).bottom = v
      unfold lastOption at hv
      rw [b, hv]
      rfl
  · intro ha hno
    rw [hwin]
    obtain ⟨t, b⟩ := options_bounds_kept w c e1 s5 (by rw [ha5]; exact ha) hno
    exact ⟨t.trans ht5, b.trans hb5⟩
  · intro hcl
    rw [hchan]
    exact options_clear w c e1 s5 hcl

/-- Counterexample to C24: the configure-channel packet for the new channel `A`
carries the options `autor = 1` and `top = 5`, in this order; it is accepted, and
afterwards the window's `top` is still the default 1, not 5. -/
theorem option_top_counterexample :
    autoTopState.uchannels.find "A" = some 1 ∧ autoTopState.uwindows.find "W" = some 1 ∧
    lastOption [("autor", Dbl.fin 1), ("top", Dbl.fin 5)] "top" = some (Dbl.fin 5) ∧
    (autoTopState.windows 1).autorange = 1 ∧
    (autoTopState.windows 1).top = Dbl.fin 1 ∧
    (autoTopState.windows 1).top ≠ Dbl.fin 5 := by
  refine ⟨by decide, by decide, by decide, by decide, by decide, by decide⟩

/-- C24 as amended: for every state and every configure-channel packet that
passes the guards of `configchannel` (on channel slot `c` and window slot `w`),
each of the options posbot, postop, minskp, autor, names, logsc, red, green,
blue, alpha, style, width, wintab, shownm, showsh, active, perpix is stored in its
field, so that after the packet the field equals the value of the option's last
occurrence (converted to `int` for the integer fields).  The options top and
bottom are stored only while the window is not auto-ranged: when the window's
`autorange` is 0 and the packet carries no autor option, `top` and `bottom`
equal the value of their last occurrence; when `autorange` is not 0 and the
packet carries no autor option, they are left as they were.  An option clear
with value 1 leaves the channel with no segments. -/
theorem configchannel_options_stored (stdsort : List Sample → List Sample) (s : Instance)
    (p : Packet) (f c w : Nat) (window : String) (s1 s2 : Instance)
    (hop : p.d0 = 101)
    (hname : tokenValue "#name" p.toks "" ≠ "")
    (hframe : tokenValue "#frame" p.toks "" ≠ "")
    (hwindow : window = if tokenValue "#window" p.toks "" = "" then tokenValue "#name" p.toks ""
      else tokenValue "#window" p.toks "")
    (hf : s.uframes.find (tokenValue "#frame" p.toks "") = some f)
    (hrc : resolve_channel s (tokenValue "#name" p.toks "") = (s1, c))
    (hdiff : window_name_differs s1 c window = false)
    (hrw : resolve_window s1 window = (s2, w))
    (hm1 : channel_window_mismatch s2 c w = false)
    (hm2 : window_frame_mismatch s2 w f = false) :
    ∃ s9, dispatch stdsort p s = .ok s9 ∧
    (∀ v, lastOption p.opts "posbot" = some v → (s9.windows w).pos_bottom = v) ∧
    (∀ v, lastOption p.opts "postop" = some v → (s9.windows w).pos_top = v) ∧
    (∀ v, lastOption p.opts "minskp" = some v → (s9.windows w).minskip = Dbl.toInt v) ∧
    (∀ v, lastOption p.opts "autor" = some v → (s9.windows w).autorange = Dbl.toInt v) ∧
    (∀ v, lastOption p.opts "names" = some v → (s9.windows w).names = Dbl.toInt v) ∧
    (∀ v, lastOption p.opts "logsc" = some v → (s9.windows w).logsc = Dbl.toInt v) ∧
    (∀ v, lastOption p.opts "red" = some v → (s9.channels c).style.r = v) ∧
    (∀ v, lastOption p.opts "green" = some v → (s9.channels c).style.g = v) ∧
    (∀ v, lastOption p.opts "blue" = some v → (s9.channels c).style.b = v) ∧
    (∀ v, lastOption p.opts "alpha" = some v → (s9.channels c).style.a = v) ∧
    (∀ v, lastOption p.opts "style" = some v → (s9.channels c).style.style = Dbl.toInt v) ∧
    (∀ v, lastOption p.opts "width" = some v → (s9.channels c).style.width = v) ∧
    (∀ v, lastOption p.opts "wintab" = some v → (s9.channels c).wintab = Dbl.toInt v) ∧
    (∀ v, lastOption p.opts "shownm" = some v → (s9.channels c).displayname = Dbl.toInt v) ∧
    (∀ v, lastOption p.opts "showsh" = some v → (s9.channels c).showshadow = Dbl.toInt v) ∧
    (∀ v, lastOption p.opts "active" = some v → (s9.channels c).active = Dbl.toInt v) ∧
    (∀ v, lastOption p.opts "perpix" = some v → (s9.channels c).samplesperpixel = v) ∧
    ((s2.windows w).autorange = 0 → (∀ i ∈ p.opts, i.1 ≠ "autor") →
      (∀ v, lastOption p.opts "top" = some v → (s9.windows w).top = v) ∧
      (∀ v, lastOption p.opts "bottom" = some v → (s9.windows w).bottom = v)) ∧
    ((s2.windows w).autorange ≠ 0 → (∀ i ∈ p.opts, i.1 ≠ "autor") →
      (s9.windows w).top = (s2.windows w).top ∧
      (s9.windows w).bottom = (s2.windows w).bottom) ∧
    ((∃ i ∈ p.opts, i.1 = "clear" ∧ Dbl.toInt i.2 = 1) → (s9.channels c).data = []) := by
  have h := configchannel_accepted s p.opts p.toks f c w window s1 s2 hname hframe hwindow hf
    hrc hdiff hrw hm1 hm2
  refine ⟨_, (dispatch_configchannel stdsort p s hop).trans h, ?_⟩
  exact configchannel_apply_options s2 c w f _ _ _ window p.opts _ rfl

/-- Witness of C24 as amended: with frame `F` registered, the packet for the new
channel `A` in window `W` with the options `top = 5`, `red = 0.5`, `style = 1.7`,
`top = 7`, `clear = 1`. -/
theorem configchannel_options_stored_witness :
    ∃ s9, dispatch sortByTime optionsPacket frameState = .ok s9 ∧
    (∀ v, lastOption optionsPacket.opts "posbot" = some v → (s9.windows 1).pos_bottom = v) ∧
    (∀ v, lastOption optionsPacket.opts "postop" = some v → (s9.windows 1).pos_top = v) ∧
    (∀ v, lastOption optionsPacket.opts "minskp" = some v → (s9.windows 1).minskip = Dbl.toInt v) ∧
    (∀ v, lastOption optionsPacket.opts "autor" = some v → (s9.windows 1).autorange = Dbl.toInt v) ∧
    (∀ v, lastOption optionsPacket.opts "names" = some v → (s9.windows 1).names = Dbl.toInt v) ∧
    (∀ v, lastOption optionsPacket.opts "logsc" = some v → (s9.windows 1).logsc = Dbl.toInt v) ∧
    (∀ v, lastOption optionsPacket.opts "red" = some v → (s9.channels 1).style.r = v) ∧
    (∀ v, lastOption optionsPacket.opts "green" = some v → (s9.channels 1).style.g = v) ∧
    (∀ v, lastOption optionsPacket.opts "blue" = some v → (s9.channels 1).style.b = v) ∧
    (∀ v, lastOption optionsPacket.opts "alpha" = some v → (s9.channels 1).style.a = v) ∧
    (∀ v, lastOption optionsPacket.opts "style" = some v → (s9.channels 1).style.style = Dbl.toInt v) ∧
    (∀ v, lastOption optionsPacket.opts "width" = some v → (s9.channels 1).style.width = v) ∧
    (∀ v, lastOption optionsPacket.opts "wintab" = some v → (s9.channels 1).wintab = Dbl.toInt v) ∧
    (∀ v, lastOption optionsPacket.opts "shownm" = some v → (s9.channels 1).displayname = Dbl.toInt v) ∧
    (∀ v, lastOption optionsPacket.opts "showsh" = some v → (s9.channels 1).showshadow = Dbl.toInt v) ∧
    (∀ v, lastOption optionsPacket.opts "active" = some v → (s9.channels 1).active = Dbl.toInt v) ∧
    (∀ v, lastOption optionsPacket.opts "perpix" = some v → (s9.channels 1).samplesperpixel = v) ∧
    (((resolve_window (resolve_channel frameState "A").1 "W").1.windows 1).autorange = 0 → (∀ i ∈ optionsPacket.opts, i.1 ≠ "autor") →
      (∀ v, lastOption optionsPacket.opts "top" = some v → (s9.windows 1).top = v) ∧
      (∀ v, lastOption optionsPacket.opts "bottom" = some v → (s9.windows 1).bottom = v)) ∧
    (((resolve_window (resolve_channel frameState "A").1 "W").1.windows 1).autorange ≠ 0 → (∀ i ∈ optionsPacket.opts, i.1 ≠ "autor") →
      (s9.windows 1).top = ((resolve_window (resolve_channel frameState "A").1 "W").1.windows 1).top ∧
      (s9.windows 1).bottom = ((resolve_window (resolve_channel frameState "A").1 "W").1.windows 1).bottom) ∧
    ((∃ i ∈ optionsPacket.opts, i.1 = "clear" ∧ Dbl.toInt i.2 = 1) → (s9.channels 1).data = []) :=
  configchannel_options_stored sortByTime frameState optionsPacket 1 1 1 "W"
    (resolve_channel frameState "A").1 (resolve_window (resolve_channel frameState "A").1 "W").1
    (by decide) (by decide) (by decide) (by decide) (by decide) rfl (by decide) rfl
    (by decide) (by decide)

/-! ## Index safety of the range queries -/

end ColorfulPlotter
